import Mathlib

/-!
Shallow embedding of the Dgraph mutation-building engine of this repository
(`mutation_builder.py`, the `relations/` handlers and `entity_detector.py`),
together with proofs of the specified properties.

Python `dict`s (insertion-ordered, as in CPython 3.7+) are modelled as
association lists appended at the end on first insertion; machine-level
hashing (`hashlib.md5(text.encode('utf-8')).hexdigest()[:12]`) is modelled
by a full executable MD5 over the UTF-8 bytes of the key.
-/

set_option maxRecDepth 100000

namespace DgraphCurl

/-- 2^32, the modulus for MD5's 32-bit arithmetic. -/
def m32 : Nat := 4294967296

/-- Addition modulo 2^32. -/
def add32 (a b : Nat) : Nat := (a + b) % m32

/-- Left rotation of a 32-bit word. -/
def rotl32 (x c : Nat) : Nat := ((x <<< c) ||| (x >>> (32 - c))) % m32

/-- UTF-8 encoding of one character, as a list of byte values
(models Python `str.encode('utf-8')` per code point). -/
def encodeChar (c : Char) : List Nat :=
  let n := c.toNat
  if n < 128 then [n]
  else if n < 2048 then [192 + n / 64, 128 + n % 64]
  else if n < 65536 then [224 + n / 4096, 128 + (n / 64) % 64, 128 + n % 64]
  else [240 + n / 262144, 128 + (n / 4096) % 64, 128 + (n / 64) % 64, 128 + n % 64]

/-- UTF-8 bytes of a string. -/
def utf8Bytes (s : String) : List Nat := (s.data.map encodeChar).flatten

/-- `count` little-endian bytes of `v`. -/
def leBytes (v count : Nat) : List Nat :=
  (List.range count).map (fun i => (v >>> (8 * i)) % 256)

/-- MD5 padding: append 0x80, zero bytes to 56 mod 64, then the 64-bit
little-endian bit length. -/
def md5Pad (msg : List Nat) : List Nat :=
  let len := msg.length
  let k := (119 - len % 64) % 64
  msg ++ [128] ++ List.replicate k 0 ++ leBytes ((len * 8) % (m32 * m32)) 8

/-- Group bytes into 32-bit little-endian words. -/
def toWords : List Nat → List Nat
  | b0 :: b1 :: b2 :: b3 :: rest =>
      (b0 + 256 * b1 + 65536 * b2 + 16777216 * b3) :: toWords rest
  | _ => []

/-- Group words into 16-word blocks. -/
def toBlocks : List Nat → List (List Nat)
  | w0 :: w1 :: w2 :: w3 :: w4 :: w5 :: w6 :: w7 ::
    w8 :: w9 :: w10 :: w11 :: w12 :: w13 :: w14 :: w15 :: rest =>
      [w0, w1, w2, w3, w4, w5, w6, w7, w8, w9, w10, w11, w12, w13, w14, w15]
        :: toBlocks rest
  | _ => []

/-- The MD5 sine-derived constant table. -/
def md5K : List Nat :=
  [3614090360, 3905402710, 606105819, 3250441966, 4118548399, 1200080426,
   2821735955, 4249261313, 1770035416, 2336552879, 4294925233, 2304563134,
   1804603682, 4254626195, 2792965006, 1236535329, 4129170786, 3225465664,
   643717713, 3921069994, 3593408605, 38016083, 3634488961, 3889429448,
   568446438, 3275163606, 4107603335, 1163531501, 2850285829, 4243563512,
   1735328473, 2368359562, 4294588738, 2272392833, 1839030562, 4259657740,
   2763975236, 1272893353, 4139469664, 3200236656, 681279174, 3936430074,
   3572445317, 76029189, 3654602809, 3873151461, 530742520, 3299628645,
   4096336452, 1126891415, 2878612391, 4237533241, 1700485571, 2399980690,
   4293915773, 2240044497, 1873313359, 4264355552, 2734768916, 1309151649,
   4149444226, 3174756917, 718787259, 3951481745]

/-- The MD5 per-round shift table. -/
def md5S : List Nat :=
  [7, 12, 17, 22, 7, 12, 17, 22, 7, 12, 17, 22, 7, 12, 17, 22,
   5, 9, 14, 20, 5, 9, 14, 20, 5, 9, 14, 20, 5, 9, 14, 20,
   4, 11, 16, 23, 4, 11, 16, 23, 4, 11, 16, 23, 4, 11, 16, 23,
   6, 10, 15, 21, 6, 10, 15, 21, 6, 10, 15, 21, 6, 10, 15, 21]

/-- MD5 round mixing function (F, G, H, I by round quarter). -/
def md5F (i b c d : Nat) : Nat :=
  if i < 16 then (b &&& c) ||| ((m32 - 1 - b) &&& d)
  else if i < 32 then (d &&& b) ||| ((m32 - 1 - d) &&& c)
  else if i < 48 then b ^^^ c ^^^ d
  else c ^^^ (b ||| (m32 - 1 - d))

/-- MD5 message-word index schedule. -/
def md5G (i : Nat) : Nat :=
  if i < 16 then i
  else if i < 32 then (5 * i + 1) % 16
  else if i < 48 then (3 * i + 5) % 16
  else (7 * i) % 16

/-- One MD5 round on state (a, b, c, d). -/
def md5Round (M : List Nat) (st : Nat × Nat × Nat × Nat) (i : Nat) :
    Nat × Nat × Nat × Nat :=
  let (a, b, c, d) := st
  let f := (md5F i b c d + a + md5K.getD i 0 + M.getD (md5G i) 0) % m32
  (d, (b + rotl32 f (md5S.getD i 0)) % m32, b, c)

/-- One 512-bit MD5 block step. -/
def md5Block (st : Nat × Nat × Nat × Nat) (M : List Nat) :
    Nat × Nat × Nat × Nat :=
  let (a, b, c, d) := (List.range 64).foldl (md5Round M) st
  (add32 st.1 a, add32 st.2.1 b, add32 st.2.2.1 c, add32 st.2.2.2 d)

/-- Lower-case hex digit. -/
def hexDigit (n : Nat) : Char :=
  if n < 10 then Char.ofNat (48 + n) else Char.ofNat (87 + n)

/-- Two hex digits of a byte. -/
def byteHex (b : Nat) : List Char := [hexDigit (b / 16), hexDigit (b % 16)]

/-- `hashlib.md5(msg).hexdigest()`: the 32-character lower-case hex digest. -/
def md5Hex (msg : List Nat) : String :=
  let blocks := toBlocks (toWords (md5Pad msg))
  let st := blocks.foldl md5Block (1732584193, 4023233417, 2562383102, 271733878)
  String.mk (((leBytes st.1 4 ++ leBytes st.2.1 4 ++ leBytes st.2.2.1 4 ++
    leBytes st.2.2.2 4).map byteHex).flatten)

/-- `get_hash` as defined identically on every relation class:
`hashlib.md5(text.encode('utf-8')).hexdigest()[:12]`. -/
def get_hash (text : String) : String := (md5Hex (utf8Bytes text)).take 12

/-! ## Python value model

Field values of an Elasticsearch `_source` dictionary: JSON-like values.
Floating-point numbers are outside the model (no claim involves them);
integer-valued numbers are modelled by `n`. -/

/-- A JSON-like Python value. -/
inductive JVal where
  | null
  | b (v : Bool)
  | n (v : Int)
  | s (v : String)
  | l (vs : List JVal)
  | d (fields : List (String × JVal))

/-- Python truthiness of a value. -/
def JVal.truthy : JVal → Bool
  | .null => false
  | .b v => v
  | .n v => v != 0
  | .s v => v != ""
  | .l vs => !vs.isEmpty
  | .d fs => !fs.isEmpty

/-- Python exceptions that the embedded code can raise. -/
inductive PyErr where
  | attributeError
  | typeError
deriving DecidableEq, Repr

/-- Python `len(v)`: defined on strings, lists and dicts, raises `TypeError`
otherwise. -/
def pyLen : JVal → Except PyErr Nat
  | .s v => .ok v.length
  | .l vs => .ok vs.length
  | .d fs => .ok fs.length
  | _ => .error .typeError

/-- Python iteration `for x in v`: lists yield elements, strings yield
one-character strings, dicts yield their keys; other values raise
`TypeError`. -/
def pyIter : JVal → Except PyErr (List JVal)
  | .l vs => .ok vs
  | .s t => .ok (t.data.map (fun c => .s (String.mk [c])))
  | .d fs => .ok (fs.map (fun kv => JVal.s kv.1))
  | _ => .error .typeError

/-- Python `source.get(key, dflt)` on a `_source` dictionary. -/
def srcGet (src : List (String × JVal)) (key : String) (dflt : JVal) : JVal :=
  match src.find? (fun kv => kv.1 == key) with
  | some kv => kv.2
  | none => dflt

/-- Python whitespace characters for `str.strip()` (ASCII subset; exotic
Unicode whitespace is outside the model). -/
def isPyWs (c : Char) : Bool :=
  c == ' ' || c == '\t' || c == '\n' || c == '\r' ||
    c == Char.ofNat 11 || c == Char.ofNat 12

/-- Drop a leading run of characters satisfying `p`. -/
def dropWhileL (p : Char → Bool) : List Char → List Char
  | [] => []
  | c :: rest => if p c then dropWhileL p rest else c :: rest

/-- Python `s.strip()`. -/
def pyStrip (s : String) : String :=
  String.mk ((dropWhileL isPyWs (dropWhileL isPyWs s.data).reverse).reverse)

/-- Python `s.startswith(pre)`. -/
def pyStartsWith (s pre : String) : Bool := List.isPrefixOf pre.data s.data

/-- Python `s[n:]`. -/
def strDropP (s : String) (n : Nat) : String := String.mk (s.data.drop n)

/-- `source.get(key, '').strip()`: raises `AttributeError` when the stored
value is not a string (e.g. an explicit `null`, on which Python calls
`.strip()` on `None`). -/
def pyStripField (src : List (String × JVal)) (key : String) :
    Except PyErr String :=
  match srcGet src key (.s "") with
  | .s t => .ok (pyStrip t)
  | _ => .error .attributeError

/-- The list comprehension `[j.strip() for j in items if j and j.strip()]`:
falsy items are skipped, truthy non-strings raise `AttributeError`, and the
trimmed string is kept when non-empty. -/
def cleanStrList : List JVal → Except PyErr (List String)
  | [] => .ok []
  | v :: rest =>
    if v.truthy then
      match v with
      | .s t => do
        let r ← cleanStrList rest
        if pyStrip t = "" then return r else return pyStrip t :: r
      | _ => .error .attributeError
    else cleanStrList rest

/-- Python `value.replace('"', '\\"')`, the ad-hoc quote escaping applied
before interpolating text into query clauses. -/
def escapeQuotes (s : String) : String :=
  String.mk ((s.data.map (fun c => if c = '\"' then ['\\', '\"'] else [c])).flatten)

/-- Python substring test `pat in s` (for non-empty `pat`). -/
def strContainsAux (ps : List Char) : List Char → Bool
  | [] => List.isPrefixOf ps []
  | c :: rest => List.isPrefixOf ps (c :: rest) || strContainsAux ps rest

/-- Python substring test `pat in s`. -/
def pyContains (s pat : String) : Bool := strContainsAux pat.data s.data

/-- Helper for `pyReplace`: fuel-bounded left-to-right non-overlapping
replacement. -/
def pyReplaceAux (oldP newP : List Char) : Nat → List Char → List Char
  | 0, cs => cs
  | _ + 1, [] => []
  | fuel + 1, c :: rest =>
    if List.isPrefixOf oldP (c :: rest) then
      newP ++ pyReplaceAux oldP newP fuel (List.drop oldP.length (c :: rest))
    else c :: pyReplaceAux oldP newP fuel rest

/-- Python `s.replace(old, new)` for non-empty `old` (the code only uses
`replace("_respondant", "")` and `replace('"', '\\"')`). -/
def pyReplace (s old new : String) : String :=
  if old = "" then s
  else String.mk (pyReplaceAux old.data new.data (s.data.length + 1) s.data)

/-! ## JSON parsing (`json.loads` in `extract_citations`)

A fuel-bounded parser for JSON (null, booleans, integer numbers, strings,
arrays, objects).  `none` models `json.loads` raising.  Number literals with
a fraction or exponent (floats) are outside the model and map to `none`. -/

/-- JSON whitespace. -/
def isWsChar (c : Char) : Bool := c == ' ' || c == '\t' || c == '\n' || c == '\r'

/-- Skip JSON whitespace. -/
def skipWs : List Char → List Char
  | [] => []
  | c :: rest => if isWsChar c then skipWs rest else c :: rest

/-- Value of a hex digit. -/
def parseHexDigit (c : Char) : Option Nat :=
  if c.isDigit then some (c.toNat - 48)
  else if 'a' ≤ c ∧ c ≤ 'f' then some (c.toNat - 87)
  else if 'A' ≤ c ∧ c ≤ 'F' then some (c.toNat - 55)
  else none

/-- Parse the body of a JSON string after the opening quote; returns the
decoded characters and the input after the closing quote. -/
def parseJStrAux : Nat → List Char → Option (List Char × List Char)
  | 0, _ => none
  | _ + 1, [] => none
  | fuel + 1, c :: rest =>
    if c == '\"' then some ([], rest)
    else if c == '\\' then
      match rest with
      | [] => none
      | e :: rest2 =>
        let cont := fun (ch : Char) (rs : List Char) =>
          match parseJStrAux fuel rs with
          | some (s, r) => some (ch :: s, r)
          | none => none
        if e == '\"' then cont '\"' rest2
        else if e == '\\' then cont '\\' rest2
        else if e == '/' then cont '/' rest2
        else if e == 'b' then cont (Char.ofNat 8) rest2
        else if e == 'f' then cont (Char.ofNat 12) rest2
        else if e == 'n' then cont '\n' rest2
        else if e == 'r' then cont '\r' rest2
        else if e == 't' then cont '\t' rest2
        else if e == 'u' then
          match rest2 with
          | h1 :: h2 :: h3 :: h4 :: rest3 =>
            match parseHexDigit h1, parseHexDigit h2, parseHexDigit h3,
                parseHexDigit h4 with
            | some a, some b, some c2, some d =>
              cont (Char.ofNat (4096 * a + 256 * b + 16 * c2 + d)) rest3
            | _, _, _, _ => none
          | _ => none
        else none
    else
      match parseJStrAux fuel rest with
      | some (s, r) => some (c :: s, r)
      | none => none

/-- Split a leading run of decimal digits. -/
def parseDigits : List Char → List Char × List Char
  | [] => ([], [])
  | c :: rest =>
    if c.isDigit then
      let (ds, r) := parseDigits rest
      (c :: ds, r)
    else ([], c :: rest)

/-- Numeric value of a digit run. -/
def digitsToNat (ds : List Char) : Nat :=
  ds.foldl (fun acc c => 10 * acc + (c.toNat - 48)) 0

/-- The opening brace character. -/
def lbraceC : Char := Char.ofNat 123

/-- The closing brace character. -/
def rbraceC : Char := Char.ofNat 125

/-- Parse a JSON integer literal (floats are outside the model). -/
def parseNum (cs : List Char) : Option (JVal × List Char) :=
  let (neg, cs1) := match cs with
    | '-' :: r => (true, r)
    | _ => (false, cs)
  let (ds, rest) := parseDigits cs1
  if ds.isEmpty then none
  else if ds.length > 1 && ds.head? == some '0' then none
  else
    match rest with
    | '.' :: _ => none
    | 'e' :: _ => none
    | 'E' :: _ => none
    | _ =>
      let v : Int := Int.ofNat (digitsToNat ds)
      some (.n (if neg then -v else v), rest)

/-- Parser modes: a value, the inside of an array (just after `[` / after a
comma), the inside of an object. -/
inductive PMode where
  | value | arrFirst | arrNext | objFirst | objNext

/-- Fuel-bounded JSON parser step. -/
def parseStep : Nat → PMode → List Char → Option (JVal × List Char)
  | 0, _, _ => none
  | fuel + 1, .value, cs =>
    (match skipWs cs with
    | [] => none
    | c :: rest =>
      if c == 'n' then
        match rest with
        | 'u' :: 'l' :: 'l' :: r => some (.null, r)
        | _ => none
      else if c == 't' then
        match rest with
        | 'r' :: 'u' :: 'e' :: r => some (.b true, r)
        | _ => none
      else if c == 'f' then
        match rest with
        | 'a' :: 'l' :: 's' :: 'e' :: r => some (.b false, r)
        | _ => none
      else if c == '\"' then
        match parseJStrAux (rest.length + 1) rest with
        | some (s, r) => some (.s (String.mk s), r)
        | none => none
      else if c == '[' then parseStep fuel .arrFirst rest
      else if c == lbraceC then parseStep fuel .objFirst rest
      else parseNum (c :: rest))
  | fuel + 1, .arrFirst, cs =>
    (match skipWs cs with
    | [] => none
    | c :: rest =>
      if c == ']' then some (.l [], rest)
      else parseStep fuel .arrNext (c :: rest))
  | fuel + 1, .arrNext, cs =>
    (match parseStep fuel .value cs with
    | none => none
    | some (v, r1) =>
      match skipWs r1 with
      | [] => none
      | c :: r2 =>
        if c == ',' then
          match parseStep fuel .arrNext r2 with
          | some (.l xs, r3) => some (.l (v :: xs), r3)
          | _ => none
        else if c == ']' then some (.l [v], r2)
        else none)
  | fuel + 1, .objFirst, cs =>
    (match skipWs cs with
    | [] => none
    | c :: rest =>
      if c == rbraceC then some (.d [], rest)
      else parseStep fuel .objNext (c :: rest))
  | fuel + 1, .objNext, cs =>
    (match skipWs cs with
    | [] => none
    | c :: rest =>
      if c == '\"' then
        match parseJStrAux (rest.length + 1) rest with
        | none => none
        | some (k, r1) =>
          match skipWs r1 with
          | ':' :: r2 =>
            match parseStep fuel .value r2 with
            | none => none
            | some (v, r3) =>
              match skipWs r3 with
              | [] => none
              | c2 :: r4 =>
                if c2 == ',' then
                  match parseStep fuel .objNext r4 with
                  | some (.d fs, r5) => some (.d ((String.mk k, v) :: fs), r5)
                  | _ => none
                else if c2 == rbraceC then some (.d [(String.mk k, v)], r4)
                else none
          | _ => none
      else none)

/-- `json.loads(s)`: parse a complete JSON document; `none` models a raised
`JSONDecodeError` (caught by the caller's bare `except`). -/
def parseJson (s : String) : Option JVal :=
  match parseStep (2 * s.length + 4) .value s.data with
  | some (v, rest) => if (skipWs rest).isEmpty then some v else none
  | none => none

/-! ## Node model

A Dgraph node dictionary is an insertion-ordered list of fields.  Edge
references are kept symbolically: `uid v` stands for the plain string
`"uid(<v>)"` (a node's own `uid` field), `uidRef v` for the dict
`{"uid": "uid(<v>)"}` and `uidList vs` for the list of such dicts. -/

/-- A value in a node dictionary. -/
inductive NVal where
  | str (v : String)
  | raw (v : JVal)
  | uid (var : String)
  | uidRef (var : String)
  | uidList (vars : List String)

/-- A node description: an insertion-ordered field list. -/
abbrev Node := List (String × NVal)

/-- The lookup variables referenced by one node field (the node's own `uid`
and every `uid(<var>)` edge reference). -/
def NVal.refs : NVal → List String
  | .str _ => []
  | .raw _ => []
  | .uid v => [v]
  | .uidRef v => [v]
  | .uidList vs => vs

/-- All lookup variables referenced anywhere in a node. -/
def nodeRefs (node : Node) : List String :=
  (node.map (fun kv => kv.2.refs)).flatten

/-- Cache lookup on an association-list dict (`key in cache` /
`cache[key]`). -/
def lookupA (cache : List (String × String)) (k : String) : Option String :=
  match cache.find? (fun kv => kv.1 == k) with
  | some kv => some kv.2
  | none => none

/-! ## `relations/citation.py` — `CitationRelation` -/

namespace CitationRelation

/-- `extract_citations`: accept a list, a JSON-encoded string (falling back
to a one-element list when decoding fails), or anything else as empty; then
clean with the strip-comprehension. -/
def extract_citations (source : List (String × JVal)) :
    Except PyErr (List String) := do
  let citations := srcGet source ("citations") (.l [])
  let citations :=
    match citations with
    | .s t =>
      match parseJson t with
      | some v => v
      | none => if (JVal.s t).truthy then JVal.l [.s t] else .l []
    | .l vs => JVal.l vs
    | _ => JVal.l []
  let items ← pyIter citations
  cleanStrList items

/-- The lookup clause emitted for a citation title (note: no type filter). -/
def clauseFor (citation : String) : String :=
  "cite_" ++ get_hash citation ++ " as var(func: eq(title, \"" ++
    escapeQuotes citation ++ "\"))"

/-- `build_query_parts`: emit one clause per first-seen title, return the
per-occurrence variable list and the updated cache. -/
def build_query_parts :
    List String → List (String × String) →
      List String × List String × List (String × String)
  | [], cache => ([], [], cache)
  | citation :: rest, cache =>
    let (cache1, newParts) :=
      match lookupA cache citation with
      | some _ => (cache, ([] : List String))
      | none => (cache ++ [(citation, get_hash citation)], [clauseFor citation])
    let h := (lookupA cache1 citation).getD ""
    let (parts, vars, cache2) := build_query_parts rest cache1
    (newParts ++ parts, ("cite_" ++ h) :: vars, cache2)

/-- `build_citation_nodes`: one node per cached title. -/
def build_citation_nodes (cache : List (String × String)) : List Node :=
  cache.map (fun kv =>
    [("uid", NVal.uid ("cite_" ++ kv.2)),
     ("title", NVal.str kv.1),
     ("dgraph.type", NVal.str ("Judgment"))])

end CitationRelation

/-! ## `relations/judge.py` — `JudgeRelation` -/

namespace JudgeRelation

/-- `extract_judges`: coerce to a list, then clean. -/
def extract_judges (source : List (String × JVal)) :
    Except PyErr (List String) := do
  let judges := srcGet source ("judges") (.l [])
  let judges :=
    match judges with
    | .l vs => vs
    | v => if v.truthy then [v] else []
  cleanStrList judges

/-- The lookup clause emitted for a judge name. -/
def clauseFor (judge : String) : String :=
  "judge_" ++ get_hash judge ++ " as var(func: eq(name, \"" ++
    escapeQuotes judge ++ "\")) @filter(type(Judge))"

/-- `build_query_parts` for judges. -/
def build_query_parts :
    List String → List (String × String) →
      List String × List String × List (String × String)
  | [], cache => ([], [], cache)
  | judge :: rest, cache =>
    let (cache1, newParts) :=
      match lookupA cache judge with
      | some _ => (cache, ([] : List String))
      | none => (cache ++ [(judge, get_hash judge)], [clauseFor judge])
    let h := (lookupA cache1 judge).getD ""
    let (parts, vars, cache2) := build_query_parts rest cache1
    (newParts ++ parts, ("judge_" ++ h) :: vars, cache2)

/-- `build_judge_nodes`: one node per cached name. -/
def build_judge_nodes (cache : List (String × String)) : List Node :=
  cache.map (fun kv =>
    [("uid", NVal.uid ("judge_" ++ kv.2)),
     ("judge_id", NVal.str ("judge_" ++ kv.2)),
     ("name", NVal.str kv.1),
     ("dgraph.type", NVal.str ("Judge"))])

end JudgeRelation

/-! ## `relations/advocate.py` — `AdvocateRelation` -/

namespace AdvocateRelation

/-- `extract_advocates`: coerce both role fields to lists, then clean. -/
def extract_advocates (source : List (String × JVal)) :
    Except PyErr (List String × List String) := do
  let pa := srcGet source ("petitioner_advocates") (.l [])
  let ra := srcGet source ("respondant_advocates") (.l [])
  let pa :=
    match pa with
    | .l vs => vs
    | v => if v.truthy then [v] else []
  let ra :=
    match ra with
    | .l vs => vs
    | v => if v.truthy then [v] else []
  let pa ← cleanStrList pa
  let ra ← cleanStrList ra
  return (pa, ra)

/-- The lookup clause for an advocate name under a role. -/
def clauseFor (key name role : String) : String :=
  "adv_" ++ get_hash key ++ " as var(func: eq(name, \"" ++
    escapeQuotes name ++ "\")) @filter(type(Advocate) AND eq(advocate_type, \"" ++
    role ++ "\"))"

/-- The petitioner tracking loop: cache key is the bare name. -/
def petLoop :
    List String → List (String × String) →
      List String × List String × List (String × String)
  | [], cache => ([], [], cache)
  | advocate :: rest, cache =>
    let (cache1, newParts) :=
      match lookupA cache advocate with
      | some _ => (cache, ([] : List String))
      | none =>
        (cache ++ [(advocate, get_hash advocate)],
         [clauseFor advocate advocate ("petitioner")])
    let h := (lookupA cache1 advocate).getD ""
    let (parts, vars, cache2) := petLoop rest cache1
    (newParts ++ parts, ("adv_" ++ h) :: vars, cache2)

/-- The respondant tracking loop: cache key is `name + "_respondant"`. -/
def respLoop :
    List String → List (String × String) →
      List String × List String × List (String × String)
  | [], cache => ([], [], cache)
  | advocate :: rest, cache =>
    let key := advocate ++ "_respondant"
    let (cache1, newParts) :=
      match lookupA cache key with
      | some _ => (cache, ([] : List String))
      | none =>
        (cache ++ [(key, get_hash key)],
         [clauseFor key advocate ("respondant")])
    let h := (lookupA cache1 key).getD ""
    let (parts, vars, cache2) := respLoop rest cache1
    (newParts ++ parts, ("adv_" ++ h) :: vars, cache2)

/-- `build_query_parts`: petitioners first, then respondants, sharing one
cache. -/
def build_query_parts (petitioner_advocates respondant_advocates : List String)
    (cache : List (String × String)) :
    List String × List String × List String × List (String × String) :=
  let (p1, pv, c1) := petLoop petitioner_advocates cache
  let (p2, rv, c2) := respLoop respondant_advocates c1
  (p1 ++ p2, pv, rv, c2)

/-- `build_advocate_nodes`: name and role are recovered from the cache key
by `replace("_respondant", "")` and a substring test. -/
def build_advocate_nodes (cache : List (String × String)) : List Node :=
  cache.map (fun kv =>
    let name := pyReplace kv.1 ("_respondant") ("")
    let ty := if pyContains kv.1 ("_respondant") then "respondant"
      else "petitioner"
    [("uid", NVal.uid ("adv_" ++ kv.2)),
     ("advocate_id", NVal.str ("adv_" ++ kv.2)),
     ("name", NVal.str name),
     ("advocate_type", NVal.str ty),
     ("dgraph.type", NVal.str ("Advocate"))])

end AdvocateRelation

/-! ## `relations/outcome.py` — `OutcomeRelation` -/

namespace OutcomeRelation

/-- `extract_outcome`: a stripped singular field, `None` when empty. -/
def extract_outcome (source : List (String × JVal)) :
    Except PyErr (Option String) := do
  let t ← pyStripField source ("outcome")
  return if t = "" then none else some t

/-- The lookup clause for an outcome. -/
def clauseFor (outcome : String) : String :=
  "outcome_" ++ get_hash outcome ++ " as var(func: eq(name, \"" ++
    escapeQuotes outcome ++ "\")) @filter(type(Outcome))"

/-- `build_query_parts` for the singular outcome. -/
def build_query_parts (outcome : Option String)
    (cache : List (String × String)) :
    List String × Option String × List (String × String) :=
  match outcome with
  | none => ([], none, cache)
  | some t =>
    if t = "" then ([], none, cache)
    else
      match lookupA cache t with
      | none =>
        ([clauseFor t], some ("outcome_" ++ get_hash t),
         cache ++ [(t, get_hash t)])
      | some h => ([], some ("outcome_" ++ h), cache)

/-- `build_outcome_nodes`. -/
def build_outcome_nodes (cache : List (String × String)) : List Node :=
  cache.map (fun kv =>
    [("uid", NVal.uid ("outcome_" ++ kv.2)),
     ("outcome_id", NVal.str ("outcome_" ++ kv.2)),
     ("name", NVal.str kv.1),
     ("dgraph.type", NVal.str ("Outcome"))])

end OutcomeRelation

/-! ## `relations/case_duration.py` — `CaseDurationRelation` -/

namespace CaseDurationRelation

/-- `extract_case_duration`. -/
def extract_case_duration (source : List (String × JVal)) :
    Except PyErr (Option String) := do
  let t ← pyStripField source ("case_duration")
  return if t = "" then none else some t

/-- The lookup clause for a case duration. -/
def clauseFor (case_duration : String) : String :=
  "duration_" ++ get_hash case_duration ++ " as var(func: eq(duration, \"" ++
    escapeQuotes case_duration ++ "\")) @filter(type(CaseDuration))"

/-- `build_query_parts` for the singular case duration. -/
def build_query_parts (case_duration : Option String)
    (cache : List (String × String)) :
    List String × Option String × List (String × String) :=
  match case_duration with
  | none => ([], none, cache)
  | some t =>
    if t = "" then ([], none, cache)
    else
      match lookupA cache t with
      | none =>
        ([clauseFor t], some ("duration_" ++ get_hash t),
         cache ++ [(t, get_hash t)])
      | some h => ([], some ("duration_" ++ h), cache)

/-- `build_case_duration_nodes`. -/
def build_case_duration_nodes (cache : List (String × String)) : List Node :=
  cache.map (fun kv =>
    [("uid", NVal.uid ("duration_" ++ kv.2)),
     ("case_duration_id", NVal.str ("duration_" ++ kv.2)),
     ("duration", NVal.str kv.1),
     ("dgraph.type", NVal.str ("CaseDuration"))])

end CaseDurationRelation

/-! ## `relations/court.py` — `CourtRelation` -/

/-- The per-key record stored in the court cache
(`{'hash': ..., 'name': ..., 'location': ..., 'bench_type': ...}`). -/
structure CourtData where
  hash : String
  name : String
  location : Option String
  bench_type : Option String
deriving DecidableEq, Repr

/-- Lookup in the court cache. -/
def lookupC (cache : List (String × CourtData)) (k : String) :
    Option CourtData :=
  match cache.find? (fun kv => kv.1 == k) with
  | some kv => some kv.2
  | none => none

namespace CourtRelation

/-- `extract_court`: three stripped singular fields. -/
def extract_court (source : List (String × JVal)) :
    Except PyErr (Option String × Option String × Option String) := do
  let n ← pyStripField source ("court")
  let l ← pyStripField source ("court_location")
  let b ← pyStripField source ("court_bench")
  return (if n = "" then none else some n,
          if l = "" then none else some l,
          if b = "" then none else some b)

/-- The cache key: `f"{court_name}_{court_location}"` when a location is
present, the bare name otherwise. -/
def keyOf (court_name : String) (court_location : Option String) : String :=
  match court_location with
  | some loc => court_name ++ "_" ++ loc
  | none => court_name

/-- The lookup clause for a court. -/
def clauseFor (court_name : String) (court_location : Option String) : String :=
  let v := "court_" ++ get_hash (keyOf court_name court_location)
  match court_location with
  | some loc =>
    v ++ " as var(func: eq(name, \"" ++ escapeQuotes court_name ++
      "\")) @filter(type(Court) AND eq(location, \"" ++ escapeQuotes loc ++ "\"))"
  | none =>
    v ++ " as var(func: eq(name, \"" ++ escapeQuotes court_name ++
      "\")) @filter(type(Court))"

/-- `build_query_parts` for the singular court. -/
def build_query_parts (court_name court_location court_bench : Option String)
    (cache : List (String × CourtData)) :
    List String × Option String × List (String × CourtData) :=
  match court_name with
  | none => ([], none, cache)
  | some n =>
    if n = "" then ([], none, cache)
    else
      let key := keyOf n court_location
      match lookupC cache key with
      | none =>
        ([clauseFor n court_location],
         some ("court_" ++ get_hash key),
         cache ++ [(key,
           { hash := get_hash key, name := n, location := court_location,
             bench_type := court_bench })])
      | some cd => ([], some ("court_" ++ cd.hash), cache)

/-- `build_court_nodes`: location and bench_type only when truthy. -/
def build_court_nodes (cache : List (String × CourtData)) : List Node :=
  cache.map (fun kv =>
    let cd := kv.2
    let base : Node :=
      [("uid", NVal.uid ("court_" ++ cd.hash)),
       ("court_id", NVal.str ("court_" ++ cd.hash)),
       ("name", NVal.str cd.name),
       ("dgraph.type", NVal.str ("Court"))]
    let base :=
      match cd.location with
      | some loc => if loc = "" then base else base ++ [("location", NVal.str loc)]
      | none => base
    match cd.bench_type with
    | some b => if b = "" then base else base ++ [("bench_type", NVal.str b)]
    | none => base)

end CourtRelation

/-! ## `relations/judgment.py` — `JudgmentRelation` -/

/-- An Elasticsearch hit: `doc['_id']` and `doc['_source']`. -/
structure ESDoc where
  es_id : String
  source : List (String × JVal)

/-- The dictionary computed by `extract_judgment_data`. -/
structure JudgmentData where
  idx : Nat
  title : String
  doc_id : String
  year : JVal
  processed_timestamp : JVal
  judgment_id : String
  escaped_title : String

namespace JudgmentRelation

/-- `extract_judgment_data`: strip title and doc_id, fall back to `_id`,
drop a `doc_` id prefix, copy `year`/`processed_timestamp` verbatim. -/
def extract_judgment_data (doc : ESDoc) (idx : Nat) :
    Except PyErr JudgmentData := do
  let title ← pyStripField doc.source ("title")
  let d0 ← pyStripField doc.source ("doc_id")
  let d1 := if d0 = "" then doc.es_id else d0
  let doc_id := if pyStartsWith d1 ("doc_") then strDropP d1 4 else d1
  return { idx := idx, title := title, doc_id := doc_id,
           year := srcGet doc.source ("year") .null,
           processed_timestamp := srcGet doc.source ("processed_timestamp") .null,
           judgment_id := "J_" ++ doc_id,
           escaped_title := escapeQuotes title }

/-- `build_query_part`: the unconditional root lookup clause (note: the
judgment_id is interpolated without escaping). -/
def build_query_part (jd : JudgmentData) : String :=
  "main_" ++ toString jd.idx ++ " as var(func: eq(judgment_id, \"" ++
    jd.judgment_id ++ "\"))"

/-- The `year` field: added only when `year is not None`. -/
def yearField (y : JVal) : Node :=
  match y with
  | .null => []
  | y => [("year", NVal.raw y)]

/-- The `processed_timestamp` field: added only when truthy. -/
def tsField (ts : JVal) : Node :=
  if ts.truthy then [("processed_timestamp", NVal.raw ts)] else []

/-- A relationship list field (`if <vars>:`): added only when the variable
list is a truthy (non-`None`, non-empty) list. -/
def edgeField (key : String) (vs : Option (List String)) : Node :=
  match vs with
  | some (v :: tl) => [(key, NVal.uidList (v :: tl))]
  | _ => []

/-- A singular relationship field (`if <var>:`): added only when the
variable is a truthy (non-`None`, non-empty) string. -/
def refField (key : String) (v : Option String) : Node :=
  match v with
  | some t => if t = "" then [] else [(key, NVal.uidRef t)]
  | none => []

/-- `build_judgment_node`: core fields unconditionally, optional scalar
fields and relationship edges only when truthy, in the source's key order
(the sequence of conditional `judgment_node[...] = ...` assignments is
rendered as an append of per-field chunks). -/
def build_judgment_node (jd : JudgmentData)
    (citation_vars judge_vars petitioner_advocate_vars
      respondant_advocate_vars : Option (List String))
    (outcome_var duration_var court_var : Option String) : Node :=
  [("uid", NVal.uid ("main_" ++ toString jd.idx)),
   ("judgment_id", NVal.str jd.judgment_id),
   ("title", NVal.str jd.title),
   ("doc_id", NVal.str jd.doc_id),
   ("dgraph.type", NVal.str ("Judgment"))] ++
  yearField jd.year ++
  tsField jd.processed_timestamp ++
  edgeField ("cites") citation_vars ++
  edgeField ("judged_by") judge_vars ++
  edgeField ("petitioner_represented_by") petitioner_advocate_vars ++
  edgeField ("respondant_represented_by") respondant_advocate_vars ++
  refField ("has_outcome") outcome_var ++
  refField ("has_case_duration") duration_var ++
  refField ("court_heard_in") court_var

end JudgmentRelation

/-! ## `mutation_builder.py` — `MutationBuilder` -/

/-- The combined state of the six deduplicating relation handlers. -/
structure BState where
  citations : List (String × String)
  judges : List (String × String)
  advocates : List (String × String)
  outcomes : List (String × String)
  durations : List (String × String)
  courts : List (String × CourtData)

/-- The state after `handler.reset()` on every handler: all caches empty. -/
def BState.reset (_ : BState) : BState :=
  ⟨[], [], [], [], [], []⟩

/-- The initial state of a freshly constructed builder. -/
def BState.empty : BState := ⟨[], [], [], [], [], []⟩

/-- The final mutation payload `{"query": ..., "set": ...}`. -/
structure Mutation where
  query : String
  set : List Node

/-- `"\n  ".join(parts)`-style separator join. -/
def joinSep : List String → String → String
  | [], _ => ""
  | [x], _ => x
  | x :: y :: rest, sep => x ++ sep ++ joinSep (y :: rest) sep

namespace MutationBuilder

/-- The body of one iteration of the document loop in `build_mutation`:
extract every relation, accumulate this document's query parts, and build
its judgment node. -/
def processDoc (doc : ESDoc) (idx : Nat) (st : BState) :
    Except PyErr (List String × Node × BState) := do
  let jd ← JudgmentRelation.extract_judgment_data doc idx
  let judgment_query := JudgmentRelation.build_query_part jd
  let citations ← CitationRelation.extract_citations doc.source
  let (citation_queries, citation_vars, cCache) :=
    CitationRelation.build_query_parts citations st.citations
  let judges ← JudgeRelation.extract_judges doc.source
  let (judge_queries, judge_vars, jCache) :=
    JudgeRelation.build_query_parts judges st.judges
  let (petitioner_advocates, respondant_advocates) ←
    AdvocateRelation.extract_advocates doc.source
  let (advocate_queries, pet_vars, resp_vars, aCache) :=
    AdvocateRelation.build_query_parts petitioner_advocates
      respondant_advocates st.advocates
  let outcome ← OutcomeRelation.extract_outcome doc.source
  let (outcome_queries, outcome_var, oCache) :=
    OutcomeRelation.build_query_parts outcome st.outcomes
  let case_duration ← CaseDurationRelation.extract_case_duration doc.source
  let (duration_queries, duration_var, dCache) :=
    CaseDurationRelation.build_query_parts case_duration st.durations
  let (court_name, court_location, court_bench) ←
    CourtRelation.extract_court doc.source
  let (court_queries, court_var, ctCache) :=
    CourtRelation.build_query_parts court_name court_location court_bench
      st.courts
  let node := JudgmentRelation.build_judgment_node jd
    (if citation_vars.isEmpty then none else some citation_vars)
    (if judge_vars.isEmpty then none else some judge_vars)
    (if pet_vars.isEmpty then none else some pet_vars)
    (if resp_vars.isEmpty then none else some resp_vars)
    outcome_var duration_var court_var
  return (judgment_query :: (citation_queries ++ judge_queries ++
            advocate_queries ++ outcome_queries ++ duration_queries ++
            court_queries),
          node,
          { citations := cCache, judges := jCache, advocates := aCache,
            outcomes := oCache, durations := dCache, courts := ctCache })

/-- The document loop (`enumerate(documents, 1)`), accumulating query parts
and judgment nodes in input order. -/
def processDocs : List ESDoc → Nat → BState →
    Except PyErr (List String × List Node × BState)
  | [], _, st => .ok ([], [], st)
  | doc :: rest, idx, st => do
    let (parts, node, st1) ← processDoc doc idx st
    let (parts2, nodes2, st2) ← processDocs rest (idx + 1) st1
    return (parts ++ parts2, node :: nodes2, st2)

/-- The entity-node phase: one node group per handler, in the fixed order
citations, judges, advocates, outcomes, case durations, courts. -/
def entityNodes (st : BState) : List Node :=
  CitationRelation.build_citation_nodes st.citations ++
  JudgeRelation.build_judge_nodes st.judges ++
  AdvocateRelation.build_advocate_nodes st.advocates ++
  OutcomeRelation.build_outcome_nodes st.outcomes ++
  CaseDurationRelation.build_case_duration_nodes st.durations ++
  CourtRelation.build_court_nodes st.courts

/-- `build_mutation` starting from an arbitrary pre-existing handler state:
the handlers are reset at entry, every document is processed in order, and
the final mutation wraps the joined query parts and the node list. -/
def buildFrom (st0 : BState) (documents : List ESDoc) :
    Except PyErr Mutation := do
  let st := st0.reset
  let (all_query_parts, judgmentNodes, stFinal) ← processDocs documents 1 st
  return { query := "\x7b\n  " ++ joinSep all_query_parts "\n  " ++ "\n\x7d",
           set := judgmentNodes ++ entityNodes stFinal }

/-- `MutationBuilder().build_mutation(documents)`. -/
def build_mutation (documents : List ESDoc) : Except PyErr Mutation :=
  buildFrom BState.empty documents

end MutationBuilder

/-! ## `entity_detector.py` — `detect_entities_in_document` -/

/-- `value and len(value) > 0`, with Python short-circuiting: falsy values
yield `false` without calling `len`. -/
def truthyLen (v : JVal) : Except PyErr Bool :=
  if v.truthy then do
    let n ← pyLen v
    return decide (n > 0)
  else return false

/-- `detect_entities_in_document`: the ordered list of entity-type labels
whose raw field is truthy (with an additional `len(...) > 0` check on the
list-like fields). -/
def detect_entities_in_document (doc : ESDoc) : Except PyErr (List String) := do
  let source := doc.source
  let mut0 : List String := []
  let es := if (srcGet source ("title") .null).truthy
    then mut0 ++ [("judgment" : String)] else mut0
  let cT ← truthyLen (srcGet source ("citations") (.l []))
  let es := if cT then es ++ [("citations" : String)] else es
  let jT ← truthyLen (srcGet source ("judges") (.l []))
  let es := if jT then es ++ [("judges" : String)] else es
  let paT ← truthyLen (srcGet source ("petitioner_advocates") (.l []))
  let aT ← if paT then pure true
    else truthyLen (srcGet source ("respondant_advocates") (.l []))
  let es := if aT then es ++ [("advocates" : String)] else es
  let es := if (srcGet source ("outcome") .null).truthy
    then es ++ [("outcome" : String)] else es
  let es := if (srcGet source ("case_duration") .null).truthy
    then es ++ [("case_duration" : String)] else es
  let es := if (srcGet source ("court") .null).truthy
    then es ++ [("court" : String)] else es
  let es := if (srcGet source ("decision_date") .null).truthy
    then es ++ [("decision_date" : String)] else es
  let es := if (srcGet source ("filing_date") .null).truthy
    then es ++ [("filing_date" : String)] else es
  let es := if (srcGet source ("petitioner_party") .null).truthy
    then es ++ [("petitioner_party" : String)] else es
  let es := if (srcGet source ("respondant_party") .null).truthy
    then es ++ [("respondant_party" : String)] else es
  let es := if (srcGet source ("case_number") .null).truthy
    then es ++ [("case_number" : String)] else es
  let es := if (srcGet source ("summary") .null).truthy
    then es ++ [("summary" : String)] else es
  let es := if (srcGet source ("case_type") .null).truthy
    then es ++ [("case_type" : String)] else es
  let es := if (srcGet source ("neutral_citation") .null).truthy
    then es ++ [("neutral_citation" : String)] else es
  let acT ← truthyLen (srcGet source ("acts") (.l []))
  let es := if acT then es ++ [("acts" : String)] else es
  return es

/-! ## Proof-support definitions

A generic description of the shared dedup-loop pattern of the relation
handlers, first-seen selection, and decidable node predicates used to state
the specified properties. -/

/-- The shared dedup-loop pattern of `build_query_parts` in the citation,
judge and advocate handlers: `k` maps an extracted value to its cache key,
`cl` to its lookup clause, `p` is the variable-name type prefix. -/
def genLoop (p : String) (k cl : String → String) :
    List String → List (String × String) →
      List String × List String × List (String × String)
  | [], cache => ([], [], cache)
  | x :: rest, cache =>
    let (cache1, newParts) :=
      match lookupA cache (k x) with
      | some _ => (cache, ([] : List String))
      | none => (cache ++ [(k x, get_hash (k x))], [cl x])
    let h := (lookupA cache1 (k x)).getD ""
    let (parts, vars, cache2) := genLoop p k cl rest cache1
    (newParts ++ parts, (p ++ h) :: vars, cache2)

/-- The values of `xs` whose keys are not yet in `have0`, first occurrence
only (the values that trigger a cache insertion). -/
def newXs (have0 : List String) (k : String → String) : List String → List String
  | [] => []
  | x :: rest =>
    if k x ∈ have0 then newXs have0 k rest
    else x :: newXs (have0 ++ [k x]) k rest

/-- First-seen selection of keys not yet in `have0`. -/
def firstSeen (have0 : List String) : List String → List String
  | [] => []
  | x :: rest =>
    if x ∈ have0 then firstSeen have0 rest
    else x :: firstSeen (have0 ++ [x]) rest

/-- WF invariant of a handler cache: every stored value is the hash of its
key, and keys are pairwise distinct. -/
def WFCache (cache : List (String × String)) : Prop :=
  (∀ kv ∈ cache, kv.2 = get_hash kv.1) ∧ (cache.map Prod.fst).Nodup

/-- WF invariant of the court cache. -/
def WFCourtCache (cache : List (String × CourtData)) : Prop :=
  (∀ kv ∈ cache, kv.2.hash = get_hash kv.1) ∧ (cache.map Prod.fst).Nodup

/-- WF invariant of a builder state. -/
def WFState (st : BState) : Prop :=
  WFCache st.citations ∧ WFCache st.judges ∧ WFCache st.advocates ∧
  WFCache st.outcomes ∧ WFCache st.durations ∧ WFCourtCache st.courts

/-- `clause` binds `v`, i.e. starts with `"<v> as var("`. -/
def bindsVar (clause v : String) : Prop :=
  pyStartsWith clause (v ++ " as var(") = true

/-- Every cache entry's variable is bound by some clause in `parts`. -/
def CacheBound (p : String) (cache : List (String × String))
    (parts : List String) : Prop :=
  ∀ kv ∈ cache, ∃ c ∈ parts, bindsVar c (p ++ kv.2)

/-- Court version of `CacheBound`. -/
def CourtCacheBound (cache : List (String × CourtData))
    (parts : List String) : Prop :=
  ∀ kv ∈ cache, ∃ c ∈ parts, bindsVar c ("court_" ++ kv.2.hash)

/-- Every handler cache of `st` is bound in `parts`. -/
def StateBound (st : BState) (parts : List String) : Prop :=
  CacheBound "cite_" st.citations parts ∧ CacheBound "judge_" st.judges parts ∧
  CacheBound "adv_" st.advocates parts ∧ CacheBound "outcome_" st.outcomes parts ∧
  CacheBound "duration_" st.durations parts ∧ CourtCacheBound st.courts parts

/-- The record of the per-document extraction results. -/
structure DocExtract where
  jd : JudgmentData
  cits : List String
  judges : List String
  pets : List String
  resps : List String
  outc : Option String
  dur : Option String
  court_name : Option String
  court_location : Option String
  court_bench : Option String

/-- All seven extraction steps of one document, combined. -/
def extractDoc (doc : ESDoc) (idx : Nat) : Except PyErr DocExtract := do
  let jd ← JudgmentRelation.extract_judgment_data doc idx
  let cits ← CitationRelation.extract_citations doc.source
  let judges ← JudgeRelation.extract_judges doc.source
  let (pets, resps) ← AdvocateRelation.extract_advocates doc.source
  let outc ← OutcomeRelation.extract_outcome doc.source
  let dur ← CaseDurationRelation.extract_case_duration doc.source
  let (cn, cl, cb) ← CourtRelation.extract_court doc.source
  return { jd := jd, cits := cits, judges := judges, pets := pets,
           resps := resps, outc := outc, dur := dur,
           court_name := cn, court_location := cl, court_bench := cb }

/-- Extraction of a whole batch (indices from `idx`). -/
def extractDocs : List ESDoc → Nat → Except PyErr (List DocExtract)
  | [], _ => .ok []
  | doc :: rest, idx => do
    let ex ← extractDoc doc idx
    let exs ← extractDocs rest (idx + 1)
    return ex :: exs

/-- The state transition of one document on the handler caches. -/
def stepState (ex : DocExtract) (st : BState) : BState :=
  { citations := (CitationRelation.build_query_parts ex.cits st.citations).2.2,
    judges := (JudgeRelation.build_query_parts ex.judges st.judges).2.2,
    advocates := (AdvocateRelation.build_query_parts ex.pets ex.resps st.advocates).2.2.2,
    outcomes := (OutcomeRelation.build_query_parts ex.outc st.outcomes).2.2,
    durations := (CaseDurationRelation.build_query_parts ex.dur st.durations).2.2,
    courts := (CourtRelation.build_query_parts ex.court_name ex.court_location
      ex.court_bench st.courts).2.2 }

/-- The query parts contributed by one document. -/
def docParts (ex : DocExtract) (st : BState) : List String :=
  JudgmentRelation.build_query_part ex.jd ::
    ((CitationRelation.build_query_parts ex.cits st.citations).1 ++
     (JudgeRelation.build_query_parts ex.judges st.judges).1 ++
     (AdvocateRelation.build_query_parts ex.pets ex.resps st.advocates).1 ++
     (OutcomeRelation.build_query_parts ex.outc st.outcomes).1 ++
     (CaseDurationRelation.build_query_parts ex.dur st.durations).1 ++
     (CourtRelation.build_query_parts ex.court_name ex.court_location
       ex.court_bench st.courts).1)

/-- The judgment node contributed by one document. -/
def docNode (ex : DocExtract) (st : BState) : Node :=
  let cv := (CitationRelation.build_query_parts ex.cits st.citations).2.1
  let jv := (JudgeRelation.build_query_parts ex.judges st.judges).2.1
  let av := AdvocateRelation.build_query_parts ex.pets ex.resps st.advocates
  let ov := (OutcomeRelation.build_query_parts ex.outc st.outcomes).2.1
  let dv := (CaseDurationRelation.build_query_parts ex.dur st.durations).2.1
  let ctv := (CourtRelation.build_query_parts ex.court_name ex.court_location
    ex.court_bench st.courts).2.1
  JudgmentRelation.build_judgment_node ex.jd
    (if cv.isEmpty then none else some cv)
    (if jv.isEmpty then none else some jv)
    (if av.2.1.isEmpty then none else some av.2.1)
    (if av.2.2.1.isEmpty then none else some av.2.2.1)
    ov dv ctv

/-- The pure fold of `processDocs` over extracted documents. -/
def foldDocs : List DocExtract → BState → List String × List Node × BState
  | [], st => ([], [], st)
  | ex :: rest, st =>
    let (parts2, nodes2, st2) := foldDocs rest (stepState ex st)
    (docParts ex st ++ parts2, docNode ex st :: nodes2, st2)

/-- Does the node have a field with this key? -/
def nodeHasKey (node : Node) (k : String) : Bool :=
  node.any (fun kv => kv.1 == k)

/-- Does the node have field `k` with plain string value `v`? -/
def nodeHasStrVal (node : Node) (k v : String) : Bool :=
  node.any (fun kv => kv.1 == k &&
    (match kv.2 with | .str t => t == v | _ => false))

/-- Does the node's field `rel` reference lookup variable `v`? -/
def hasEdgeTo (node : Node) (rel v : String) : Bool :=
  node.any (fun kv => kv.1 == rel &&
    (match kv.2 with
     | .uidList vs => vs.contains v
     | .uidRef x => x == v
     | _ => false))

/-- Is this a node of the given `dgraph.type` carrying the given `name`? -/
def isTypedNodeNamed (ty w : String) (node : Node) : Bool :=
  nodeHasStrVal node ("dgraph.type") ty && nodeHasStrVal node ("name") w

/-- The number of nodes of the given `dgraph.type` in a built mutation
(`0` when building raised). -/
def typedNodeCount (r : Except PyErr Mutation) (ty : String) : Nat :=
  match r with
  | .ok m => m.set.countP (fun node => nodeHasStrVal node ("dgraph.type") ty)
  | .error _ => 0

/-- The `idx`-th node of a built mutation's set list (`[]` out of range or
on error). -/
def setNode (r : Except PyErr Mutation) (idx : Nat) : Node :=
  match r with
  | .ok m => m.set.getD idx []
  | .error _ => []

/-- The labels returned by the detector (`[]` when it raised). -/
def detectedLabels (r : Except PyErr (List String)) : List String :=
  match r with
  | .ok ls => ls
  | .error _ => []

/-- Wrapping of the joined query parts into the final query block. -/
def wrapQuery (parts : List String) : String :=
  "\x7b\n  " ++ joinSep parts "\n  " ++ "\n\x7d"

/-- The cache-key contribution of a singular (optional) extracted value. -/
def optKeys (o : Option String) : List String :=
  match o with
  | none => []
  | some t => if t = "" then [] else [t]

/-- The court cache-key contribution of one document. -/
def courtKeyOpt (n loc : Option String) : List String :=
  match n with
  | none => []
  | some nm => if nm = "" then [] else [CourtRelation.keyOf nm loc]

/-- The advocate cache-key stream of one document: petitioner names first,
then respondant names suffixed with `_respondant`. -/
def advKeys (ex : DocExtract) : List String :=
  ex.pets ++ ex.resps.map (fun x => x ++ "_respondant")

/-- The batch-wide citation key stream. -/
def citStream (exs : List DocExtract) : List String :=
  (exs.map (fun ex => ex.cits)).flatten

/-- The batch-wide judge key stream. -/
def judgeStream (exs : List DocExtract) : List String :=
  (exs.map (fun ex => ex.judges)).flatten

/-- The batch-wide advocate key stream. -/
def advStream (exs : List DocExtract) : List String :=
  (exs.map advKeys).flatten

/-- The batch-wide outcome key stream. -/
def outcStream (exs : List DocExtract) : List String :=
  (exs.map (fun ex => optKeys ex.outc)).flatten

/-- The batch-wide case-duration key stream. -/
def durStream (exs : List DocExtract) : List String :=
  (exs.map (fun ex => optKeys ex.dur)).flatten

/-- The batch-wide court key stream. -/
def courtStream (exs : List DocExtract) : List String :=
  (exs.map (fun ex => courtKeyOpt ex.court_name ex.court_location)).flatten

/-- `<vars> if <vars> else None`. -/
def listToOpt (l : List String) : Option (List String) :=
  if l.isEmpty then none else some l

/-- The lookup variable of a singular extracted value. -/
def optVar (p : String) (o : Option String) : Option String :=
  match o with
  | none => none
  | some t => if t = "" then none else some (p ++ get_hash t)

/-- The court lookup variable of one document. -/
def courtVar (n loc : Option String) : Option String :=
  match n with
  | none => none
  | some nm =>
    if nm = "" then none
    else some ("court_" ++ get_hash (CourtRelation.keyOf nm loc))

/-- The citation variables referenced by one document. -/
def citVars (ex : DocExtract) : List String :=
  ex.cits.map (fun x => "cite_" ++ get_hash x)

/-- The judge variables referenced by one document. -/
def judgeVars (ex : DocExtract) : List String :=
  ex.judges.map (fun x => "judge_" ++ get_hash x)

/-- The petitioner-advocate variables referenced by one document. -/
def petVars (ex : DocExtract) : List String :=
  ex.pets.map (fun x => "adv_" ++ get_hash x)

/-- The respondant-advocate variables referenced by one document. -/
def respVars (ex : DocExtract) : List String :=
  ex.resps.map (fun x => "adv_" ++ get_hash (x ++ "_respondant"))

/-- Truthiness of an optional variable list. -/
def edgePresent : Option (List String) → Bool
  | some (_ :: _) => true
  | _ => false

/-- Truthiness of an optional variable. -/
def refPresent : Option String → Bool
  | some t => !(t == "")
  | none => false

/-! ## Concrete example inputs

The two-document batch of the specification's end-to-end scenario (§8): two
judgments sharing the judge `"J. Rao"`, the second citing the first's title,
together with the mutation the builder produces for it and the intermediate
extraction records. -/

def exDoc1 : ESDoc :=
  ⟨("1"),
   [("doc_id", JVal.s ("doc_D1")), ("title", JVal.s ("Case A")),
    ("judges", JVal.l [JVal.s ("J. Rao")])]⟩

def exDoc2 : ESDoc :=
  ⟨("2"),
   [("doc_id", JVal.s ("doc_D2")), ("title", JVal.s ("Case B")),
    ("judges", JVal.l [JVal.s ("J. Rao")]),
    ("citations", JVal.l [JVal.s ("Case A")])]⟩

def exDocs : List ESDoc := [exDoc1, exDoc2]

/-- The extraction records of `exDocs` (indices start at 1). -/
def exEx1 : DocExtract :=
  ⟨⟨1, ("Case A"), ("D1"), JVal.null, JVal.null, ("J_D1"), ("Case A")⟩,
   [], [("J. Rao")], [], [], none, none, none, none, none⟩

def exEx2 : DocExtract :=
  ⟨⟨2, ("Case B"), ("D2"), JVal.null, JVal.null, ("J_D2"), ("Case B")⟩,
   [("Case A")], [("J. Rao")], [], [], none, none, none, none, none⟩

def exExs : List DocExtract := [exEx1, exEx2]

/-- The mutation built for `exDocs` (hexadecimal hashes are the MD5-prefix
values of `get_hash`). -/
def exMutation : Mutation :=
  { query := "\x7b\n  main_1 as var(func: eq(judgment_id, \"J_D1\"))\n  judge_fe398299b3a1 as var(func: eq(name, \"J. Rao\")) @filter(type(Judge))\n  main_2 as var(func: eq(judgment_id, \"J_D2\"))\n  cite_da21170bc3e2 as var(func: eq(title, \"Case A\"))\n\x7d",
    set :=
      [[("uid", NVal.uid ("main_1")), ("judgment_id", NVal.str ("J_D1")),
        ("title", NVal.str ("Case A")), ("doc_id", NVal.str ("D1")),
        ("dgraph.type", NVal.str ("Judgment")),
        ("judged_by", NVal.uidList [("judge_fe398299b3a1")])],
       [("uid", NVal.uid ("main_2")), ("judgment_id", NVal.str ("J_D2")),
        ("title", NVal.str ("Case B")), ("doc_id", NVal.str ("D2")),
        ("dgraph.type", NVal.str ("Judgment")),
        ("cites", NVal.uidList [("cite_da21170bc3e2")]),
        ("judged_by", NVal.uidList [("judge_fe398299b3a1")])],
       [("uid", NVal.uid ("cite_da21170bc3e2")),
        ("title", NVal.str ("Case A")),
        ("dgraph.type", NVal.str ("Judgment"))],
       [("uid", NVal.uid ("judge_fe398299b3a1")),
        ("judge_id", NVal.str ("judge_fe398299b3a1")),
        ("name", NVal.str ("J. Rao")),
        ("dgraph.type", NVal.str ("Judge"))]] }

/-- A dirty pre-existing handler state: `build_mutation` resets it away. -/
def exState : BState :=
  ⟨[(("stale key"), ("stale value"))], [], [], [], [], []⟩

/-! ## Basic lemmas -/

theorem lookupA_nil (k : String) : lookupA [] k = none := rfl

theorem lookupA_cons (kv : String × String) (c : List (String × String))
    (k : String) :
    lookupA (kv :: c) k = if kv.1 = k then some kv.2 else lookupA c k := by
  by_cases h : kv.1 = k
  · have hb : (kv.1 == k) = true := beq_iff_eq.mpr h
    simp [lookupA, List.find?, hb, h]
  · have hb : (kv.1 == k) = false := beq_eq_false_iff_ne.mpr h
    simp [lookupA, List.find?, hb, h]

theorem lookupA_mem {c : List (String × String)} {k v : String}
    (h : lookupA c k = some v) : (k, v) ∈ c := by
  induction c with
  | nil => simp [lookupA] at h
  | cons kv rest ih =>
    rw [lookupA_cons] at h
    by_cases hk : kv.1 = k
    · simp only [hk, if_true, Option.some.injEq] at h
      subst hk h
      exact List.mem_cons_self _ _
    · simp only [hk, if_false] at h
      exact List.mem_cons_of_mem _ (ih h)

theorem lookupA_isSome_iff {c : List (String × String)} {k : String} :
    (lookupA c k).isSome = true ↔ k ∈ c.map Prod.fst := by
  induction c with
  | nil => simp [lookupA]
  | cons kv rest ih =>
    rw [lookupA_cons]
    by_cases hk : kv.1 = k
    · subst hk
      simp
    · simp only [hk, if_false, List.map_cons, List.mem_cons, ih]
      constructor
      · exact fun h => Or.inr h
      · rintro (h | h)
        · exact absurd h.symm hk
        · exact h

theorem lookupA_none_iff {c : List (String × String)} {k : String} :
    lookupA c k = none ↔ k ∉ c.map Prod.fst := by
  rw [← lookupA_isSome_iff]
  cases lookupA c k <;> simp

theorem lookupA_append_last {c : List (String × String)} {k v : String}
    (h : lookupA c k = none) : lookupA (c ++ [(k, v)]) k = some v := by
  induction c with
  | nil => simp [lookupA_cons, lookupA]
  | cons kv rest ih =>
    rw [List.cons_append, lookupA_cons]
    rw [lookupA_cons] at h
    by_cases hk : kv.1 = k
    · simp [hk] at h
    · simp only [hk, if_false] at h ⊢
      exact ih h

/-! ### `firstSeen` and `newXs` -/

theorem newXs_map_k (have0 : List String) (k : String → String)
    (xs : List String) :
    (newXs have0 k xs).map k = firstSeen have0 (xs.map k) := by
  induction xs generalizing have0 with
  | nil => simp [newXs, firstSeen]
  | cons x rest ih =>
    simp only [newXs, firstSeen, List.map_cons]
    by_cases h : k x ∈ have0 <;> simp [h, ih]

theorem firstSeen_not_mem {have0 xs : List String} {y : String}
    (h : y ∈ firstSeen have0 xs) : y ∉ have0 := by
  induction xs generalizing have0 with
  | nil => simp [firstSeen] at h
  | cons x rest ih =>
    simp only [firstSeen] at h
    by_cases hc : x ∈ have0
    · rw [if_pos hc] at h
      exact ih h
    · rw [if_neg hc] at h
      rcases List.mem_cons.mp h with rfl | h
      · exact hc
      · intro hy
        exact ih h (by simp [hy])

theorem firstSeen_mem_sub {have0 xs : List String} {y : String}
    (h : y ∈ firstSeen have0 xs) : y ∈ xs := by
  induction xs generalizing have0 with
  | nil => simp [firstSeen] at h
  | cons x rest ih =>
    simp only [firstSeen] at h
    by_cases hc : x ∈ have0
    · rw [if_pos hc] at h
      exact List.mem_cons_of_mem _ (ih h)
    · rw [if_neg hc] at h
      rcases List.mem_cons.mp h with rfl | h
      · exact List.mem_cons_self _ _
      · exact List.mem_cons_of_mem _ (ih h)

theorem firstSeen_append_nodup {have0 xs : List String} (h : have0.Nodup) :
    (have0 ++ firstSeen have0 xs).Nodup := by
  induction xs generalizing have0 with
  | nil => simp [firstSeen, h]
  | cons x rest ih =>
    simp only [firstSeen]
    by_cases hc : x ∈ have0
    · rw [if_pos hc]
      exact ih h
    · rw [if_neg hc]
      have h1 : (have0 ++ [x]).Nodup := by
        simp [List.nodup_append, h, hc]
      have h2 := @ih (have0 ++ [x]) h1
      simpa [List.append_assoc] using h2

theorem mem_firstSeen_of_mem {have0 xs : List String} {x : String}
    (h : x ∈ xs) : x ∈ have0 ∨ x ∈ firstSeen have0 xs := by
  induction xs generalizing have0 with
  | nil => simp at h
  | cons y rest ih =>
    simp only [firstSeen]
    rcases List.mem_cons.mp h with rfl | h
    · by_cases hc : x ∈ have0
      · exact Or.inl hc
      · rw [if_neg hc]
        exact Or.inr (List.mem_cons_self _ _)
    · by_cases hc : y ∈ have0
      · rw [if_pos hc]
        exact ih h
      · rw [if_neg hc]
        rcases @ih (have0 ++ [y]) h with hm | hm
        · rcases List.mem_append.mp hm with hm | hm
          · exact Or.inl hm
          · simp only [List.mem_singleton] at hm
            exact Or.inr (by simp [hm])
        · exact Or.inr (List.mem_cons_of_mem _ hm)

theorem firstSeen_append (have0 xs ys : List String) :
    firstSeen have0 (xs ++ ys) =
      firstSeen have0 xs ++ firstSeen (have0 ++ firstSeen have0 xs) ys := by
  induction xs generalizing have0 with
  | nil => simp [firstSeen]
  | cons x rest ih =>
    simp only [List.cons_append, firstSeen]
    by_cases hc : x ∈ have0
    · rw [if_pos hc, if_pos hc]
      exact ih have0
    · rw [if_neg hc, if_neg hc]
      simp only [List.append_eq]
      rw [ih (have0 ++ [x])]
      simp

/-! ### `lookupC` analogues -/

theorem lookupC_cons (kv : String × CourtData) (c : List (String × CourtData))
    (k : String) :
    lookupC (kv :: c) k = if kv.1 = k then some kv.2 else lookupC c k := by
  by_cases h : kv.1 = k
  · have hb : (kv.1 == k) = true := beq_iff_eq.mpr h
    simp [lookupC, List.find?, hb, h]
  · have hb : (kv.1 == k) = false := beq_eq_false_iff_ne.mpr h
    simp [lookupC, List.find?, hb, h]

theorem lookupC_mem {c : List (String × CourtData)} {k : String}
    {v : CourtData} (h : lookupC c k = some v) : (k, v) ∈ c := by
  induction c with
  | nil => simp [lookupC] at h
  | cons kv rest ih =>
    rw [lookupC_cons] at h
    by_cases hk : kv.1 = k
    · simp only [hk, if_true, Option.some.injEq] at h
      subst hk h
      exact List.mem_cons_self _ _
    · simp only [hk, if_false] at h
      exact List.mem_cons_of_mem _ (ih h)

theorem lookupC_isSome_iff {c : List (String × CourtData)} {k : String} :
    (lookupC c k).isSome = true ↔ k ∈ c.map Prod.fst := by
  induction c with
  | nil => simp [lookupC]
  | cons kv rest ih =>
    rw [lookupC_cons]
    by_cases hk : kv.1 = k
    · subst hk
      simp
    · simp only [hk, if_false, List.map_cons, List.mem_cons, ih]
      constructor
      · exact fun h => Or.inr h
      · rintro (h | h)
        · exact absurd h.symm hk
        · exact h

theorem lookupC_none_iff {c : List (String × CourtData)} {k : String} :
    lookupC c k = none ↔ k ∉ c.map Prod.fst := by
  rw [← lookupC_isSome_iff]
  cases lookupC c k <;> simp

/-! ### The master equation of the dedup loop

Throughout the symbolic lemmas, `get_hash` is kept opaque: no property below
depends on the value of the hash, only on it being a function of the key. -/

section SymbolicLemmas

attribute [local irreducible] get_hash

theorem genLoop_eq (p : String) (k cl : String → String) (xs : List String)
    (cache : List (String × String))
    (hWF : ∀ kv ∈ cache, kv.2 = get_hash kv.1) :
    genLoop p k cl xs cache =
      ((newXs (cache.map Prod.fst) k xs).map cl,
       xs.map (fun x => p ++ get_hash (k x)),
       cache ++ (newXs (cache.map Prod.fst) k xs).map
         (fun x => (k x, get_hash (k x)))) := by
  induction xs generalizing cache with
  | nil => simp [genLoop, newXs]
  | cons x rest ih =>
    simp only [genLoop, newXs, List.map_cons]
    by_cases hm : k x ∈ cache.map Prod.fst
    · have hs : (lookupA cache (k x)).isSome = true := lookupA_isSome_iff.mpr hm
      obtain ⟨v, hv⟩ := Option.isSome_iff_exists.mp hs
      have hveq : v = get_hash (k x) := hWF _ (lookupA_mem hv)
      rw [hv, if_pos hm, ih cache hWF]
      simp [hv, hveq]
    · have hv : lookupA cache (k x) = none := lookupA_none_iff.mpr hm
      rw [hv, if_neg hm]
      have hWF1 : ∀ kv ∈ cache ++ [(k x, get_hash (k x))],
          kv.2 = get_hash kv.1 := by
        intro kv hkv
        rcases List.mem_append.mp hkv with hkv | hkv
        · exact hWF kv hkv
        · simp only [List.mem_singleton] at hkv
          subst hkv
          rfl
      rw [ih (cache ++ [(k x, get_hash (k x))]) hWF1]
      rw [lookupA_append_last hv]
      simp [List.map_append]

/-! ### Handler bridges: each handler loop is an instance of `genLoop` -/

theorem citation_bridge (xs : List String) (c : List (String × String)) :
    CitationRelation.build_query_parts xs c =
      genLoop "cite_" (fun x => x) CitationRelation.clauseFor xs c := by
  induction xs generalizing c with
  | nil => rfl
  | cons x rest ih =>
    simp only [CitationRelation.build_query_parts, genLoop, ih]

theorem judge_bridge (xs : List String) (c : List (String × String)) :
    JudgeRelation.build_query_parts xs c =
      genLoop "judge_" (fun x => x) JudgeRelation.clauseFor xs c := by
  induction xs generalizing c with
  | nil => rfl
  | cons x rest ih =>
    simp only [JudgeRelation.build_query_parts, genLoop, ih]

theorem pet_bridge (xs : List String) (c : List (String × String)) :
    AdvocateRelation.petLoop xs c =
      genLoop "adv_" (fun x => x)
        (fun x => AdvocateRelation.clauseFor x x ("petitioner")) xs c := by
  induction xs generalizing c with
  | nil => rfl
  | cons x rest ih =>
    simp only [AdvocateRelation.petLoop, genLoop, ih]

theorem resp_bridge (xs : List String) (c : List (String × String)) :
    AdvocateRelation.respLoop xs c =
      genLoop "adv_" (fun x => x ++ "_respondant")
        (fun x => AdvocateRelation.clauseFor (x ++ "_respondant") x
          ("respondant")) xs c := by
  induction xs generalizing c with
  | nil => rfl
  | cons x rest ih =>
    simp only [AdvocateRelation.respLoop, genLoop, ih]

/-! ### Per-handler step lemmas -/

theorem newXs_id (have0 xs : List String) :
    newXs have0 (fun x => x) xs = firstSeen have0 xs := by
  induction xs generalizing have0 with
  | nil => rfl
  | cons x rest ih =>
    simp only [newXs, firstSeen]
    by_cases h : x ∈ have0 <;> simp [h, ih]

theorem citation_step (cits : List String) (c : List (String × String))
    (hWF : ∀ kv ∈ c, kv.2 = get_hash kv.1) :
    CitationRelation.build_query_parts cits c =
      ((firstSeen (c.map Prod.fst) cits).map CitationRelation.clauseFor,
       cits.map (fun x => "cite_" ++ get_hash x),
       c ++ (firstSeen (c.map Prod.fst) cits).map
         (fun x => (x, get_hash x))) := by
  rw [citation_bridge, genLoop_eq _ _ _ _ _ hWF, newXs_id]

theorem judge_step (judges : List String) (c : List (String × String))
    (hWF : ∀ kv ∈ c, kv.2 = get_hash kv.1) :
    JudgeRelation.build_query_parts judges c =
      ((firstSeen (c.map Prod.fst) judges).map JudgeRelation.clauseFor,
       judges.map (fun x => "judge_" ++ get_hash x),
       c ++ (firstSeen (c.map Prod.fst) judges).map
         (fun x => (x, get_hash x))) := by
  rw [judge_bridge, genLoop_eq _ _ _ _ _ hWF, newXs_id]

theorem pet_step (pets : List String) (c : List (String × String))
    (hWF : ∀ kv ∈ c, kv.2 = get_hash kv.1) :
    AdvocateRelation.petLoop pets c =
      ((firstSeen (c.map Prod.fst) pets).map
         (fun x => AdvocateRelation.clauseFor x x ("petitioner")),
       pets.map (fun x => "adv_" ++ get_hash x),
       c ++ (firstSeen (c.map Prod.fst) pets).map
         (fun x => (x, get_hash x))) := by
  rw [pet_bridge, genLoop_eq _ _ _ _ _ hWF, newXs_id]

theorem resp_step (resps : List String) (c : List (String × String))
    (hWF : ∀ kv ∈ c, kv.2 = get_hash kv.1) :
    AdvocateRelation.respLoop resps c =
      ((newXs (c.map Prod.fst) (fun x => x ++ "_respondant") resps).map
         (fun x => AdvocateRelation.clauseFor (x ++ "_respondant") x
           ("respondant")),
       resps.map (fun x => "adv_" ++ get_hash (x ++ "_respondant")),
       c ++ (newXs (c.map Prod.fst) (fun x => x ++ "_respondant") resps).map
         (fun x => (x ++ "_respondant", get_hash (x ++ "_respondant")))) := by
  rw [resp_bridge, genLoop_eq _ _ _ _ _ hWF]

theorem outcome_step (o : Option String) (c : List (String × String))
    (hWF : ∀ kv ∈ c, kv.2 = get_hash kv.1) :
    OutcomeRelation.build_query_parts o c =
      ((firstSeen (c.map Prod.fst) (optKeys o)).map OutcomeRelation.clauseFor,
       (match o with
        | none => none
        | some t => if t = "" then none else some ("outcome_" ++ get_hash t)),
       c ++ (firstSeen (c.map Prod.fst) (optKeys o)).map
         (fun t => (t, get_hash t))) := by
  cases o with
  | none => simp [OutcomeRelation.build_query_parts, optKeys, firstSeen]
  | some t =>
    by_cases ht : t = ""
    · simp [OutcomeRelation.build_query_parts, optKeys, ht, firstSeen]
    · simp only [OutcomeRelation.build_query_parts, optKeys, ht, if_neg,
        if_false]
      cases hv : lookupA c t with
      | some v =>
        have hm : t ∈ c.map Prod.fst :=
          lookupA_isSome_iff.mp (by simp [hv])
        have hveq : v = get_hash t := hWF _ (lookupA_mem hv)
        simp [firstSeen, hm, hveq]
      | none =>
        have hm : t ∉ c.map Prod.fst := lookupA_none_iff.mp hv
        simp [firstSeen, hm]

theorem duration_step (o : Option String) (c : List (String × String))
    (hWF : ∀ kv ∈ c, kv.2 = get_hash kv.1) :
    CaseDurationRelation.build_query_parts o c =
      ((firstSeen (c.map Prod.fst) (optKeys o)).map
         CaseDurationRelation.clauseFor,
       (match o with
        | none => none
        | some t => if t = "" then none else some ("duration_" ++ get_hash t)),
       c ++ (firstSeen (c.map Prod.fst) (optKeys o)).map
         (fun t => (t, get_hash t))) := by
  cases o with
  | none => simp [CaseDurationRelation.build_query_parts, optKeys, firstSeen]
  | some t =>
    by_cases ht : t = ""
    · simp [CaseDurationRelation.build_query_parts, optKeys, ht, firstSeen]
    · simp only [CaseDurationRelation.build_query_parts, optKeys, ht, if_neg,
        if_false]
      cases hv : lookupA c t with
      | some v =>
        have hm : t ∈ c.map Prod.fst :=
          lookupA_isSome_iff.mp (by simp [hv])
        have hveq : v = get_hash t := hWF _ (lookupA_mem hv)
        simp [firstSeen, hm, hveq]
      | none =>
        have hm : t ∉ c.map Prod.fst := lookupA_none_iff.mp hv
        simp [firstSeen, hm]

theorem court_step (n loc b : Option String) (c : List (String × CourtData))
    (hWF : ∀ kv ∈ c, kv.2.hash = get_hash kv.1) :
    CourtRelation.build_query_parts n loc b c =
      ((match n with
        | none => []
        | some nm =>
          if nm = "" then []
          else if CourtRelation.keyOf nm loc ∈ c.map Prod.fst then []
          else [CourtRelation.clauseFor nm loc]),
       (match n with
        | none => none
        | some nm =>
          if nm = "" then none
          else some ("court_" ++ get_hash (CourtRelation.keyOf nm loc))),
       c ++ (match n with
        | none => []
        | some nm =>
          if nm = "" then []
          else if CourtRelation.keyOf nm loc ∈ c.map Prod.fst then []
          else [(CourtRelation.keyOf nm loc,
            { hash := get_hash (CourtRelation.keyOf nm loc), name := nm,
              location := loc, bench_type := b })])) := by
  cases n with
  | none => simp [CourtRelation.build_query_parts]
  | some nm =>
    by_cases hn : nm = ""
    · simp [CourtRelation.build_query_parts, hn]
    · simp only [CourtRelation.build_query_parts, hn, if_neg, if_false]
      cases hv : lookupC c (CourtRelation.keyOf nm loc) with
      | some cd =>
        have hm : CourtRelation.keyOf nm loc ∈ c.map Prod.fst :=
          lookupC_isSome_iff.mp (by simp [hv])
        have hveq : cd.hash = get_hash (CourtRelation.keyOf nm loc) :=
          hWF _ (lookupC_mem hv)
        simp [hm, hveq]
      | none =>
        have hm : CourtRelation.keyOf nm loc ∉ c.map Prod.fst :=
          lookupC_none_iff.mp hv
        simp [hm]

/-! ### Cache evolution per document -/

theorem map_fst_pairs (xs : List String) :
    (xs.map (fun x => (x, get_hash x))).map Prod.fst = xs := by
  induction xs with
  | nil => rfl
  | cons x rest ih => simp only [List.map_cons, ih]

theorem map_fst_kpairs (k : String → String) (xs : List String) :
    (xs.map (fun x => (k x, get_hash (k x)))).map Prod.fst = xs.map k := by
  induction xs with
  | nil => rfl
  | cons x rest ih => simp only [List.map_cons, ih]

theorem wf_append_pairs {c : List (String × String)}
    (hWF : ∀ kv ∈ c, kv.2 = get_hash kv.1) (xs : List String) :
    ∀ kv ∈ c ++ xs.map (fun x => (x, get_hash x)), kv.2 = get_hash kv.1 := by
  intro kv hkv
  rcases List.mem_append.mp hkv with h | h
  · exact hWF kv h
  · rcases List.mem_map.mp h with ⟨x, _, rfl⟩
    rfl

theorem wf_append_kpairs {c : List (String × String)}
    (hWF : ∀ kv ∈ c, kv.2 = get_hash kv.1) (k : String → String)
    (xs : List String) :
    ∀ kv ∈ c ++ xs.map (fun x => (k x, get_hash (k x))),
      kv.2 = get_hash kv.1 := by
  intro kv hkv
  rcases List.mem_append.mp hkv with h | h
  · exact hWF kv h
  · rcases List.mem_map.mp h with ⟨x, _, rfl⟩
    rfl

theorem advocate_step (pets resps : List String) (c : List (String × String))
    (hWF : ∀ kv ∈ c, kv.2 = get_hash kv.1) :
    AdvocateRelation.build_query_parts pets resps c =
      ((firstSeen (c.map Prod.fst) pets).map
          (fun x => AdvocateRelation.clauseFor x x ("petitioner")) ++
        (newXs (c.map Prod.fst ++ firstSeen (c.map Prod.fst) pets)
            (fun x => x ++ "_respondant") resps).map
          (fun x => AdvocateRelation.clauseFor (x ++ "_respondant") x
            ("respondant")),
       pets.map (fun x => "adv_" ++ get_hash x),
       resps.map (fun x => "adv_" ++ get_hash (x ++ "_respondant")),
       c ++ ((firstSeen (c.map Prod.fst) pets).map (fun x => (x, get_hash x)) ++
         (newXs (c.map Prod.fst ++ firstSeen (c.map Prod.fst) pets)
             (fun x => x ++ "_respondant") resps).map
           (fun x => (x ++ "_respondant", get_hash (x ++ "_respondant"))))) := by
  unfold AdvocateRelation.build_query_parts
  rw [pet_step pets c hWF]
  dsimp only []
  rw [resp_step resps _ (wf_append_pairs hWF _)]
  dsimp only []
  rw [List.map_append, map_fst_pairs]
  simp only [List.append_assoc]

/-- The combined statement of how one document transforms the caches. -/
theorem stepState_spec (ex : DocExtract) (st : BState) (hWF : WFState st) :
    WFState (stepState ex st) ∧
    (stepState ex st).citations.map Prod.fst =
      st.citations.map Prod.fst ++
        firstSeen (st.citations.map Prod.fst) ex.cits ∧
    (stepState ex st).judges.map Prod.fst =
      st.judges.map Prod.fst ++
        firstSeen (st.judges.map Prod.fst) ex.judges ∧
    (stepState ex st).advocates.map Prod.fst =
      st.advocates.map Prod.fst ++
        firstSeen (st.advocates.map Prod.fst) (advKeys ex) ∧
    (stepState ex st).outcomes.map Prod.fst =
      st.outcomes.map Prod.fst ++
        firstSeen (st.outcomes.map Prod.fst) (optKeys ex.outc) ∧
    (stepState ex st).durations.map Prod.fst =
      st.durations.map Prod.fst ++
        firstSeen (st.durations.map Prod.fst) (optKeys ex.dur) ∧
    (stepState ex st).courts.map Prod.fst =
      st.courts.map Prod.fst ++
        firstSeen (st.courts.map Prod.fst)
          (courtKeyOpt ex.court_name ex.court_location) := by
  obtain ⟨⟨hc1, hn1⟩, ⟨hc2, hn2⟩, ⟨hc3, hn3⟩, ⟨hc4, hn4⟩, ⟨hc5, hn5⟩,
    ⟨hc6, hn6⟩⟩ := hWF
  have kc : (stepState ex st).citations.map Prod.fst =
      st.citations.map Prod.fst ++
        firstSeen (st.citations.map Prod.fst) ex.cits := by
    simp only [stepState, citation_step _ _ hc1, List.map_append,
      map_fst_pairs]
  have kj : (stepState ex st).judges.map Prod.fst =
      st.judges.map Prod.fst ++
        firstSeen (st.judges.map Prod.fst) ex.judges := by
    simp only [stepState, judge_step _ _ hc2, List.map_append, map_fst_pairs]
  have ka : (stepState ex st).advocates.map Prod.fst =
      st.advocates.map Prod.fst ++
        firstSeen (st.advocates.map Prod.fst) (advKeys ex) := by
    simp only [stepState, advocate_step _ _ _ hc3]
    rw [advKeys, firstSeen_append]
    simp only [List.map_append, map_fst_pairs, map_fst_kpairs, newXs_map_k,
      List.append_assoc]
  have ko : (stepState ex st).outcomes.map Prod.fst =
      st.outcomes.map Prod.fst ++
        firstSeen (st.outcomes.map Prod.fst) (optKeys ex.outc) := by
    simp only [stepState, outcome_step _ _ hc4, List.map_append,
      map_fst_pairs]
  have kd : (stepState ex st).durations.map Prod.fst =
      st.durations.map Prod.fst ++
        firstSeen (st.durations.map Prod.fst) (optKeys ex.dur) := by
    simp only [stepState, duration_step _ _ hc5, List.map_append,
      map_fst_pairs]
  have kct : (stepState ex st).courts.map Prod.fst =
      st.courts.map Prod.fst ++
        firstSeen (st.courts.map Prod.fst)
          (courtKeyOpt ex.court_name ex.court_location) := by
    simp only [stepState, court_step _ _ _ _ hc6]
    cases hcn : ex.court_name with
    | none => simp [courtKeyOpt, firstSeen]
    | some nm =>
      by_cases hn : nm = ""
      · simp [courtKeyOpt, hn, firstSeen]
      · by_cases hm : CourtRelation.keyOf nm ex.court_location ∈
            st.courts.map Prod.fst
        · simp [courtKeyOpt, hn, hm, firstSeen]
        · simp [courtKeyOpt, hn, hm, firstSeen]
  refine ⟨⟨?_, ?_, ?_, ?_, ?_, ?_⟩, kc, kj, ka, ko, kd, kct⟩
  · refine ⟨?_, ?_⟩
    · simp only [stepState, citation_step _ _ hc1]
      exact wf_append_pairs hc1 _
    · rw [kc]
      exact firstSeen_append_nodup hn1
  · refine ⟨?_, ?_⟩
    · simp only [stepState, judge_step _ _ hc2]
      exact wf_append_pairs hc2 _
    · rw [kj]
      exact firstSeen_append_nodup hn2
  · refine ⟨?_, ?_⟩
    · simp only [stepState, advocate_step _ _ _ hc3]
      intro kv hkv
      rw [← List.append_assoc] at hkv
      rcases List.mem_append.mp hkv with h | h
      · exact wf_append_pairs hc3 _ kv h
      · rcases List.mem_map.mp h with ⟨x, _, rfl⟩
        rfl
    · rw [ka]
      exact firstSeen_append_nodup hn3
  · refine ⟨?_, ?_⟩
    · simp only [stepState, outcome_step _ _ hc4]
      exact wf_append_pairs hc4 _
    · rw [ko]
      exact firstSeen_append_nodup hn4
  · refine ⟨?_, ?_⟩
    · simp only [stepState, duration_step _ _ hc5]
      exact wf_append_pairs hc5 _
    · rw [kd]
      exact firstSeen_append_nodup hn5
  · refine ⟨?_, ?_⟩
    · simp only [stepState, court_step _ _ _ _ hc6]
      intro kv hkv
      rcases List.mem_append.mp hkv with h | h
      · exact hc6 kv h
      · cases hcn : ex.court_name with
        | none => simp [hcn] at h
        | some nm =>
          rw [hcn] at h
          by_cases hn : nm = ""
          · simp [hn] at h
          · by_cases hm : CourtRelation.keyOf nm ex.court_location ∈
                st.courts.map Prod.fst
            · simp [hn, hm] at h
            · simp only [hn, hm, if_false, if_neg, List.mem_singleton] at h
              subst h
              rfl
    · rw [kct]
      exact firstSeen_append_nodup hn6

/-! ### Batch-level cache evolution -/

theorem citStream_cons (ex : DocExtract) (rest : List DocExtract) :
    citStream (ex :: rest) = ex.cits ++ citStream rest := by
  simp [citStream]

theorem judgeStream_cons (ex : DocExtract) (rest : List DocExtract) :
    judgeStream (ex :: rest) = ex.judges ++ judgeStream rest := by
  simp [judgeStream]

theorem advStream_cons (ex : DocExtract) (rest : List DocExtract) :
    advStream (ex :: rest) = advKeys ex ++ advStream rest := by
  simp [advStream]

theorem outcStream_cons (ex : DocExtract) (rest : List DocExtract) :
    outcStream (ex :: rest) = optKeys ex.outc ++ outcStream rest := by
  simp [outcStream]

theorem durStream_cons (ex : DocExtract) (rest : List DocExtract) :
    durStream (ex :: rest) = optKeys ex.dur ++ durStream rest := by
  simp [durStream]

theorem courtStream_cons (ex : DocExtract) (rest : List DocExtract) :
    courtStream (ex :: rest) =
      courtKeyOpt ex.court_name ex.court_location ++ courtStream rest := by
  simp [courtStream]

/-- The final caches of a batch: well-formed, and their keys are the
batch-wide key streams in first-seen order. -/
theorem foldState_spec (exs : List DocExtract) (st : BState)
    (hWF : WFState st) :
    WFState (foldDocs exs st).2.2 ∧
    (foldDocs exs st).2.2.citations.map Prod.fst =
      st.citations.map Prod.fst ++
        firstSeen (st.citations.map Prod.fst) (citStream exs) ∧
    (foldDocs exs st).2.2.judges.map Prod.fst =
      st.judges.map Prod.fst ++
        firstSeen (st.judges.map Prod.fst) (judgeStream exs) ∧
    (foldDocs exs st).2.2.advocates.map Prod.fst =
      st.advocates.map Prod.fst ++
        firstSeen (st.advocates.map Prod.fst) (advStream exs) ∧
    (foldDocs exs st).2.2.outcomes.map Prod.fst =
      st.outcomes.map Prod.fst ++
        firstSeen (st.outcomes.map Prod.fst) (outcStream exs) ∧
    (foldDocs exs st).2.2.durations.map Prod.fst =
      st.durations.map Prod.fst ++
        firstSeen (st.durations.map Prod.fst) (durStream exs) ∧
    (foldDocs exs st).2.2.courts.map Prod.fst =
      st.courts.map Prod.fst ++
        firstSeen (st.courts.map Prod.fst) (courtStream exs) := by
  induction exs generalizing st with
  | nil =>
    refine ⟨hWF, ?_, ?_, ?_, ?_, ?_, ?_⟩ <;>
      simp [foldDocs, citStream, judgeStream, advStream, outcStream,
        durStream, courtStream, firstSeen]
  | cons ex rest ih =>
    obtain ⟨hWF1, kc, kj, ka, ko, kd, kct⟩ := stepState_spec ex st hWF
    obtain ⟨hWF2, ic, ij, ia, io, idr, ict⟩ := ih (stepState ex st) hWF1
    refine ⟨?_, ?_, ?_, ?_, ?_, ?_, ?_⟩
    · simpa only [foldDocs] using hWF2
    · simp only [foldDocs]
      rw [ic, kc, citStream_cons, firstSeen_append, List.append_assoc]
    · simp only [foldDocs]
      rw [ij, kj, judgeStream_cons, firstSeen_append, List.append_assoc]
    · simp only [foldDocs]
      rw [ia, ka, advStream_cons, firstSeen_append, List.append_assoc]
    · simp only [foldDocs]
      rw [io, ko, outcStream_cons, firstSeen_append, List.append_assoc]
    · simp only [foldDocs]
      rw [idr, kd, durStream_cons, firstSeen_append, List.append_assoc]
    · simp only [foldDocs]
      rw [ict, kct, courtStream_cons, firstSeen_append, List.append_assoc]

/-! ### String prefix facts -/

theorem pyStartsWith_append (a b : String) :
    pyStartsWith (a ++ b) a = true := by
  simp only [pyStartsWith, String.data_append]
  induction a.data with
  | nil => simp [List.isPrefixOf]
  | cons c rest ih => simp [List.isPrefixOf, ih]

theorem bindsVar_of_append (v rest : String) :
    bindsVar (v ++ " as var(" ++ rest) v := by
  simp only [bindsVar]
  have := pyStartsWith_append (v ++ " as var(") rest
  simpa [String.append_assoc] using this

theorem isPrefixOf_extend {c b : List Char} (r : List Char)
    (h : List.isPrefixOf c b = true) : List.isPrefixOf c (b ++ r) = true := by
  induction c generalizing b with
  | nil => simp [List.isPrefixOf]
  | cons x cs ih =>
    cases b with
    | nil => simp [List.isPrefixOf] at h
    | cons y bs =>
      simp only [List.isPrefixOf, Bool.and_eq_true] at h
      simp only [List.cons_append, List.isPrefixOf, Bool.and_eq_true]
      exact ⟨h.1, ih h.2⟩

theorem pyStartsWith_extend {b c : String} (r : String)
    (h : pyStartsWith b c = true) : pyStartsWith (b ++ r) c = true := by
  simp only [pyStartsWith, String.data_append] at h ⊢
  exact isPrefixOf_extend _ h

theorem pyStartsWith_congr_left (a : String) {b c : String}
    (h : pyStartsWith b c = true) : pyStartsWith (a ++ b) (a ++ c) = true := by
  simp only [pyStartsWith, String.data_append] at h ⊢
  induction a.data with
  | nil => exact h
  | cons x xs ih => simpa [List.isPrefixOf] using ih

/-- A clause of shape `v ++ (" as var(func: eq(" ++ tail)` binds `v`. -/
theorem bindsVar_shape (v tail : String) :
    bindsVar (v ++ (" as var(func: eq(" ++ tail)) v := by
  simp only [bindsVar]
  apply pyStartsWith_congr_left v
  apply pyStartsWith_extend
  decide

theorem bindsVar_citation (x : String) :
    bindsVar (CitationRelation.clauseFor x) ("cite_" ++ get_hash x) := by
  have := bindsVar_shape ("cite_" ++ get_hash x)
    ("title, \"" ++ escapeQuotes x ++ "\"))")
  simpa [CitationRelation.clauseFor, String.append_assoc] using this

theorem bindsVar_judge (x : String) :
    bindsVar (JudgeRelation.clauseFor x) ("judge_" ++ get_hash x) := by
  have := bindsVar_shape ("judge_" ++ get_hash x)
    ("name, \"" ++ escapeQuotes x ++ "\")) @filter(type(Judge))")
  simpa [JudgeRelation.clauseFor, String.append_assoc] using this

theorem bindsVar_advocate (key name role : String) :
    bindsVar (AdvocateRelation.clauseFor key name role)
      ("adv_" ++ get_hash key) := by
  have := bindsVar_shape ("adv_" ++ get_hash key)
    ("name, \"" ++ escapeQuotes name ++
      "\")) @filter(type(Advocate) AND eq(advocate_type, \"" ++ role ++ "\"))")
  simpa [AdvocateRelation.clauseFor, String.append_assoc] using this

theorem bindsVar_outcome (x : String) :
    bindsVar (OutcomeRelation.clauseFor x) ("outcome_" ++ get_hash x) := by
  have := bindsVar_shape ("outcome_" ++ get_hash x)
    ("name, \"" ++ escapeQuotes x ++ "\")) @filter(type(Outcome))")
  simpa [OutcomeRelation.clauseFor, String.append_assoc] using this

theorem bindsVar_duration (x : String) :
    bindsVar (CaseDurationRelation.clauseFor x) ("duration_" ++ get_hash x) := by
  have := bindsVar_shape ("duration_" ++ get_hash x)
    ("duration, \"" ++ escapeQuotes x ++ "\")) @filter(type(CaseDuration))")
  simpa [CaseDurationRelation.clauseFor, String.append_assoc] using this

theorem bindsVar_court (nm : String) (loc : Option String) :
    bindsVar (CourtRelation.clauseFor nm loc)
      ("court_" ++ get_hash (CourtRelation.keyOf nm loc)) := by
  cases loc with
  | none =>
    have := bindsVar_shape ("court_" ++ get_hash (CourtRelation.keyOf nm none))
      ("name, \"" ++ escapeQuotes nm ++ "\")) @filter(type(Court))")
    simpa [CourtRelation.clauseFor, String.append_assoc] using this
  | some l =>
    have := bindsVar_shape
      ("court_" ++ get_hash (CourtRelation.keyOf nm (some l)))
      ("name, \"" ++ escapeQuotes nm ++
        "\")) @filter(type(Court) AND eq(location, \"" ++ escapeQuotes l ++
        "\"))")
    simpa [CourtRelation.clauseFor, String.append_assoc] using this

theorem bindsVar_judgment (jd : JudgmentData) :
    bindsVar (JudgmentRelation.build_query_part jd)
      ("main_" ++ toString jd.idx) := by
  have := bindsVar_shape ("main_" ++ toString jd.idx)
    ("judgment_id, \"" ++ jd.judgment_id ++ "\"))")
  simpa [JudgmentRelation.build_query_part, String.append_assoc] using this

/-! ### Node introspection -/

theorem nodeHasKey_append (a b : Node) (k : String) :
    nodeHasKey (a ++ b) k = (nodeHasKey a k || nodeHasKey b k) := by
  simp [nodeHasKey, List.any_append]

theorem hasEdgeTo_append (a b : Node) (rel v : String) :
    hasEdgeTo (a ++ b) rel v = (hasEdgeTo a rel v || hasEdgeTo b rel v) := by
  simp [hasEdgeTo, List.any_append]

theorem nodeRefs_append (a b : Node) :
    nodeRefs (a ++ b) = nodeRefs a ++ nodeRefs b := by
  simp [nodeRefs]

theorem nodeHasStrVal_append (a b : Node) (k v : String) :
    nodeHasStrVal (a ++ b) k v =
      (nodeHasStrVal a k v || nodeHasStrVal b k v) := by
  simp [nodeHasStrVal, List.any_append]

theorem nodeHasKey_edgeField (k : String) (vs : Option (List String))
    (q : String) :
    nodeHasKey (JudgmentRelation.edgeField k vs) q =
      ((k == q) && edgePresent vs) := by
  cases vs with
  | none => simp [JudgmentRelation.edgeField, nodeHasKey, edgePresent]
  | some l =>
    cases l <;> simp [JudgmentRelation.edgeField, nodeHasKey, edgePresent]

theorem nodeHasKey_refField (k : String) (v : Option String) (q : String) :
    nodeHasKey (JudgmentRelation.refField k v) q =
      ((k == q) && refPresent v) := by
  cases v with
  | none => simp [JudgmentRelation.refField, nodeHasKey, refPresent]
  | some t =>
    by_cases ht : t = "" <;>
      simp [JudgmentRelation.refField, nodeHasKey, refPresent, ht]

theorem nodeHasKey_yearField (y : JVal) (q : String) :
    nodeHasKey (JudgmentRelation.yearField y) q =
      ((match y with | .null => false | _ => true) && ("year" == q)) := by
  cases y <;> simp [JudgmentRelation.yearField, nodeHasKey]

theorem nodeHasKey_tsField (ts : JVal) (q : String) :
    nodeHasKey (JudgmentRelation.tsField ts) q =
      (ts.truthy && ("processed_timestamp" == q)) := by
  by_cases h : ts.truthy = true <;>
    simp [JudgmentRelation.tsField, nodeHasKey, h]

theorem hasEdgeTo_edgeField (k : String) (vs : Option (List String))
    (q v : String) :
    hasEdgeTo (JudgmentRelation.edgeField k vs) q v =
      ((k == q) && (vs.getD []).contains v) := by
  cases vs with
  | none => simp [JudgmentRelation.edgeField, hasEdgeTo]
  | some l =>
    cases l <;> simp [JudgmentRelation.edgeField, hasEdgeTo]

theorem hasEdgeTo_refField (k : String) (ov : Option String) (q v : String) :
    hasEdgeTo (JudgmentRelation.refField k ov) q v =
      ((k == q) && refPresent ov && (ov.getD "" == v)) := by
  cases ov with
  | none => simp [JudgmentRelation.refField, hasEdgeTo, refPresent]
  | some t =>
    by_cases ht : t = ""
    · simp [JudgmentRelation.refField, hasEdgeTo, refPresent, ht]
    · have hb : (t == "") = false := beq_eq_false_iff_ne.mpr ht
      simp [JudgmentRelation.refField, hasEdgeTo, refPresent, ht, hb]

theorem hasEdgeTo_yearField (y : JVal) (q v : String) :
    hasEdgeTo (JudgmentRelation.yearField y) q v = false := by
  cases y <;> simp [JudgmentRelation.yearField, hasEdgeTo]

theorem hasEdgeTo_tsField (ts : JVal) (q v : String) :
    hasEdgeTo (JudgmentRelation.tsField ts) q v = false := by
  by_cases h : ts.truthy = true <;>
    simp [JudgmentRelation.tsField, hasEdgeTo, h]

theorem nodeRefs_edgeField (k : String) (vs : Option (List String)) :
    nodeRefs (JudgmentRelation.edgeField k vs) = vs.getD [] := by
  cases vs with
  | none => simp [JudgmentRelation.edgeField, nodeRefs]
  | some l => cases l <;> simp [JudgmentRelation.edgeField, nodeRefs, NVal.refs]

theorem nodeRefs_refField (k : String) (ov : Option String) :
    nodeRefs (JudgmentRelation.refField k ov) =
      (match ov with
       | some t => if t = "" then [] else [t]
       | none => []) := by
  cases ov with
  | none => simp [JudgmentRelation.refField, nodeRefs]
  | some t =>
    by_cases ht : t = "" <;>
      simp [JudgmentRelation.refField, nodeRefs, NVal.refs, ht]

theorem nodeRefs_yearField (y : JVal) :
    nodeRefs (JudgmentRelation.yearField y) = [] := by
  cases y <;> simp [JudgmentRelation.yearField, nodeRefs, NVal.refs]

theorem nodeRefs_tsField (ts : JVal) :
    nodeRefs (JudgmentRelation.tsField ts) = [] := by
  by_cases h : ts.truthy = true <;>
    simp [JudgmentRelation.tsField, nodeRefs, NVal.refs, h]

theorem listToOpt_getD (l : List String) : (listToOpt l).getD [] = l := by
  cases l <;> simp [listToOpt]

theorem edgePresent_listToOpt (l : List String) :
    edgePresent (listToOpt l) = !l.isEmpty := by
  cases l <;> simp [listToOpt, edgePresent]

theorem str_append_ne_empty (a s : String) (ha : a.data ≠ []) :
    ((a ++ s) == "") = false := by
  apply beq_eq_false_iff_ne.mpr
  intro h
  apply ha
  have hd : (a ++ s).data = ([] : List Char) := by
    rw [h]
  rw [String.data_append] at hd
  exact (List.append_eq_nil.mp hd).1

theorem refPresent_optVar (p : String) (hp : p.data ≠ []) (o : Option String) :
    refPresent (optVar p o) = !(optKeys o).isEmpty := by
  cases o with
  | none => simp [optVar, optKeys, refPresent]
  | some t =>
    by_cases ht : t = ""
    · simp [optVar, optKeys, refPresent, ht]
    · simp [optVar, optKeys, refPresent, ht, str_append_ne_empty _ _ hp]

theorem refPresent_courtVar (n loc : Option String) :
    refPresent (courtVar n loc) = !(courtKeyOpt n loc).isEmpty := by
  cases n with
  | none => simp [courtVar, courtKeyOpt, refPresent]
  | some nm =>
    by_cases hn : nm = ""
    · simp [courtVar, courtKeyOpt, refPresent, hn]
    · simp [courtVar, courtKeyOpt, refPresent, hn,
        str_append_ne_empty ("court_") _ (by decide)]

/-- The normal form of a document's judgment node over a WF state. -/
theorem docNode_eq (ex : DocExtract) (st : BState) (hWF : WFState st) :
    docNode ex st =
      JudgmentRelation.build_judgment_node ex.jd
        (listToOpt (citVars ex)) (listToOpt (judgeVars ex))
        (listToOpt (petVars ex)) (listToOpt (respVars ex))
        (optVar ("outcome_") ex.outc) (optVar ("duration_") ex.dur)
        (courtVar ex.court_name ex.court_location) := by
  obtain ⟨⟨hc1, _⟩, ⟨hc2, _⟩, ⟨hc3, _⟩, ⟨hc4, _⟩, ⟨hc5, _⟩, ⟨hc6, _⟩⟩ := hWF
  simp only [docNode, citation_step _ _ hc1, judge_step _ _ hc2,
    advocate_step _ _ _ hc3, outcome_step _ _ hc4, duration_step _ _ hc5,
    court_step _ _ _ _ hc6]
  simp only [listToOpt, optVar, courtVar, citVars, judgeVars, petVars,
    respVars]

theorem isEmpty_mapL {α β : Type} (f : α → β) (l : List α) :
    (l.map f).isEmpty = l.isEmpty := by
  cases l <;> rfl

theorem nodeHasKey_cons (kv : String × NVal) (n : Node) (q : String) :
    nodeHasKey (kv :: n) q = ((kv.1 == q) || nodeHasKey n q) := by
  simp [nodeHasKey]

theorem hasEdgeTo_cons_uid (k x : String) (n : Node) (q v : String) :
    hasEdgeTo ((k, NVal.uid x) :: n) q v = hasEdgeTo n q v := by
  simp [hasEdgeTo]

theorem hasEdgeTo_cons_str (k x : String) (n : Node) (q v : String) :
    hasEdgeTo ((k, NVal.str x) :: n) q v = hasEdgeTo n q v := by
  simp [hasEdgeTo]

theorem nodeRefs_cons (kv : String × NVal) (n : Node) :
    nodeRefs (kv :: n) = kv.2.refs ++ nodeRefs n := by
  simp [nodeRefs]

theorem nodeHasKey_core (jd : JudgmentData) (q : String) :
    nodeHasKey [("uid", NVal.uid ("main_" ++ toString jd.idx)),
      ("judgment_id", NVal.str jd.judgment_id),
      ("title", NVal.str jd.title),
      ("doc_id", NVal.str jd.doc_id),
      ("dgraph.type", NVal.str ("Judgment"))] q =
      (("uid" == q) || ("judgment_id" == q) || ("title" == q) ||
        ("doc_id" == q) || ("dgraph.type" == q)) := by
  simp [nodeHasKey, Bool.or_assoc]

theorem hasEdgeTo_core (jd : JudgmentData) (q v : String) :
    hasEdgeTo [("uid", NVal.uid ("main_" ++ toString jd.idx)),
      ("judgment_id", NVal.str jd.judgment_id),
      ("title", NVal.str jd.title),
      ("doc_id", NVal.str jd.doc_id),
      ("dgraph.type", NVal.str ("Judgment"))] q v = false := by
  simp [hasEdgeTo]

theorem nodeRefs_core (jd : JudgmentData) :
    nodeRefs [("uid", NVal.uid ("main_" ++ toString jd.idx)),
      ("judgment_id", NVal.str jd.judgment_id),
      ("title", NVal.str jd.title),
      ("doc_id", NVal.str jd.doc_id),
      ("dgraph.type", NVal.str ("Judgment"))] =
      ["main_" ++ toString jd.idx] := by
  simp [nodeRefs, NVal.refs]

theorem mem_nodeRefs_refField {k : String} {ov : Option String} {v : String}
    (h : v ∈ nodeRefs (JudgmentRelation.refField k ov)) : ov = some v := by
  cases ov with
  | none => simp [nodeRefs_refField] at h
  | some t =>
    rw [nodeRefs_refField] at h
    by_cases ht : t = ""
    · simp [ht] at h
    · simp [ht] at h
      rw [h]

/-- Presence of every field key on a document's judgment node. -/
theorem docNode_keySpec (ex : DocExtract) (st : BState) (hWF : WFState st) :
    nodeHasKey (docNode ex st) ("uid") = true ∧
    nodeHasKey (docNode ex st) ("judgment_id") = true ∧
    nodeHasKey (docNode ex st) ("title") = true ∧
    nodeHasKey (docNode ex st) ("doc_id") = true ∧
    nodeHasKey (docNode ex st) ("dgraph.type") = true ∧
    nodeHasKey (docNode ex st) ("year") =
      (match ex.jd.year with | .null => false | _ => true) ∧
    nodeHasKey (docNode ex st) ("processed_timestamp") =
      ex.jd.processed_timestamp.truthy ∧
    nodeHasKey (docNode ex st) ("cites") = !ex.cits.isEmpty ∧
    nodeHasKey (docNode ex st) ("judged_by") = !ex.judges.isEmpty ∧
    nodeHasKey (docNode ex st) ("petitioner_represented_by") =
      !ex.pets.isEmpty ∧
    nodeHasKey (docNode ex st) ("respondant_represented_by") =
      !ex.resps.isEmpty ∧
    nodeHasKey (docNode ex st) ("has_outcome") = !(optKeys ex.outc).isEmpty ∧
    nodeHasKey (docNode ex st) ("has_case_duration") =
      !(optKeys ex.dur).isEmpty ∧
    nodeHasKey (docNode ex st) ("court_heard_in") =
      !(courtKeyOpt ex.court_name ex.court_location).isEmpty := by
  rw [docNode_eq ex st hWF]
  refine ⟨?_, ?_, ?_, ?_, ?_, ?_, ?_, ?_, ?_, ?_, ?_, ?_, ?_, ?_⟩ <;>
    simp [JudgmentRelation.build_judgment_node, nodeHasKey_append,
      nodeHasKey_cons, nodeHasKey_edgeField, nodeHasKey_refField,
      nodeHasKey_yearField, nodeHasKey_tsField, edgePresent_listToOpt,
      refPresent_optVar ("outcome_") (by decide),
      refPresent_optVar ("duration_") (by decide), refPresent_courtVar,
      citVars, judgeVars, petVars, respVars, isEmpty_mapL]

/-- Edge references on a document's judgment node, per relationship. -/
theorem docNode_edgeSpec (ex : DocExtract) (st : BState) (hWF : WFState st)
    (v : String) :
    hasEdgeTo (docNode ex st) ("cites") v = (citVars ex).contains v ∧
    hasEdgeTo (docNode ex st) ("judged_by") v = (judgeVars ex).contains v ∧
    hasEdgeTo (docNode ex st) ("petitioner_represented_by") v =
      (petVars ex).contains v ∧
    hasEdgeTo (docNode ex st) ("respondant_represented_by") v =
      (respVars ex).contains v := by
  rw [docNode_eq ex st hWF]
  refine ⟨?_, ?_, ?_, ?_⟩ <;>
    simp [JudgmentRelation.build_judgment_node, hasEdgeTo_append,
      hasEdgeTo_cons_uid, hasEdgeTo_cons_str, hasEdgeTo_edgeField,
      hasEdgeTo_refField, hasEdgeTo_yearField, hasEdgeTo_tsField,
      listToOpt_getD]

/-- Every reference of a document's judgment node is its own root variable
or one of its extracted entity variables. -/
theorem docNode_refs_sub (ex : DocExtract) (st : BState) (hWF : WFState st) :
    ∀ v ∈ nodeRefs (docNode ex st),
      v = "main_" ++ toString ex.jd.idx ∨ v ∈ citVars ex ∨ v ∈ judgeVars ex ∨
      v ∈ petVars ex ∨ v ∈ respVars ex ∨
      optVar ("outcome_") ex.outc = some v ∨
      optVar ("duration_") ex.dur = some v ∨
      courtVar ex.court_name ex.court_location = some v := by
  rw [docNode_eq ex st hWF]
  intro v hv
  simp only [JudgmentRelation.build_judgment_node, nodeRefs_append,
    List.mem_append] at hv
  rcases hv with ((((((((h | h) | h) | h) | h) | h) | h) | h) | h) | h
  · rw [nodeRefs_core] at h
    simp only [List.mem_singleton] at h
    exact Or.inl h
  · rw [nodeRefs_yearField] at h
    simp at h
  · rw [nodeRefs_tsField] at h
    simp at h
  · rw [nodeRefs_edgeField, listToOpt_getD] at h
    exact Or.inr (Or.inl h)
  · rw [nodeRefs_edgeField, listToOpt_getD] at h
    exact Or.inr (Or.inr (Or.inl h))
  · rw [nodeRefs_edgeField, listToOpt_getD] at h
    exact Or.inr (Or.inr (Or.inr (Or.inl h)))
  · rw [nodeRefs_edgeField, listToOpt_getD] at h
    exact Or.inr (Or.inr (Or.inr (Or.inr (Or.inl h))))
  · exact Or.inr (Or.inr (Or.inr (Or.inr (Or.inr (Or.inl
      (mem_nodeRefs_refField h))))))
  · exact Or.inr (Or.inr (Or.inr (Or.inr (Or.inr (Or.inr (Or.inl
      (mem_nodeRefs_refField h)))))))
  · exact Or.inr (Or.inr (Or.inr (Or.inr (Or.inr (Or.inr (Or.inr
      (mem_nodeRefs_refField h)))))))

/-! ### The binding invariant: every cached variable has its clause -/

theorem mem_docParts_head (ex : DocExtract) (st : BState) :
    JudgmentRelation.build_query_part ex.jd ∈ docParts ex st := by
  simp [docParts]

theorem mem_docParts_cit {ex : DocExtract} {st : BState} {cl : String}
    (h : cl ∈ (CitationRelation.build_query_parts ex.cits st.citations).1) :
    cl ∈ docParts ex st := by
  simp only [docParts, List.mem_cons, List.mem_append]
  tauto

theorem mem_docParts_judge {ex : DocExtract} {st : BState} {cl : String}
    (h : cl ∈ (JudgeRelation.build_query_parts ex.judges st.judges).1) :
    cl ∈ docParts ex st := by
  simp only [docParts, List.mem_cons, List.mem_append]
  tauto

theorem mem_docParts_adv {ex : DocExtract} {st : BState} {cl : String}
    (h : cl ∈ (AdvocateRelation.build_query_parts ex.pets ex.resps
      st.advocates).1) :
    cl ∈ docParts ex st := by
  simp only [docParts, List.mem_cons, List.mem_append]
  tauto

theorem mem_docParts_outc {ex : DocExtract} {st : BState} {cl : String}
    (h : cl ∈ (OutcomeRelation.build_query_parts ex.outc st.outcomes).1) :
    cl ∈ docParts ex st := by
  simp only [docParts, List.mem_cons, List.mem_append]
  tauto

theorem mem_docParts_dur {ex : DocExtract} {st : BState} {cl : String}
    (h : cl ∈ (CaseDurationRelation.build_query_parts ex.dur st.durations).1) :
    cl ∈ docParts ex st := by
  simp only [docParts, List.mem_cons, List.mem_append]
  tauto

theorem mem_docParts_court {ex : DocExtract} {st : BState} {cl : String}
    (h : cl ∈ (CourtRelation.build_query_parts ex.court_name
      ex.court_location ex.court_bench st.courts).1) :
    cl ∈ docParts ex st := by
  simp only [docParts, List.mem_cons, List.mem_append]
  tauto

theorem stepBound (ex : DocExtract) (st : BState) (parts0 : List String)
    (hWF : WFState st) (hB : StateBound st parts0) :
    StateBound (stepState ex st) (parts0 ++ docParts ex st) := by
  obtain ⟨⟨hc1, hn1⟩, ⟨hc2, hn2⟩, ⟨hc3, hn3⟩, ⟨hc4, hn4⟩, ⟨hc5, hn5⟩,
    ⟨hc6, hn6⟩⟩ := hWF
  obtain ⟨hB1, hB2, hB3, hB4, hB5, hB6⟩ := hB
  refine ⟨?_, ?_, ?_, ?_, ?_, ?_⟩
  · intro kv hkv
    simp only [stepState, citation_step _ _ hc1] at hkv
    rcases List.mem_append.mp hkv with h | h
    · obtain ⟨cl, hcl, hbind⟩ := hB1 kv h
      exact ⟨cl, List.mem_append.mpr (Or.inl hcl), hbind⟩
    · rcases List.mem_map.mp h with ⟨x, hx, rfl⟩
      refine ⟨CitationRelation.clauseFor x,
        List.mem_append.mpr (Or.inr (mem_docParts_cit ?_)), bindsVar_citation x⟩
      rw [citation_step _ _ hc1]
      exact List.mem_map.mpr ⟨x, hx, rfl⟩
  · intro kv hkv
    simp only [stepState, judge_step _ _ hc2] at hkv
    rcases List.mem_append.mp hkv with h | h
    · obtain ⟨cl, hcl, hbind⟩ := hB2 kv h
      exact ⟨cl, List.mem_append.mpr (Or.inl hcl), hbind⟩
    · rcases List.mem_map.mp h with ⟨x, hx, rfl⟩
      refine ⟨JudgeRelation.clauseFor x,
        List.mem_append.mpr (Or.inr (mem_docParts_judge ?_)), bindsVar_judge x⟩
      rw [judge_step _ _ hc2]
      exact List.mem_map.mpr ⟨x, hx, rfl⟩
  · intro kv hkv
    simp only [stepState, advocate_step _ _ _ hc3] at hkv
    rw [← List.append_assoc] at hkv
    rcases List.mem_append.mp hkv with h | h
    · rcases List.mem_append.mp h with h | h
      · obtain ⟨cl, hcl, hbind⟩ := hB3 kv h
        exact ⟨cl, List.mem_append.mpr (Or.inl hcl), hbind⟩
      · rcases List.mem_map.mp h with ⟨x, hx, rfl⟩
        refine ⟨AdvocateRelation.clauseFor x x ("petitioner"),
          List.mem_append.mpr (Or.inr (mem_docParts_adv ?_)),
          bindsVar_advocate x x ("petitioner")⟩
        rw [advocate_step _ _ _ hc3]
        exact List.mem_append.mpr (Or.inl (List.mem_map.mpr ⟨x, hx, rfl⟩))
    · rcases List.mem_map.mp h with ⟨x, hx, rfl⟩
      refine ⟨AdvocateRelation.clauseFor (x ++ "_respondant") x ("respondant"),
        List.mem_append.mpr (Or.inr (mem_docParts_adv ?_)),
        bindsVar_advocate (x ++ "_respondant") x ("respondant")⟩
      rw [advocate_step _ _ _ hc3]
      exact List.mem_append.mpr (Or.inr (List.mem_map.mpr ⟨x, hx, rfl⟩))
  · intro kv hkv
    simp only [stepState, outcome_step _ _ hc4] at hkv
    rcases List.mem_append.mp hkv with h | h
    · obtain ⟨cl, hcl, hbind⟩ := hB4 kv h
      exact ⟨cl, List.mem_append.mpr (Or.inl hcl), hbind⟩
    · rcases List.mem_map.mp h with ⟨x, hx, rfl⟩
      refine ⟨OutcomeRelation.clauseFor x,
        List.mem_append.mpr (Or.inr (mem_docParts_outc ?_)),
        bindsVar_outcome x⟩
      rw [outcome_step _ _ hc4]
      exact List.mem_map.mpr ⟨x, hx, rfl⟩
  · intro kv hkv
    simp only [stepState, duration_step _ _ hc5] at hkv
    rcases List.mem_append.mp hkv with h | h
    · obtain ⟨cl, hcl, hbind⟩ := hB5 kv h
      exact ⟨cl, List.mem_append.mpr (Or.inl hcl), hbind⟩
    · rcases List.mem_map.mp h with ⟨x, hx, rfl⟩
      refine ⟨CaseDurationRelation.clauseFor x,
        List.mem_append.mpr (Or.inr (mem_docParts_dur ?_)),
        bindsVar_duration x⟩
      rw [duration_step _ _ hc5]
      exact List.mem_map.mpr ⟨x, hx, rfl⟩
  · intro kv hkv
    simp only [stepState, court_step _ _ _ _ hc6] at hkv
    rcases List.mem_append.mp hkv with h | h
    · obtain ⟨cl, hcl, hbind⟩ := hB6 kv h
      exact ⟨cl, List.mem_append.mpr (Or.inl hcl), hbind⟩
    · cases hcn : ex.court_name with
      | none => rw [hcn] at h; simp at h
      | some nm =>
        rw [hcn] at h
        by_cases hn : nm = ""
        · simp [hn] at h
        · by_cases hm : CourtRelation.keyOf nm ex.court_location ∈
              st.courts.map Prod.fst
          · simp [hn, hm] at h
          · simp only [hn, hm, if_false, if_neg, List.mem_singleton] at h
            subst h
            refine ⟨CourtRelation.clauseFor nm ex.court_location,
              List.mem_append.mpr (Or.inr (mem_docParts_court ?_)), ?_⟩
            · rw [court_step _ _ _ _ hc6, hcn]
              simp [hn, hm]
            · exact bindsVar_court nm ex.court_location

theorem stateBound_mono {st : BState} {ps qs : List String}
    (h : StateBound st ps) (hsub : ∀ c ∈ ps, c ∈ qs) : StateBound st qs := by
  obtain ⟨h1, h2, h3, h4, h5, h6⟩ := h
  refine ⟨?_, ?_, ?_, ?_, ?_, ?_⟩ <;>
    intro kv hkv
  · obtain ⟨cl, hcl, hb⟩ := h1 kv hkv
    exact ⟨cl, hsub cl hcl, hb⟩
  · obtain ⟨cl, hcl, hb⟩ := h2 kv hkv
    exact ⟨cl, hsub cl hcl, hb⟩
  · obtain ⟨cl, hcl, hb⟩ := h3 kv hkv
    exact ⟨cl, hsub cl hcl, hb⟩
  · obtain ⟨cl, hcl, hb⟩ := h4 kv hkv
    exact ⟨cl, hsub cl hcl, hb⟩
  · obtain ⟨cl, hcl, hb⟩ := h5 kv hkv
    exact ⟨cl, hsub cl hcl, hb⟩
  · obtain ⟨cl, hcl, hb⟩ := h6 kv hkv
    exact ⟨cl, hsub cl hcl, hb⟩

theorem optVar_some {p : String} {o : Option String} {v : String}
    (h : optVar p o = some v) :
    ∃ t, o = some t ∧ t ≠ "" ∧ v = p ++ get_hash t := by
  cases o with
  | none => simp [optVar] at h
  | some t =>
    by_cases ht : t = ""
    · simp [optVar, ht] at h
    · simp only [optVar, ht, if_false, if_neg, Option.some.injEq] at h
      exact ⟨t, rfl, ht, h.symm⟩

theorem courtVar_some {n loc : Option String} {v : String}
    (h : courtVar n loc = some v) :
    ∃ nm, n = some nm ∧ nm ≠ "" ∧
      v = "court_" ++ get_hash (CourtRelation.keyOf nm loc) := by
  cases n with
  | none => simp [courtVar] at h
  | some nm =>
    by_cases hn : nm = ""
    · simp [courtVar, hn] at h
    · simp only [courtVar, hn, if_false, if_neg, Option.some.injEq] at h
      exact ⟨nm, rfl, hn, h.symm⟩

theorem cacheBound_var {p : String} {c : List (String × String)}
    {parts : List String} (hB : CacheBound p c parts)
    (hWFv : ∀ kv ∈ c, kv.2 = get_hash kv.1) {x : String}
    (hx : x ∈ c.map Prod.fst) :
    ∃ cl ∈ parts, bindsVar cl (p ++ get_hash x) := by
  rcases List.mem_map.mp hx with ⟨kv, hkv, rfl⟩
  obtain ⟨cl, hcl, hb⟩ := hB kv hkv
  rw [hWFv kv hkv] at hb
  exact ⟨cl, hcl, hb⟩

theorem courtCacheBound_var {c : List (String × CourtData)}
    {parts : List String} (hB : CourtCacheBound c parts)
    (hWFv : ∀ kv ∈ c, kv.2.hash = get_hash kv.1) {x : String}
    (hx : x ∈ c.map Prod.fst) :
    ∃ cl ∈ parts, bindsVar cl ("court_" ++ get_hash x) := by
  rcases List.mem_map.mp hx with ⟨kv, hkv, rfl⟩
  obtain ⟨cl, hcl, hb⟩ := hB kv hkv
  rw [hWFv kv hkv] at hb
  exact ⟨cl, hcl, hb⟩

/-- Every lookup variable referenced by a document's judgment node is bound
by a clause, given that the post-document caches are bound. -/
theorem docNode_refs_bound (ex : DocExtract) (st : BState)
    {parts0 : List String} (hWF : WFState st)
    (hB : StateBound (stepState ex st) parts0)
    (hjq : ∃ c ∈ parts0, bindsVar c ("main_" ++ toString ex.jd.idx)) :
    ∀ v ∈ nodeRefs (docNode ex st), ∃ c ∈ parts0, bindsVar c v := by
  obtain ⟨hWF1, kc, kj, ka, ko, kd, kct⟩ := stepState_spec ex st hWF
  obtain ⟨⟨wc1, _⟩, ⟨wc2, _⟩, ⟨wc3, _⟩, ⟨wc4, _⟩, ⟨wc5, _⟩, ⟨wc6, _⟩⟩ := hWF1
  obtain ⟨b1, b2, b3, b4, b5, b6⟩ := hB
  intro v hv
  rcases docNode_refs_sub ex st hWF v hv with h | h | h | h | h | h | h | h
  · subst h
    exact hjq
  · rcases List.mem_map.mp h with ⟨x, hx, rfl⟩
    apply cacheBound_var b1 wc1
    rw [kc]
    rcases @mem_firstSeen_of_mem (st.citations.map Prod.fst) _ _ hx
      with hm | hm
    · exact List.mem_append.mpr (Or.inl hm)
    · exact List.mem_append.mpr (Or.inr hm)
  · rcases List.mem_map.mp h with ⟨x, hx, rfl⟩
    apply cacheBound_var b2 wc2
    rw [kj]
    rcases @mem_firstSeen_of_mem (st.judges.map Prod.fst) _ _ hx
      with hm | hm
    · exact List.mem_append.mpr (Or.inl hm)
    · exact List.mem_append.mpr (Or.inr hm)
  · rcases List.mem_map.mp h with ⟨x, hx, rfl⟩
    apply cacheBound_var b3 wc3
    rw [ka]
    have hx2 : x ∈ advKeys ex := List.mem_append.mpr (Or.inl hx)
    rcases @mem_firstSeen_of_mem (st.advocates.map Prod.fst) _ _ hx2
      with hm | hm
    · exact List.mem_append.mpr (Or.inl hm)
    · exact List.mem_append.mpr (Or.inr hm)
  · rcases List.mem_map.mp h with ⟨x, hx, rfl⟩
    apply cacheBound_var b3 wc3
    rw [ka]
    have hx2 : x ++ "_respondant" ∈ advKeys ex :=
      List.mem_append.mpr (Or.inr (List.mem_map.mpr ⟨x, hx, rfl⟩))
    rcases @mem_firstSeen_of_mem (st.advocates.map Prod.fst) _ _ hx2
      with hm | hm
    · exact List.mem_append.mpr (Or.inl hm)
    · exact List.mem_append.mpr (Or.inr hm)
  · obtain ⟨t, hto, htne, rfl⟩ := optVar_some h
    apply cacheBound_var b4 wc4
    rw [ko]
    have hx2 : t ∈ optKeys ex.outc := by simp [optKeys, hto, htne]
    rcases @mem_firstSeen_of_mem (st.outcomes.map Prod.fst) _ _ hx2
      with hm | hm
    · exact List.mem_append.mpr (Or.inl hm)
    · exact List.mem_append.mpr (Or.inr hm)
  · obtain ⟨t, hto, htne, rfl⟩ := optVar_some h
    apply cacheBound_var b5 wc5
    rw [kd]
    have hx2 : t ∈ optKeys ex.dur := by simp [optKeys, hto, htne]
    rcases @mem_firstSeen_of_mem (st.durations.map Prod.fst) _ _ hx2
      with hm | hm
    · exact List.mem_append.mpr (Or.inl hm)
    · exact List.mem_append.mpr (Or.inr hm)
  · obtain ⟨nm, hto, htne, rfl⟩ := courtVar_some h
    apply courtCacheBound_var b6 wc6
    rw [kct]
    have hx2 : CourtRelation.keyOf nm ex.court_location ∈
        courtKeyOpt ex.court_name ex.court_location := by
      simp [courtKeyOpt, hto, htne]
    rcases @mem_firstSeen_of_mem (st.courts.map Prod.fst) _ _ hx2
      with hm | hm
    · exact List.mem_append.mpr (Or.inl hm)
    · exact List.mem_append.mpr (Or.inr hm)

theorem WFState_empty : WFState BState.empty := by
  refine ⟨⟨?_, ?_⟩, ⟨?_, ?_⟩, ⟨?_, ?_⟩, ⟨?_, ?_⟩, ⟨?_, ?_⟩, ⟨?_, ?_⟩⟩ <;>
    simp [BState.empty]

theorem stateBound_empty (parts : List String) :
    StateBound BState.empty parts := by
  refine ⟨?_, ?_, ?_, ?_, ?_, ?_⟩ <;> intro kv hkv <;>
    simp [BState.empty] at hkv

/-- The batch invariant: after the whole loop, every cache is bound in the
accumulated query parts, and every judgment node's references are bound. -/
theorem foldDocs_bound (exs : List DocExtract) (st : BState)
    (parts0 : List String) (hWF : WFState st) (hB : StateBound st parts0) :
    StateBound (foldDocs exs st).2.2 (parts0 ++ (foldDocs exs st).1) ∧
    ∀ node ∈ (foldDocs exs st).2.1, ∀ v ∈ nodeRefs node,
      ∃ c ∈ parts0 ++ (foldDocs exs st).1, bindsVar c v := by
  induction exs generalizing st parts0 with
  | nil =>
    constructor
    · simpa [foldDocs] using hB
    · simp [foldDocs]
  | cons ex rest ih =>
    have hWF1 := (stepState_spec ex st hWF).1
    have hB1 := stepBound ex st parts0 hWF hB
    obtain ⟨ihB, ihN⟩ := ih (stepState ex st) (parts0 ++ docParts ex st)
      hWF1 hB1
    rcases hf : foldDocs rest (stepState ex st) with ⟨p2, n2, st2⟩
    rw [hf] at ihB ihN
    constructor
    · simp only [foldDocs, hf]
      apply stateBound_mono ihB
      intro c hc
      simpa [List.append_assoc] using hc
    · simp only [foldDocs, hf]
      intro node hnode v hv
      rcases List.mem_cons.mp hnode with rfl | hnode
      · have hj : ∃ c ∈ parts0 ++ docParts ex st,
            bindsVar c ("main_" ++ toString ex.jd.idx) :=
          ⟨_, List.mem_append.mpr (Or.inr (mem_docParts_head ex st)),
            bindsVar_judgment ex.jd⟩
        obtain ⟨c, hc, hb⟩ := docNode_refs_bound ex st hWF hB1 hj v hv
        refine ⟨c, ?_, hb⟩
        simpa [List.append_assoc] using
          List.mem_append.mpr (Or.inl hc)
      · obtain ⟨c, hc, hb⟩ := ihN node hnode v hv
        refine ⟨c, ?_, hb⟩
        simpa [List.append_assoc] using hc

theorem court_node_refs (cd : CourtData) :
    nodeRefs
      (let base : Node :=
        [("uid", NVal.uid ("court_" ++ cd.hash)),
         ("court_id", NVal.str ("court_" ++ cd.hash)),
         ("name", NVal.str cd.name),
         ("dgraph.type", NVal.str ("Court"))]
      let base :=
        match cd.location with
        | some loc => if loc = "" then base else base ++ [("location", NVal.str loc)]
        | none => base
      match cd.bench_type with
      | some b => if b = "" then base else base ++ [("bench_type", NVal.str b)]
      | none => base) = ["court_" ++ cd.hash] := by
  rcases hloc : cd.location with _ | loc <;>
    rcases hbt : cd.bench_type with _ | bt
  · simp [nodeRefs, NVal.refs]
  · by_cases h : bt = "" <;> simp [nodeRefs, NVal.refs, h]
  · by_cases h : loc = "" <;> simp [nodeRefs, NVal.refs, h]
  · by_cases h : loc = "" <;> by_cases h2 : bt = "" <;>
      simp [nodeRefs, NVal.refs, h, h2]

/-- Every reference of every entity node is bound, given bound caches. -/
theorem entityNodes_bound (st : BState) (parts : List String)
    (hB : StateBound st parts) :
    ∀ node ∈ MutationBuilder.entityNodes st, ∀ v ∈ nodeRefs node,
      ∃ c ∈ parts, bindsVar c v := by
  obtain ⟨b1, b2, b3, b4, b5, b6⟩ := hB
  intro node hnode v hv
  simp only [MutationBuilder.entityNodes, List.mem_append] at hnode
  rcases hnode with ((((h | h) | h) | h) | h) | h
  · rcases List.mem_map.mp h with ⟨kv, hkv, rfl⟩
    simp [nodeRefs, NVal.refs] at hv
    subst hv
    exact b1 kv hkv
  · rcases List.mem_map.mp h with ⟨kv, hkv, rfl⟩
    simp [nodeRefs, NVal.refs] at hv
    subst hv
    exact b2 kv hkv
  · rcases List.mem_map.mp h with ⟨kv, hkv, rfl⟩
    simp [nodeRefs, NVal.refs] at hv
    subst hv
    exact b3 kv hkv
  · rcases List.mem_map.mp h with ⟨kv, hkv, rfl⟩
    simp [nodeRefs, NVal.refs] at hv
    subst hv
    exact b4 kv hkv
  · rcases List.mem_map.mp h with ⟨kv, hkv, rfl⟩
    simp [nodeRefs, NVal.refs] at hv
    subst hv
    exact b5 kv hkv
  · rcases List.mem_map.mp h with ⟨kv, hkv, rfl⟩
    rw [court_node_refs kv.2] at hv
    simp only [List.mem_singleton] at hv
    subst hv
    exact b6 kv hkv

/-! ### Node types and names -/

theorem nodeHasStrVal_cons_uid (k x : String) (n : Node) (q v : String) :
    nodeHasStrVal ((k, NVal.uid x) :: n) q v = nodeHasStrVal n q v := by
  simp [nodeHasStrVal]

theorem nodeHasStrVal_cons_str (k x : String) (n : Node) (q v : String) :
    nodeHasStrVal ((k, NVal.str x) :: n) q v =
      ((k == q && x == v) || nodeHasStrVal n q v) := by
  simp [nodeHasStrVal]

theorem nodeHasStrVal_edgeField (k : String) (vs : Option (List String))
    (q v : String) :
    nodeHasStrVal (JudgmentRelation.edgeField k vs) q v = false := by
  cases vs with
  | none => simp [JudgmentRelation.edgeField, nodeHasStrVal]
  | some l =>
    cases l <;> simp [JudgmentRelation.edgeField, nodeHasStrVal]

theorem nodeHasStrVal_refField (k : String) (ov : Option String)
    (q v : String) :
    nodeHasStrVal (JudgmentRelation.refField k ov) q v = false := by
  cases ov with
  | none => simp [JudgmentRelation.refField, nodeHasStrVal]
  | some t =>
    by_cases ht : t = "" <;>
      simp [JudgmentRelation.refField, nodeHasStrVal, ht]

theorem nodeHasStrVal_yearField (y : JVal) (q v : String) :
    nodeHasStrVal (JudgmentRelation.yearField y) q v = false := by
  cases y <;> simp [JudgmentRelation.yearField, nodeHasStrVal]

theorem nodeHasStrVal_tsField (ts : JVal) (q v : String) :
    nodeHasStrVal (JudgmentRelation.tsField ts) q v = false := by
  by_cases h : ts.truthy = true <;>
    simp [JudgmentRelation.tsField, nodeHasStrVal, h]

/-- The `dgraph.type` of a document's judgment node is `Judgment`. -/
theorem docNode_type (ex : DocExtract) (st : BState) (hWF : WFState st)
    (ty : String) :
    nodeHasStrVal (docNode ex st) ("dgraph.type") ty = ("Judgment" == ty) := by
  rw [docNode_eq ex st hWF]
  simp [JudgmentRelation.build_judgment_node, nodeHasStrVal_append,
    nodeHasStrVal_cons_uid, nodeHasStrVal_cons_str, nodeHasStrVal_edgeField,
    nodeHasStrVal_refField, nodeHasStrVal_yearField, nodeHasStrVal_tsField]

theorem citation_nodes_type {c : List (String × String)} {node : Node}
    (h : node ∈ CitationRelation.build_citation_nodes c) (ty : String) :
    nodeHasStrVal node ("dgraph.type") ty = ("Judgment" == ty) := by
  rcases List.mem_map.mp h with ⟨kv, _, rfl⟩
  simp [nodeHasStrVal_cons_uid, nodeHasStrVal_cons_str, nodeHasStrVal]

theorem judge_nodes_type {c : List (String × String)} {node : Node}
    (h : node ∈ JudgeRelation.build_judge_nodes c) (ty : String) :
    nodeHasStrVal node ("dgraph.type") ty = ("Judge" == ty) := by
  rcases List.mem_map.mp h with ⟨kv, _, rfl⟩
  simp [nodeHasStrVal_cons_uid, nodeHasStrVal_cons_str, nodeHasStrVal]

theorem advocate_nodes_type {c : List (String × String)} {node : Node}
    (h : node ∈ AdvocateRelation.build_advocate_nodes c) (ty : String) :
    nodeHasStrVal node ("dgraph.type") ty = ("Advocate" == ty) := by
  rcases List.mem_map.mp h with ⟨kv, _, rfl⟩
  simp [nodeHasStrVal_cons_uid, nodeHasStrVal_cons_str, nodeHasStrVal]

theorem outcome_nodes_type {c : List (String × String)} {node : Node}
    (h : node ∈ OutcomeRelation.build_outcome_nodes c) (ty : String) :
    nodeHasStrVal node ("dgraph.type") ty = ("Outcome" == ty) := by
  rcases List.mem_map.mp h with ⟨kv, _, rfl⟩
  simp [nodeHasStrVal_cons_uid, nodeHasStrVal_cons_str, nodeHasStrVal]

theorem duration_nodes_type {c : List (String × String)} {node : Node}
    (h : node ∈ CaseDurationRelation.build_case_duration_nodes c)
    (ty : String) :
    nodeHasStrVal node ("dgraph.type") ty = ("CaseDuration" == ty) := by
  rcases List.mem_map.mp h with ⟨kv, _, rfl⟩
  simp [nodeHasStrVal_cons_uid, nodeHasStrVal_cons_str, nodeHasStrVal]

theorem court_nodes_type {c : List (String × CourtData)} {node : Node}
    (h : node ∈ CourtRelation.build_court_nodes c) (ty : String) :
    nodeHasStrVal node ("dgraph.type") ty = ("Court" == ty) := by
  rcases List.mem_map.mp h with ⟨kv, _, rfl⟩
  rcases hloc : kv.2.location with _ | loc <;>
    rcases hbt : kv.2.bench_type with _ | bt
  · simp [nodeHasStrVal, hloc, hbt]
  · by_cases h2 : bt = "" <;> simp [nodeHasStrVal, hloc, hbt, h2]
  · by_cases h2 : loc = "" <;> simp [nodeHasStrVal, hloc, hbt, h2]
  · by_cases h2 : loc = "" <;> by_cases h3 : bt = "" <;>
      simp [nodeHasStrVal, hloc, hbt, h2, h3]

/-- A judge node's `name` is its cache key. -/
theorem judge_node_name (kv : String × String) (w : String) :
    isTypedNodeNamed ("Judge") w
      [("uid", NVal.uid ("judge_" ++ kv.2)),
       ("judge_id", NVal.str ("judge_" ++ kv.2)),
       ("name", NVal.str kv.1),
       ("dgraph.type", NVal.str ("Judge"))] = (kv.1 == w) := by
  simp [isTypedNodeNamed, nodeHasStrVal]

theorem foldDocs_nodes_length (exs : List DocExtract) (st : BState) :
    (foldDocs exs st).2.1.length = exs.length := by
  induction exs generalizing st with
  | nil => rfl
  | cons ex rest ih =>
    rcases hf : foldDocs rest (stepState ex st) with ⟨p2, n2, st2⟩
    have := ih (stepState ex st)
    rw [hf] at this
    simp only [foldDocs, hf, List.length_cons]
    simpa using this

theorem extractDocs_length {docs : List ESDoc} {idx : Nat}
    {exs : List DocExtract} (h : extractDocs docs idx = .ok exs) :
    exs.length = docs.length := by
  induction docs generalizing idx exs with
  | nil =>
    simp only [extractDocs, Except.ok.injEq] at h
    subst h
    rfl
  | cons doc rest ih =>
    simp only [extractDocs, bind, Except.bind] at h
    cases h1 : extractDoc doc idx with
    | error e => rw [h1] at h; simp at h
    | ok ex =>
      rw [h1] at h
      cases h2 : extractDocs rest (idx + 1) with
      | error e => rw [h2] at h; simp [pure, Except.pure] at h
      | ok exs2 =>
        rw [h2] at h
        simp only [pure, Except.pure, Except.ok.injEq] at h
        subst h
        simp [ih h2]

/-- Every root node in the fold has type `Judgment`. -/
theorem foldDocs_nodes_type (exs : List DocExtract) (st : BState)
    (hWF : WFState st) :
    ∀ node ∈ (foldDocs exs st).2.1, ∀ ty,
      nodeHasStrVal node ("dgraph.type") ty = ("Judgment" == ty) := by
  induction exs generalizing st with
  | nil => simp [foldDocs]
  | cons ex rest ih =>
    rcases hf : foldDocs rest (stepState ex st) with ⟨p2, n2, st2⟩
    intro node hnode ty
    simp only [foldDocs, hf] at hnode
    rcases List.mem_cons.mp hnode with rfl | hnode
    · exact docNode_type ex st hWF ty
    · have := ih (stepState ex st) (stepState_spec ex st hWF).1
      rw [hf] at this
      exact this node hnode ty

theorem contains_iff_memS {l : List String} {a : String} :
    l.contains a = true ↔ a ∈ l := by
  simp [List.contains, List.elem_iff]

/-- The `judged_by` edges of the `i`-th root node. -/
theorem foldDocs_get_judged (exs : List DocExtract) (st : BState)
    (hWF : WFState st) (i : Nat) (hi : i < exs.length) (w : String)
    (hw : w ∈ (exs.get ⟨i, hi⟩).judges) :
    hasEdgeTo ((foldDocs exs st).2.1.getD i []) ("judged_by")
      ("judge_" ++ get_hash w) = true := by
  induction exs generalizing st i with
  | nil => simp at hi
  | cons ex rest ih =>
    rcases hf : foldDocs rest (stepState ex st) with ⟨p2, n2, st2⟩
    cases i with
    | zero =>
      simp only [foldDocs, hf, List.getD_cons_zero]
      rw [(docNode_edgeSpec ex st hWF ("judge_" ++ get_hash w)).2.1]
      refine contains_iff_memS.mpr (List.mem_map.mpr ⟨w, ?_, rfl⟩)
      simpa using hw
    | succ i2 =>
      simp only [foldDocs, hf, List.getD_cons_succ]
      have hi2 : i2 < rest.length := Nat.lt_of_succ_lt_succ (by simpa using hi)
      have hw2 : w ∈ (rest.get ⟨i2, hi2⟩).judges := by simpa using hw
      have := ih (stepState ex st) (stepState_spec ex st hWF).1 i2 hi2 hw2
      rw [hf] at this
      exact this

theorem countP_beq_of_nodup {l : List String} (hn : l.Nodup) {w : String}
    (hw : w ∈ l) : l.countP (fun k => k == w) = 1 := by
  induction l with
  | nil => simp at hw
  | cons x rest ih =>
    rw [List.countP_cons]
    rcases List.mem_cons.mp hw with rfl | hw2
    · have hx : w ∉ rest := (List.nodup_cons.mp hn).1
      have hz : rest.countP (fun k => k == w) = 0 :=
        List.countP_eq_zero.mpr (fun a ha hbeq => by
          rw [beq_iff_eq] at hbeq
          exact hx (hbeq ▸ ha))
      simp [hz]
    · have hx : x ≠ w := by
        rintro rfl
        exact (List.nodup_cons.mp hn).1 hw2
      have hb : (x == w) = false := beq_eq_false_iff_ne.mpr hx
      rw [ih (List.nodup_cons.mp hn).2 hw2]
      simp [hb]

theorem mem_judgeStream {exs : List DocExtract} {i : Nat}
    (hi : i < exs.length) {w : String}
    (hw : w ∈ (exs.get ⟨i, hi⟩).judges) : w ∈ judgeStream exs := by
  refine List.mem_flatten.mpr ⟨(exs.get ⟨i, hi⟩).judges, ?_, hw⟩
  exact List.mem_map.mpr ⟨exs.get ⟨i, hi⟩, List.get_mem exs i hi, rfl⟩

/-! ### Characterization of the builder pipeline by pure folds -/

theorem processDoc_eq (doc : ESDoc) (idx : Nat) (st : BState) :
    MutationBuilder.processDoc doc idx st =
      match extractDoc doc idx with
      | .error e => .error e
      | .ok ex => .ok (docParts ex st, docNode ex st, stepState ex st) := by
  unfold MutationBuilder.processDoc extractDoc
  cases h1 : JudgmentRelation.extract_judgment_data doc idx with
  | error e => simp [bind, Except.bind]
  | ok jd =>
  simp only [bind, Except.bind]
  cases h2 : CitationRelation.extract_citations doc.source with
  | error e => simp
  | ok cits =>
  simp only []
  cases h3 : JudgeRelation.extract_judges doc.source with
  | error e => simp
  | ok judges =>
  simp only []
  cases h4 : AdvocateRelation.extract_advocates doc.source with
  | error e => simp
  | ok pr =>
  obtain ⟨pets, resps⟩ := pr
  simp only []
  cases h5 : OutcomeRelation.extract_outcome doc.source with
  | error e => simp
  | ok outc =>
  simp only []
  cases h6 : CaseDurationRelation.extract_case_duration doc.source with
  | error e => simp
  | ok dur =>
  simp only []
  cases h7 : CourtRelation.extract_court doc.source with
  | error e => simp
  | ok cnlb =>
  obtain ⟨cn, cl, cb⟩ := cnlb
  rcases hc1 : CitationRelation.build_query_parts cits st.citations
    with ⟨cq, cv, cc⟩
  rcases hc2 : JudgeRelation.build_query_parts judges st.judges
    with ⟨jq, jv, jc⟩
  rcases hc3 : AdvocateRelation.build_query_parts pets resps st.advocates
    with ⟨aq, pav, rav, ac⟩
  rcases hc4 : OutcomeRelation.build_query_parts outc st.outcomes
    with ⟨oq, ov, oc⟩
  rcases hc5 : CaseDurationRelation.build_query_parts dur st.durations
    with ⟨dq, dv, dc⟩
  rcases hc6 : CourtRelation.build_query_parts cn cl cb st.courts
    with ⟨ctq, ctv, ctc⟩
  simp [pure, Except.pure, docParts, docNode, stepState,
    hc1, hc2, hc3, hc4, hc5, hc6]

theorem processDocs_eq (docs : List ESDoc) (idx : Nat) (st : BState) :
    MutationBuilder.processDocs docs idx st =
      match extractDocs docs idx with
      | .error e => .error e
      | .ok exs => .ok (foldDocs exs st) := by
  induction docs generalizing idx st with
  | nil => rfl
  | cons doc rest ih =>
    unfold MutationBuilder.processDocs extractDocs
    rw [processDoc_eq]
    cases h1 : extractDoc doc idx with
    | error e => simp [bind, Except.bind]
    | ok ex =>
      simp only [bind, Except.bind]
      rw [ih]
      cases h2 : extractDocs rest (idx + 1) with
      | error e => simp
      | ok exs =>
        rcases hf : foldDocs exs (stepState ex st) with ⟨p2, n2, st2⟩
        simp [pure, Except.pure, foldDocs, hf]

theorem build_mutation_eq (docs : List ESDoc) :
    MutationBuilder.build_mutation docs =
      match extractDocs docs 1 with
      | .error e => .error e
      | .ok exs =>
        .ok { query := wrapQuery (foldDocs exs BState.empty).1,
              set := (foldDocs exs BState.empty).2.1 ++
                MutationBuilder.entityNodes (foldDocs exs BState.empty).2.2 } := by
  unfold MutationBuilder.build_mutation MutationBuilder.buildFrom
  simp only [show BState.empty.reset = BState.empty from rfl]
  rw [processDocs_eq]
  cases h : extractDocs docs 1 with
  | error e => simp [bind, Except.bind]
  | ok exs =>
    rcases hf : foldDocs exs BState.empty with ⟨parts, nodes, st⟩
    simp [bind, Except.bind, pure, Except.pure, hf, wrapQuery]

/-! ### String lemmas for the advocate key scheme -/

theorem append_ne_self (a s : String) (hs : s.data ≠ []) : a ≠ a ++ s := by
  intro heq
  have hd : a.data = a.data ++ s.data := by
    conv =>
      lhs
      rw [heq]
    rw [String.data_append]
  have : a.data.length = a.data.length + s.data.length := by
    conv =>
      lhs
      rw [hd]
    rw [List.length_append]
  have hlen : s.data.length = 0 := by omega
  exact hs (List.length_eq_zero.mp hlen)

theorem isPrefixOf_underscore_false {c : Char} (hc : c ≠ '_')
    (ps xs : List Char) :
    List.isPrefixOf ('_' :: ps) (c :: xs) = false := by
  have : ('_' == c) = false := beq_eq_false_iff_ne.mpr (fun h => hc h.symm)
  simp [List.isPrefixOf, this]

theorem strContainsAux_underscore_false {nd : List Char} (h : '_' ∉ nd)
    (ps : List Char) : strContainsAux ('_' :: ps) nd = false := by
  induction nd with
  | nil => simp [strContainsAux, List.isPrefixOf]
  | cons c rest ih =>
    have hc : c ≠ '_' := fun hcc => h (by simp [hcc])
    simp only [strContainsAux, isPrefixOf_underscore_false hc,
      Bool.false_or]
    exact ih (fun hm => h (List.mem_cons_of_mem _ hm))

theorem pyContains_respondant_false {n : String} (h : '_' ∉ n.data) :
    pyContains n ("_respondant") = false := by
  simp only [pyContains]
  exact strContainsAux_underscore_false h _

theorem isPrefixOf_self (l : List Char) : List.isPrefixOf l l = true := by
  induction l with
  | nil => rfl
  | cons c rest ih => simp [List.isPrefixOf, ih]

theorem strContainsAux_append_self (a b : List Char) :
    strContainsAux b (a ++ b) = true := by
  induction a with
  | nil =>
    cases b with
    | nil => simp [strContainsAux, List.isPrefixOf]
    | cons c rest =>
      simp [strContainsAux, isPrefixOf_self]
  | cons c rest ih =>
    simp [strContainsAux, ih]

theorem pyContains_append_self (a b : String) :
    pyContains (a ++ b) b = true := by
  simp only [pyContains, String.data_append]
  exact strContainsAux_append_self a.data b.data

theorem replaceAux_nil (oldP newP : List Char) (fuel : Nat) :
    pyReplaceAux oldP newP fuel [] = [] := by
  cases fuel <;> rfl

theorem replaceAux_skip (pa ps newP : List Char) (nd : List Char)
    (hpa : pa = '_' :: ps) (h : '_' ∉ nd) :
    ∀ fuel rest, nd.length + 1 ≤ fuel →
      pyReplaceAux pa newP fuel (nd ++ rest) =
        nd ++ pyReplaceAux pa newP (fuel - nd.length) rest := by
  subst hpa
  induction nd with
  | nil =>
    intro fuel rest hf
    simp
  | cons c tail ih =>
    intro fuel rest hf
    have hc : c ≠ '_' := fun hcc => h (by simp [hcc])
    cases fuel with
    | zero => omega
    | succ f =>
      simp only [List.cons_append, pyReplaceAux,
        isPrefixOf_underscore_false hc, if_false, Bool.false_eq_true]
      simp only [List.append_eq]
      rw [ih (fun hm => h (List.mem_cons_of_mem _ hm)) f rest (by
        simp at hf
        omega)]
      rw [show f + 1 - (c :: tail).length = f - tail.length from by simp]

theorem pyReplace_no_underscore {n : String} (h : '_' ∉ n.data) :
    pyReplace n ("_respondant") ("") = n := by
  simp only [pyReplace]
  rw [if_neg (by decide)]
  have h2 : pyReplaceAux (("_respondant" : String).data)
      (("" : String).data) (n.data.length + 1) n.data = n.data := by
    have h3 : n.data = n.data ++ [] := by simp
    conv =>
      lhs
      rw [h3]
    rw [replaceAux_skip _ (("respondant" : String).data) _ _ rfl h _ _
      (by simp)]
    rw [replaceAux_nil]
    simp
  rw [h2]

theorem pyReplace_strip_respondant {n : String} (h : '_' ∉ n.data) :
    pyReplace (n ++ "_respondant") ("_respondant") ("") = n := by
  simp only [pyReplace]
  rw [if_neg (by decide)]
  have h2 : pyReplaceAux (("_respondant" : String).data) (("" : String).data)
      ((n ++ "_respondant").data.length + 1) ((n ++ "_respondant").data) =
      n.data := by
    rw [String.data_append]
    rw [replaceAux_skip _ (("respondant" : String).data) _ _ rfl h _ _
      (by simp [List.length_append])]
    rw [show (n.data ++ ("_respondant" : String).data).length + 1 -
        n.data.length = 12 from by
      simp [List.length_append]
      omega]
    rw [show pyReplaceAux (("_respondant" : String).data)
        (("" : String).data) 12 (("_respondant" : String).data) = []
      from by decide]
    simp
  rw [h2]

theorem newXs_mem_sub {have0 xs : List String} {k : String → String}
    {y : String} (h : y ∈ newXs have0 k xs) : y ∈ xs := by
  induction xs generalizing have0 with
  | nil => simp [newXs] at h
  | cons x rest ih =>
    simp only [newXs] at h
    by_cases hc : k x ∈ have0
    · rw [if_pos hc] at h
      exact List.mem_cons_of_mem _ (ih h)
    · rw [if_neg hc] at h
      rcases List.mem_cons.mp h with rfl | h
      · exact List.mem_cons_self _ _
      · exact List.mem_cons_of_mem _ (ih h)

theorem mem_optKeys {o : Option String} {t : String} (h : t ∈ optKeys o) :
    o = some t := by
  cases o with
  | none => simp [optKeys] at h
  | some x =>
    by_cases hx : x = ""
    · simp [optKeys, hx] at h
    · simp only [optKeys, hx, if_false, if_neg, List.mem_singleton] at h
      rw [h]

/-! ### The detector's label list as a concatenation of guarded singletons -/

theorem chain_append (X : List String) (b : Bool) (l : String) :
    (if b then X ++ [l] else X) = X ++ (if b then [l] else []) := by
  cases b <;> simp

theorem if_cond_true {α : Type} (a b : α) :
    (if true = true then a else b) = a := rfl

theorem if_cond_false {α : Type} (a b : α) :
    (if false = true then a else b) = b := rfl

theorem mem_if_singleton {x y : String} {b : Bool} :
    (x ∈ if b then [y] else []) ↔ (b = true ∧ x = y) := by
  cases b <;> simp

/-- `detect_entities_in_document`, written as one concatenation: given the
results of the four fallible `len`-guarded checks, the label list is the
in-order concatenation of one guarded singleton per entity type. -/
theorem detect_entities_eq (doc : ESDoc) (c j pa ra ac : Bool)
    (hc : truthyLen (srcGet doc.source ("citations") (JVal.l [])) = .ok c)
    (hj : truthyLen (srcGet doc.source ("judges") (JVal.l [])) = .ok j)
    (hpa : truthyLen (srcGet doc.source ("petitioner_advocates")
      (JVal.l [])) = .ok pa)
    (hra : truthyLen (srcGet doc.source ("respondant_advocates")
      (JVal.l [])) = .ok ra)
    (hac : truthyLen (srcGet doc.source ("acts") (JVal.l [])) = .ok ac) :
    detect_entities_in_document doc = .ok
      ((if (srcGet doc.source ("title") JVal.null).truthy
          then [("judgment" : String)] else []) ++
       (if c then [("citations" : String)] else []) ++
       (if j then [("judges" : String)] else []) ++
       (if pa || ra then [("advocates" : String)] else []) ++
       (if (srcGet doc.source ("outcome") JVal.null).truthy
          then [("outcome" : String)] else []) ++
       (if (srcGet doc.source ("case_duration") JVal.null).truthy
          then [("case_duration" : String)] else []) ++
       (if (srcGet doc.source ("court") JVal.null).truthy
          then [("court" : String)] else []) ++
       (if (srcGet doc.source ("decision_date") JVal.null).truthy
          then [("decision_date" : String)] else []) ++
       (if (srcGet doc.source ("filing_date") JVal.null).truthy
          then [("filing_date" : String)] else []) ++
       (if (srcGet doc.source ("petitioner_party") JVal.null).truthy
          then [("petitioner_party" : String)] else []) ++
       (if (srcGet doc.source ("respondant_party") JVal.null).truthy
          then [("respondant_party" : String)] else []) ++
       (if (srcGet doc.source ("case_number") JVal.null).truthy
          then [("case_number" : String)] else []) ++
       (if (srcGet doc.source ("summary") JVal.null).truthy
          then [("summary" : String)] else []) ++
       (if (srcGet doc.source ("case_type") JVal.null).truthy
          then [("case_type" : String)] else []) ++
       (if (srcGet doc.source ("neutral_citation") JVal.null).truthy
          then [("neutral_citation" : String)] else []) ++
       (if ac then [("acts" : String)] else [])) := by
  cases pa with
  | true =>
    simp only [detect_entities_in_document, hc, hj, hpa, hac, bind,
      Except.bind, pure, Except.pure, if_cond_true, eq_self_iff_true,
      if_true, Bool.true_or]
    simp only [chain_append]
    simp only [List.nil_append, List.append_assoc]
  | false =>
    simp only [detect_entities_in_document, hc, hj, hpa, hra, hac, bind,
      Except.bind, pure, Except.pure, if_cond_false, eq_self_iff_true,
      if_true, Bool.false_eq_true, if_false, Bool.false_or]
    simp only [chain_append]
    simp only [List.nil_append, List.append_assoc]

/-! ## Claim theorems -/

/-- **C10**: In every mutation produced by `build_mutation`, every edge
reference `uid(<var>)` appearing in any node of the set list (including
each node's own `uid`) targets a lookup variable `<var>` that is bound by a
corresponding clause `<var> as var(...)` among the query parts whose join
is the query block — an edge referencing an unbound variable never occurs
in assembled output. -/
theorem build_mutation_refs_bound (docs : List ESDoc) (m : Mutation)
    (h : MutationBuilder.build_mutation docs = .ok m) :
    ∃ exs, extractDocs docs 1 = .ok exs ∧
      m.query = wrapQuery (foldDocs exs BState.empty).1 ∧
      m.set = (foldDocs exs BState.empty).2.1 ++
        MutationBuilder.entityNodes (foldDocs exs BState.empty).2.2 ∧
      ∀ node ∈ m.set, ∀ v ∈ nodeRefs node,
        ∃ c ∈ (foldDocs exs BState.empty).1, bindsVar c v := by
  rw [build_mutation_eq] at h
  cases hex : extractDocs docs 1 with
  | error e =>
    rw [hex] at h
    simp at h
  | ok exs =>
    rw [hex] at h
    simp only [Except.ok.injEq] at h
    subst h
    obtain ⟨hBfin, hNodes⟩ :=
      foldDocs_bound exs BState.empty [] WFState_empty (stateBound_empty [])
    rw [List.nil_append] at hBfin hNodes
    refine ⟨exs, rfl, rfl, rfl, ?_⟩
    intro node hnode v hv
    rcases List.mem_append.mp hnode with hn | hn
    · exact hNodes node hn v hv
    · exact entityNodes_bound _ _ hBfin node hn v hv

/-- **C2**: For a fixed input batch, building from any two pre-existing
handler states (the handlers are reset to fresh caches at the start of
every `build_mutation` call) produces identical output: the same query
string and the same node list, element for element; and both agree with
`build_mutation`. -/
theorem build_mutation_deterministic (st0 st1 : BState) (docs : List ESDoc)
    (m0 m1 : Mutation)
    (h0 : MutationBuilder.buildFrom st0 docs = .ok m0)
    (h1 : MutationBuilder.buildFrom st1 docs = .ok m1) :
    m0.query = m1.query ∧ m0.set = m1.set ∧
    MutationBuilder.buildFrom st0 docs = MutationBuilder.build_mutation docs := by
  have he : MutationBuilder.buildFrom st0 docs =
      MutationBuilder.buildFrom st1 docs := rfl
  rw [h0, h1] at he
  simp only [Except.ok.injEq] at he
  subst he
  exact ⟨rfl, rfl, rfl⟩

/-- **C1**: The mutation produced by `build_mutation` describes exactly one
sub-entity node per unique identity key (every handler cache maps distinct
keys to nodes, witnessed by `WFState`, whose key lists are duplicate-free),
and every document referencing the same identity key references the same
lookup variable; in particular, if the `i`-th and `j`-th documents share a
judge name `w`, the node list contains exactly one Judge node named `w` and
both Judgment nodes' `judged_by` edges contain the same
`uid(judge_<hash>)` reference. -/
theorem build_mutation_judge_dedup (docs : List ESDoc) (m : Mutation)
    (exs : List DocExtract)
    (h : MutationBuilder.build_mutation docs = .ok m)
    (hex : extractDocs docs 1 = .ok exs)
    (i j : Nat) (hi : i < exs.length) (hj : j < exs.length) (w : String)
    (hwi : w ∈ (exs.get ⟨i, hi⟩).judges)
    (hwj : w ∈ (exs.get ⟨j, hj⟩).judges) :
    WFState (foldDocs exs BState.empty).2.2 ∧
    m.set.countP (isTypedNodeNamed ("Judge") w) = 1 ∧
    hasEdgeTo (m.set.getD i []) ("judged_by")
      ("judge_" ++ get_hash w) = true ∧
    hasEdgeTo (m.set.getD j []) ("judged_by")
      ("judge_" ++ get_hash w) = true := by
  rw [build_mutation_eq, hex] at h
  simp only [Except.ok.injEq] at h
  subst h
  obtain ⟨hWFf, kc, kj, ka, ko, kd, kct⟩ :=
    foldState_spec exs BState.empty WFState_empty
  have hkeys : (foldDocs exs BState.empty).2.2.judges.map Prod.fst =
      firstSeen [] (judgeStream exs) := by
    simpa [BState.empty] using kj
  have hwkeys : w ∈ (foldDocs exs BState.empty).2.2.judges.map Prod.fst := by
    rw [hkeys]
    rcases @mem_firstSeen_of_mem ([]) _ _ (mem_judgeStream hi hwi)
      with hc | hc
    · simp at hc
    · exact hc
  have hnodup : ((foldDocs exs BState.empty).2.2.judges.map Prod.fst).Nodup :=
    hWFf.2.1.2
  refine ⟨hWFf, ?_, ?_, ?_⟩
  · -- exactly one Judge node named w
    rw [List.countP_append]
    have hroots : ((foldDocs exs BState.empty).2.1).countP
        (isTypedNodeNamed ("Judge") w) = 0 := by
      apply List.countP_eq_zero.mpr
      intro node hn hcl
      have := foldDocs_nodes_type exs BState.empty WFState_empty node hn
        ("Judge")
      simp only [isTypedNodeNamed, Bool.and_eq_true] at hcl
      rw [this] at hcl
      simp at hcl
    rw [hroots, Nat.zero_add]
    simp only [MutationBuilder.entityNodes, List.countP_append]
    have z1 : (CitationRelation.build_citation_nodes
        (foldDocs exs BState.empty).2.2.citations).countP
        (isTypedNodeNamed ("Judge") w) = 0 := by
      apply List.countP_eq_zero.mpr
      intro node hn hcl
      simp only [isTypedNodeNamed, Bool.and_eq_true] at hcl
      rw [citation_nodes_type hn] at hcl
      simp at hcl
    have z3 : (AdvocateRelation.build_advocate_nodes
        (foldDocs exs BState.empty).2.2.advocates).countP
        (isTypedNodeNamed ("Judge") w) = 0 := by
      apply List.countP_eq_zero.mpr
      intro node hn hcl
      simp only [isTypedNodeNamed, Bool.and_eq_true] at hcl
      rw [advocate_nodes_type hn] at hcl
      simp at hcl
    have z4 : (OutcomeRelation.build_outcome_nodes
        (foldDocs exs BState.empty).2.2.outcomes).countP
        (isTypedNodeNamed ("Judge") w) = 0 := by
      apply List.countP_eq_zero.mpr
      intro node hn hcl
      simp only [isTypedNodeNamed, Bool.and_eq_true] at hcl
      rw [outcome_nodes_type hn] at hcl
      simp at hcl
    have z5 : (CaseDurationRelation.build_case_duration_nodes
        (foldDocs exs BState.empty).2.2.durations).countP
        (isTypedNodeNamed ("Judge") w) = 0 := by
      apply List.countP_eq_zero.mpr
      intro node hn hcl
      simp only [isTypedNodeNamed, Bool.and_eq_true] at hcl
      rw [duration_nodes_type hn] at hcl
      simp at hcl
    have z6 : (CourtRelation.build_court_nodes
        (foldDocs exs BState.empty).2.2.courts).countP
        (isTypedNodeNamed ("Judge") w) = 0 := by
      apply List.countP_eq_zero.mpr
      intro node hn hcl
      simp only [isTypedNodeNamed, Bool.and_eq_true] at hcl
      rw [court_nodes_type hn] at hcl
      simp at hcl
    have z2 : (JudgeRelation.build_judge_nodes
        (foldDocs exs BState.empty).2.2.judges).countP
        (isTypedNodeNamed ("Judge") w) = 1 := by
      unfold JudgeRelation.build_judge_nodes
      rw [List.countP_map]
      have heq : ∀ kv : String × String,
          (isTypedNodeNamed ("Judge") w ∘ fun kv =>
            [("uid", NVal.uid ("judge_" ++ kv.2)),
             ("judge_id", NVal.str ("judge_" ++ kv.2)),
             ("name", NVal.str kv.1),
             ("dgraph.type", NVal.str ("Judge"))]) kv = (kv.1 == w) :=
        fun kv => judge_node_name kv w
      rw [List.countP_congr (fun kv _ => by rw [heq kv])]
      have := countP_beq_of_nodup hnodup hwkeys
      rw [List.countP_map] at this
      exact this
    rw [z1, z2, z3, z4, z5, z6]
  · have hlen : i < ((foldDocs exs BState.empty).2.1).length := by
      rw [foldDocs_nodes_length]
      exact hi
    rw [List.getD_append _ _ _ _ hlen]
    exact foldDocs_get_judged exs BState.empty WFState_empty i hi w hwi
  · have hlen : j < ((foldDocs exs BState.empty).2.1).length := by
      rw [foldDocs_nodes_length]
      exact hj
    rw [List.getD_append _ _ _ _ hlen]
    exact foldDocs_get_judged exs BState.empty WFState_empty j hj w hwj

/-- **C9**: The assembled node list is one Judgment root per input document
in input order, followed by the sub-entity node groups in the fixed order
citations, judges, advocates, outcomes, case durations, courts, with no
interleaving; within each group the nodes are one per unique identity key
in batch-wide first-seen order, and the query block is the join of the
clauses in emission (first-seen) order. -/
theorem build_mutation_set_order (docs : List ESDoc) (m : Mutation)
    (h : MutationBuilder.build_mutation docs = .ok m) :
    ∃ exs, extractDocs docs 1 = .ok exs ∧
      exs.length = docs.length ∧
      (foldDocs exs BState.empty).2.1.length = docs.length ∧
      m.set = (foldDocs exs BState.empty).2.1 ++
        (CitationRelation.build_citation_nodes
            (foldDocs exs BState.empty).2.2.citations ++
          (JudgeRelation.build_judge_nodes
              (foldDocs exs BState.empty).2.2.judges ++
            (AdvocateRelation.build_advocate_nodes
                (foldDocs exs BState.empty).2.2.advocates ++
              (OutcomeRelation.build_outcome_nodes
                  (foldDocs exs BState.empty).2.2.outcomes ++
                (CaseDurationRelation.build_case_duration_nodes
                    (foldDocs exs BState.empty).2.2.durations ++
                  CourtRelation.build_court_nodes
                    (foldDocs exs BState.empty).2.2.courts))))) ∧
      (∀ node ∈ (foldDocs exs BState.empty).2.1, ∀ ty,
        nodeHasStrVal node ("dgraph.type") ty = ("Judgment" == ty)) ∧
      (∀ node ∈ CitationRelation.build_citation_nodes
          (foldDocs exs BState.empty).2.2.citations, ∀ ty,
        nodeHasStrVal node ("dgraph.type") ty = ("Judgment" == ty)) ∧
      (∀ node ∈ JudgeRelation.build_judge_nodes
          (foldDocs exs BState.empty).2.2.judges, ∀ ty,
        nodeHasStrVal node ("dgraph.type") ty = ("Judge" == ty)) ∧
      (∀ node ∈ AdvocateRelation.build_advocate_nodes
          (foldDocs exs BState.empty).2.2.advocates, ∀ ty,
        nodeHasStrVal node ("dgraph.type") ty = ("Advocate" == ty)) ∧
      (∀ node ∈ OutcomeRelation.build_outcome_nodes
          (foldDocs exs BState.empty).2.2.outcomes, ∀ ty,
        nodeHasStrVal node ("dgraph.type") ty = ("Outcome" == ty)) ∧
      (∀ node ∈ CaseDurationRelation.build_case_duration_nodes
          (foldDocs exs BState.empty).2.2.durations, ∀ ty,
        nodeHasStrVal node ("dgraph.type") ty = ("CaseDuration" == ty)) ∧
      (∀ node ∈ CourtRelation.build_court_nodes
          (foldDocs exs BState.empty).2.2.courts, ∀ ty,
        nodeHasStrVal node ("dgraph.type") ty = ("Court" == ty)) ∧
      WFState (foldDocs exs BState.empty).2.2 ∧
      (foldDocs exs BState.empty).2.2.citations.map Prod.fst =
        firstSeen [] (citStream exs) ∧
      (foldDocs exs BState.empty).2.2.judges.map Prod.fst =
        firstSeen [] (judgeStream exs) ∧
      (foldDocs exs BState.empty).2.2.advocates.map Prod.fst =
        firstSeen [] (advStream exs) ∧
      (foldDocs exs BState.empty).2.2.outcomes.map Prod.fst =
        firstSeen [] (outcStream exs) ∧
      (foldDocs exs BState.empty).2.2.durations.map Prod.fst =
        firstSeen [] (durStream exs) ∧
      (foldDocs exs BState.empty).2.2.courts.map Prod.fst =
        firstSeen [] (courtStream exs) ∧
      m.query = wrapQuery (foldDocs exs BState.empty).1 := by
  rw [build_mutation_eq] at h
  cases hex : extractDocs docs 1 with
  | error e =>
    rw [hex] at h
    simp at h
  | ok exs =>
    rw [hex] at h
    simp only [Except.ok.injEq] at h
    subst h
    obtain ⟨hWFf, kc, kj, ka, ko, kd, kct⟩ :=
      foldState_spec exs BState.empty WFState_empty
    refine ⟨exs, rfl, extractDocs_length hex, ?_, ?_, ?_, ?_, ?_, ?_, ?_,
      ?_, ?_, hWFf, ?_, ?_, ?_, ?_, ?_, ?_, rfl⟩
    · rw [foldDocs_nodes_length]
      exact extractDocs_length hex
    · simp [MutationBuilder.entityNodes, List.append_assoc]
    · exact foldDocs_nodes_type exs BState.empty WFState_empty
    · intro node hn ty
      exact citation_nodes_type hn ty
    · intro node hn ty
      exact judge_nodes_type hn ty
    · intro node hn ty
      exact advocate_nodes_type hn ty
    · intro node hn ty
      exact outcome_nodes_type hn ty
    · intro node hn ty
      exact duration_nodes_type hn ty
    · intro node hn ty
      exact court_nodes_type hn ty
    · simpa [BState.empty] using kc
    · simpa [BState.empty] using kj
    · simpa [BState.empty] using ka
    · simpa [BState.empty] using ko
    · simpa [BState.empty] using kd
    · simpa [BState.empty] using kct

/-- **C5** (corrected): every emitted lookup clause is
`<var> as var(func: eq(<natural attribute>, "<escaped key>"))`; the Judge,
Outcome and CaseDuration clauses carry a type filter, the Advocate and
Court clauses additionally carry an equality filter on the discriminator
attribute (`advocate_type`, `location` — the latter only when a location is
present), but the Citation clause carries **no** filter of any kind. -/
theorem lookup_clause_shapes (cits js pets resps : List String)
    (o d cn cloc cb : Option String)
    (cC cJ cA cO cD : List (String × String))
    (cCt : List (String × CourtData))
    (hC : ∀ kv ∈ cC, kv.2 = get_hash kv.1)
    (hJ : ∀ kv ∈ cJ, kv.2 = get_hash kv.1)
    (hA : ∀ kv ∈ cA, kv.2 = get_hash kv.1)
    (hO : ∀ kv ∈ cO, kv.2 = get_hash kv.1)
    (hD : ∀ kv ∈ cD, kv.2 = get_hash kv.1)
    (hCt : ∀ kv ∈ cCt, kv.2.hash = get_hash kv.1) :
    (∀ q ∈ (CitationRelation.build_query_parts cits cC).1, ∃ x ∈ cits,
      q = "cite_" ++ get_hash x ++ " as var(func: eq(title, \"" ++
        escapeQuotes x ++ "\"))") ∧
    (∀ q ∈ (JudgeRelation.build_query_parts js cJ).1, ∃ x ∈ js,
      q = "judge_" ++ get_hash x ++ " as var(func: eq(name, \"" ++
        escapeQuotes x ++ "\")) @filter(type(Judge))") ∧
    (∀ q ∈ (AdvocateRelation.build_query_parts pets resps cA).1,
      (∃ x ∈ pets,
        q = "adv_" ++ get_hash x ++ " as var(func: eq(name, \"" ++
          escapeQuotes x ++
          "\")) @filter(type(Advocate) AND eq(advocate_type, \"" ++
          "petitioner" ++ "\"))") ∨
      (∃ x ∈ resps,
        q = "adv_" ++ get_hash (x ++ "_respondant") ++
          " as var(func: eq(name, \"" ++ escapeQuotes x ++
          "\")) @filter(type(Advocate) AND eq(advocate_type, \"" ++
          "respondant" ++ "\"))")) ∧
    (∀ q ∈ (OutcomeRelation.build_query_parts o cO).1, ∃ t, o = some t ∧
      q = "outcome_" ++ get_hash t ++ " as var(func: eq(name, \"" ++
        escapeQuotes t ++ "\")) @filter(type(Outcome))") ∧
    (∀ q ∈ (CaseDurationRelation.build_query_parts d cD).1, ∃ t, d = some t ∧
      q = "duration_" ++ get_hash t ++ " as var(func: eq(duration, \"" ++
        escapeQuotes t ++ "\")) @filter(type(CaseDuration))") ∧
    (∀ q ∈ (CourtRelation.build_query_parts cn cloc cb cCt).1, ∃ nm,
      cn = some nm ∧
      ((∃ l, cloc = some l ∧
        q = "court_" ++ get_hash (nm ++ "_" ++ l) ++
          " as var(func: eq(name, \"" ++ escapeQuotes nm ++
          "\")) @filter(type(Court) AND eq(location, \"" ++ escapeQuotes l ++
          "\"))") ∨
       (cloc = none ∧
        q = "court_" ++ get_hash nm ++ " as var(func: eq(name, \"" ++
          escapeQuotes nm ++ "\")) @filter(type(Court))"))) := by
  refine ⟨?_, ?_, ?_, ?_, ?_, ?_⟩
  · intro q hq
    rw [citation_step cits cC hC] at hq
    obtain ⟨x, hx, hqe⟩ := List.mem_map.mp hq
    exact ⟨x, firstSeen_mem_sub hx, hqe.symm⟩
  · intro q hq
    rw [judge_step js cJ hJ] at hq
    obtain ⟨x, hx, hqe⟩ := List.mem_map.mp hq
    exact ⟨x, firstSeen_mem_sub hx, hqe.symm⟩
  · intro q hq
    rw [advocate_step pets resps cA hA] at hq
    rcases List.mem_append.mp hq with hq | hq
    · obtain ⟨x, hx, hqe⟩ := List.mem_map.mp hq
      exact Or.inl ⟨x, firstSeen_mem_sub hx, hqe.symm⟩
    · obtain ⟨x, hx, hqe⟩ := List.mem_map.mp hq
      exact Or.inr ⟨x, newXs_mem_sub hx, hqe.symm⟩
  · intro q hq
    rw [outcome_step o cO hO] at hq
    obtain ⟨t, ht, hqe⟩ := List.mem_map.mp hq
    exact ⟨t, mem_optKeys (firstSeen_mem_sub ht), hqe.symm⟩
  · intro q hq
    rw [duration_step d cD hD] at hq
    obtain ⟨t, ht, hqe⟩ := List.mem_map.mp hq
    exact ⟨t, mem_optKeys (firstSeen_mem_sub ht), hqe.symm⟩
  · intro q hq
    rw [court_step cn cloc cb cCt hCt] at hq
    cases cn with
    | none => simp at hq
    | some nm =>
      by_cases hnm : nm = ""
      · simp [hnm] at hq
      · by_cases hmem : CourtRelation.keyOf nm cloc ∈ cCt.map Prod.fst
        · simp [hnm, hmem] at hq
        · simp only [hnm, hmem, if_neg, if_false, List.mem_singleton] at hq
          refine ⟨nm, rfl, ?_⟩
          cases cloc with
          | some l =>
            refine Or.inl ⟨l, rfl, ?_⟩
            rw [hq]
            rfl
          | none =>
            refine Or.inr ⟨rfl, ?_⟩
            rw [hq]
            rfl

/-- **C4** (corrected): the advocate cache key is the bare normalized name
for petitioners and the name suffixed `"_respondant"` for respondants; for
any name without an underscore this realizes the identity key (name, role):
one name appearing in both roles makes two distinct cache keys and two
Advocate nodes, each carrying the name and the advocate_type recovered from
its key. (Names containing the suffix collide; see the counterexample.) -/
theorem advocate_identity_key_role (n : String) (h : '_' ∉ n.data) :
    (¬ n = n ++ "_respondant") ∧
    ((AdvocateRelation.build_query_parts [n] [n] []).2.2.2.map Prod.fst =
      [n, n ++ "_respondant"]) ∧
    (AdvocateRelation.build_advocate_nodes
        (AdvocateRelation.build_query_parts [n] [n] []).2.2.2 =
      [[("uid", NVal.uid ("adv_" ++ get_hash n)),
        ("advocate_id", NVal.str ("adv_" ++ get_hash n)),
        ("name", NVal.str n),
        ("advocate_type", NVal.str ("petitioner")),
        ("dgraph.type", NVal.str ("Advocate"))],
       [("uid", NVal.uid ("adv_" ++ get_hash (n ++ "_respondant"))),
        ("advocate_id", NVal.str ("adv_" ++ get_hash (n ++ "_respondant"))),
        ("name", NVal.str n),
        ("advocate_type", NVal.str ("respondant")),
        ("dgraph.type", NVal.str ("Advocate"))]]) := by
  have hne : ¬ n = n ++ "_respondant" := append_ne_self n _ (by decide)
  have hne2 : ¬ n ++ "_respondant" = n := fun hh => hne hh.symm
  have hcache : (AdvocateRelation.build_query_parts [n] [n] []).2.2.2 =
      [(n, get_hash n),
       (n ++ "_respondant", get_hash (n ++ "_respondant"))] := by
    rw [advocate_step [n] [n] [] (by simp)]
    simp [firstSeen, newXs, hne2]
  refine ⟨hne, ?_, ?_⟩
  · rw [hcache]
    simp
  · rw [hcache]
    unfold AdvocateRelation.build_advocate_nodes
    simp only [List.map_cons, List.map_nil]
    rw [pyReplace_no_underscore h, pyContains_respondant_false h,
      pyReplace_strip_respondant h, pyContains_append_self]
    rfl

/-- **C8** (corrected): court identity is the single string cache key
`name + "_" + location` (bare `name` without a location), computed by
`keyOf`: two documents share one Court node exactly when their keys are
equal, `bench_type` never participates, and each document's
`court_heard_in` variable is `court_<hash(key)>`. (Distinct (name,
location) pairs can still collide through the string encoding; see the
counterexample.) -/
theorem court_identity_key (n1 n2 : String) (l1 l2 b1 b2 : Option String)
    (h1 : ¬ n1 = "") (h2 : ¬ n2 = "") :
    ((CourtRelation.build_query_parts (some n2) l2 b2
        (CourtRelation.build_query_parts (some n1) l1 b1 []).2.2).2.2.map
          Prod.fst =
      if CourtRelation.keyOf n2 l2 = CourtRelation.keyOf n1 l1 then
        [CourtRelation.keyOf n1 l1]
      else [CourtRelation.keyOf n1 l1, CourtRelation.keyOf n2 l2]) ∧
    ((CourtRelation.build_court_nodes
        (CourtRelation.build_query_parts (some n2) l2 b2
          (CourtRelation.build_query_parts (some n1) l1 b1 []).2.2).2.2).length =
      if CourtRelation.keyOf n2 l2 = CourtRelation.keyOf n1 l1 then 1 else 2) ∧
    ((CourtRelation.build_query_parts (some n2) l2 b2
        (CourtRelation.build_query_parts (some n1) l1 b1 []).2.2).2.1 =
      some ("court_" ++ get_hash (CourtRelation.keyOf n2 l2))) ∧
    ((CourtRelation.build_query_parts (some n1) l1 b1 []).2.1 =
      some ("court_" ++ get_hash (CourtRelation.keyOf n1 l1))) := by
  have e1 : CourtRelation.build_query_parts (some n1) l1 b1 [] =
      ([CourtRelation.clauseFor n1 l1],
       some ("court_" ++ get_hash (CourtRelation.keyOf n1 l1)),
       [(CourtRelation.keyOf n1 l1,
         { hash := get_hash (CourtRelation.keyOf n1 l1), name := n1,
           location := l1, bench_type := b1 })]) := by
    rw [court_step (some n1) l1 b1 [] (by simp)]
    simp [h1]
  have hWF1 : ∀ kv ∈ [(CourtRelation.keyOf n1 l1,
      ({ hash := get_hash (CourtRelation.keyOf n1 l1), name := n1,
         location := l1, bench_type := b1 } : CourtData))],
      kv.2.hash = get_hash kv.1 := by
    intro kv hkv
    simp only [List.mem_singleton] at hkv
    subst hkv
    rfl
  rw [e1]
  rw [court_step (some n2) l2 b2 _ hWF1]
  by_cases hk : CourtRelation.keyOf n2 l2 = CourtRelation.keyOf n1 l1
  · simp [CourtRelation.build_court_nodes, h2, hk]
  · simp [CourtRelation.build_court_nodes, h2, hk]

/-- **C6** (corrected): on the built Judgment node every edge and every
optional attribute is keyed only when its extracted value is non-empty
(absent or empty values produce no key at all), but `title` and `doc_id`
are emitted unconditionally — the title key is present even when the
extracted title is the empty string. -/
theorem judgment_node_key_presence (ex : DocExtract) (st : BState)
    (hWF : WFState st) :
    nodeHasKey (docNode ex st) ("cites") = !ex.cits.isEmpty ∧
    nodeHasKey (docNode ex st) ("judged_by") = !ex.judges.isEmpty ∧
    nodeHasKey (docNode ex st) ("petitioner_represented_by") =
      !ex.pets.isEmpty ∧
    nodeHasKey (docNode ex st) ("respondant_represented_by") =
      !ex.resps.isEmpty ∧
    nodeHasKey (docNode ex st) ("has_outcome") = !(optKeys ex.outc).isEmpty ∧
    nodeHasKey (docNode ex st) ("has_case_duration") =
      !(optKeys ex.dur).isEmpty ∧
    nodeHasKey (docNode ex st) ("court_heard_in") =
      !(courtKeyOpt ex.court_name ex.court_location).isEmpty ∧
    nodeHasKey (docNode ex st) ("year") =
      (match ex.jd.year with | JVal.null => false | _ => true) ∧
    nodeHasKey (docNode ex st) ("processed_timestamp") =
      ex.jd.processed_timestamp.truthy ∧
    nodeHasKey (docNode ex st) ("title") = true ∧
    nodeHasKey (docNode ex st) ("doc_id") = true ∧
    nodeHasStrVal (docNode ex st) ("title") ex.jd.title = true := by
  obtain ⟨_, _, h3, h4, _, h6, h7, h8, h9, h10, h11, h12, h13, h14⟩ :=
    docNode_keySpec ex st hWF
  refine ⟨h8, h9, h10, h11, h12, h13, h14, h6, h7, h3, h4, ?_⟩
  rw [docNode_eq ex st hWF]
  simp [JudgmentRelation.build_judgment_node, nodeHasStrVal_append,
    nodeHasStrVal_cons_uid, nodeHasStrVal_cons_str,
    nodeHasStrVal_edgeField, nodeHasStrVal_refField,
    nodeHasStrVal_yearField, nodeHasStrVal_tsField]

/-- **C3** (corrected): the detector includes a label precisely when the
**raw** field is truthy (with a `len(...) > 0` check on the list-like
fields), not when the field is non-empty after §4.1 normalization; on
documents where raw truthiness agrees with post-normalization
non-emptiness (the stated hypotheses), each of the six relation labels is
reported present exactly when the Judgment node built from the extraction
carries the corresponding edge key. -/
theorem detector_builder_agreement (doc : ESDoc) (ex : DocExtract)
    (ls : List String) (st : BState) (ac : Bool)
    (hWF : WFState st)
    (hdet : detect_entities_in_document doc = .ok ls)
    (hc : truthyLen (srcGet doc.source ("citations") (JVal.l [])) =
      .ok (!ex.cits.isEmpty))
    (hj : truthyLen (srcGet doc.source ("judges") (JVal.l [])) =
      .ok (!ex.judges.isEmpty))
    (hpa : truthyLen (srcGet doc.source ("petitioner_advocates")
      (JVal.l [])) = .ok (!ex.pets.isEmpty))
    (hra : truthyLen (srcGet doc.source ("respondant_advocates")
      (JVal.l [])) = .ok (!ex.resps.isEmpty))
    (hac : truthyLen (srcGet doc.source ("acts") (JVal.l [])) = .ok ac)
    (ho : (srcGet doc.source ("outcome") JVal.null).truthy =
      !(optKeys ex.outc).isEmpty)
    (hd : (srcGet doc.source ("case_duration") JVal.null).truthy =
      !(optKeys ex.dur).isEmpty)
    (hct : (srcGet doc.source ("court") JVal.null).truthy =
      !(courtKeyOpt ex.court_name ex.court_location).isEmpty) :
    ((("citations" : String) ∈ ls) ↔
      nodeHasKey (docNode ex st) ("cites") = true) ∧
    ((("judges" : String) ∈ ls) ↔
      nodeHasKey (docNode ex st) ("judged_by") = true) ∧
    ((("advocates" : String) ∈ ls) ↔
      (nodeHasKey (docNode ex st) ("petitioner_represented_by") = true ∨
       nodeHasKey (docNode ex st) ("respondant_represented_by") = true)) ∧
    ((("outcome" : String) ∈ ls) ↔
      nodeHasKey (docNode ex st) ("has_outcome") = true) ∧
    ((("case_duration" : String) ∈ ls) ↔
      nodeHasKey (docNode ex st) ("has_case_duration") = true) ∧
    ((("court" : String) ∈ ls) ↔
      nodeHasKey (docNode ex st) ("court_heard_in") = true) := by
  have hde := detect_entities_eq doc _ _ _ _ _ hc hj hpa hra hac
  rw [hdet] at hde
  simp only [Except.ok.injEq] at hde
  subst hde
  obtain ⟨_, _, _, _, _, _, _, k8, k9, k10, k11, k12, k13, k14⟩ :=
    docNode_keySpec ex st hWF
  refine ⟨?_, ?_, ?_, ?_, ?_, ?_⟩ <;>
    simp [k8, k9, k10, k11, k12, k13, k14, mem_if_singleton, ho, hd, hct]

end SymbolicLemmas

/-! ## Concrete witnesses and counterexamples

Everything below is closed: the definitions are evaluated on the concrete
example inputs. -/

/-- Witness for C10 at the concrete two-document scenario batch. -/
theorem build_mutation_refs_bound_witness :
    MutationBuilder.build_mutation exDocs = .ok exMutation ∧
    (∃ exs, extractDocs exDocs 1 = .ok exs ∧
      exMutation.query = wrapQuery (foldDocs exs BState.empty).1 ∧
      exMutation.set = (foldDocs exs BState.empty).2.1 ++
        MutationBuilder.entityNodes (foldDocs exs BState.empty).2.2 ∧
      ∀ node ∈ exMutation.set, ∀ v ∈ nodeRefs node,
        ∃ c ∈ (foldDocs exs BState.empty).1, bindsVar c v) :=
  ⟨rfl, build_mutation_refs_bound exDocs exMutation rfl⟩

/-- Witness for C2: building from a dirty pre-existing handler state and
from the fresh state produces the identical mutation. -/
theorem build_mutation_deterministic_witness :
    MutationBuilder.buildFrom exState exDocs = .ok exMutation ∧
    MutationBuilder.buildFrom BState.empty exDocs = .ok exMutation ∧
    (exMutation.query = exMutation.query ∧ exMutation.set = exMutation.set ∧
     MutationBuilder.buildFrom exState exDocs =
       MutationBuilder.build_mutation exDocs) :=
  ⟨rfl, rfl,
   build_mutation_deterministic exState BState.empty exDocs exMutation
     exMutation rfl rfl⟩

/-- Witness for C1: both scenario documents name the judge `"J. Rao"`; the
built mutation has exactly one Judge node and both root nodes reference
the same `judge_<hash>` variable. -/
theorem build_mutation_judge_dedup_witness :
    MutationBuilder.build_mutation exDocs = .ok exMutation ∧
    extractDocs exDocs 1 = .ok exExs ∧
    (0 : Nat) < exExs.length ∧ (1 : Nat) < exExs.length ∧
    (WFState (foldDocs exExs BState.empty).2.2 ∧
     exMutation.set.countP (isTypedNodeNamed ("Judge") ("J. Rao")) = 1 ∧
     hasEdgeTo (exMutation.set.getD 0 []) ("judged_by")
       ("judge_" ++ get_hash ("J. Rao")) = true ∧
     hasEdgeTo (exMutation.set.getD 1 []) ("judged_by")
       ("judge_" ++ get_hash ("J. Rao")) = true) :=
  ⟨rfl, rfl, by decide, by decide,
   build_mutation_judge_dedup exDocs exMutation exExs rfl rfl 0 1 (by decide)
     (by decide) ("J. Rao") (by decide) (by decide)⟩

/-- Witness for C9 at the concrete two-document scenario batch. -/
theorem build_mutation_set_order_witness :
    MutationBuilder.build_mutation exDocs = .ok exMutation ∧
    (∃ exs, extractDocs exDocs 1 = .ok exs ∧
      exs.length = exDocs.length ∧
      (foldDocs exs BState.empty).2.1.length = exDocs.length ∧
      exMutation.set = (foldDocs exs BState.empty).2.1 ++
        (CitationRelation.build_citation_nodes
            (foldDocs exs BState.empty).2.2.citations ++
          (JudgeRelation.build_judge_nodes
              (foldDocs exs BState.empty).2.2.judges ++
            (AdvocateRelation.build_advocate_nodes
                (foldDocs exs BState.empty).2.2.advocates ++
              (OutcomeRelation.build_outcome_nodes
                  (foldDocs exs BState.empty).2.2.outcomes ++
                (CaseDurationRelation.build_case_duration_nodes
                    (foldDocs exs BState.empty).2.2.durations ++
                  CourtRelation.build_court_nodes
                    (foldDocs exs BState.empty).2.2.courts))))) ∧
      (∀ node ∈ (foldDocs exs BState.empty).2.1, ∀ ty,
        nodeHasStrVal node ("dgraph.type") ty = ("Judgment" == ty)) ∧
      (∀ node ∈ CitationRelation.build_citation_nodes
          (foldDocs exs BState.empty).2.2.citations, ∀ ty,
        nodeHasStrVal node ("dgraph.type") ty = ("Judgment" == ty)) ∧
      (∀ node ∈ JudgeRelation.build_judge_nodes
          (foldDocs exs BState.empty).2.2.judges, ∀ ty,
        nodeHasStrVal node ("dgraph.type") ty = ("Judge" == ty)) ∧
      (∀ node ∈ AdvocateRelation.build_advocate_nodes
          (foldDocs exs BState.empty).2.2.advocates, ∀ ty,
        nodeHasStrVal node ("dgraph.type") ty = ("Advocate" == ty)) ∧
      (∀ node ∈ OutcomeRelation.build_outcome_nodes
          (foldDocs exs BState.empty).2.2.outcomes, ∀ ty,
        nodeHasStrVal node ("dgraph.type") ty = ("Outcome" == ty)) ∧
      (∀ node ∈ CaseDurationRelation.build_case_duration_nodes
          (foldDocs exs BState.empty).2.2.durations, ∀ ty,
        nodeHasStrVal node ("dgraph.type") ty = ("CaseDuration" == ty)) ∧
      (∀ node ∈ CourtRelation.build_court_nodes
          (foldDocs exs BState.empty).2.2.courts, ∀ ty,
        nodeHasStrVal node ("dgraph.type") ty = ("Court" == ty)) ∧
      WFState (foldDocs exs BState.empty).2.2 ∧
      (foldDocs exs BState.empty).2.2.citations.map Prod.fst =
        firstSeen [] (citStream exs) ∧
      (foldDocs exs BState.empty).2.2.judges.map Prod.fst =
        firstSeen [] (judgeStream exs) ∧
      (foldDocs exs BState.empty).2.2.advocates.map Prod.fst =
        firstSeen [] (advStream exs) ∧
      (foldDocs exs BState.empty).2.2.outcomes.map Prod.fst =
        firstSeen [] (outcStream exs) ∧
      (foldDocs exs BState.empty).2.2.durations.map Prod.fst =
        firstSeen [] (durStream exs) ∧
      (foldDocs exs BState.empty).2.2.courts.map Prod.fst =
        firstSeen [] (courtStream exs) ∧
      exMutation.query = wrapQuery (foldDocs exs BState.empty).1) :=
  ⟨rfl, build_mutation_set_order exDocs exMutation rfl⟩

/-- Witness for C5 with every cache empty (the judge conjunct, at the
scenario inputs). -/
theorem lookup_clause_shapes_witness :
    (∀ kv ∈ ([] : List (String × String)), kv.2 = get_hash kv.1) ∧
    (∀ kv ∈ ([] : List (String × CourtData)), kv.2.hash = get_hash kv.1) ∧
    (∀ q ∈ (JudgeRelation.build_query_parts [("J. Rao")] []).1,
      ∃ x ∈ [("J. Rao")],
      q = "judge_" ++ get_hash x ++ " as var(func: eq(name, \"" ++
        escapeQuotes x ++ "\")) @filter(type(Judge))") :=
  ⟨by simp, by simp,
   (lookup_clause_shapes [("Case A")] [("J. Rao")] [("R. Singh")]
      [("R. Singh")] (some ("Allowed")) (some ("2 years")) (some ("HC"))
      (some ("Delhi")) none [] [] [] [] [] [] (by simp) (by simp) (by simp)
      (by simp) (by simp) (by simp)).2.1⟩

/-- Counterexample for C5's original form: the Citation lookup clause
carries no `@filter` at all — in particular no type filter. -/
theorem citation_clause_unfiltered :
    (CitationRelation.build_query_parts [("Case A")] []).1 =
      [("cite_da21170bc3e2 as var(func: eq(title, \"Case A\"))" : String)] ∧
    pyContains
      ((CitationRelation.build_query_parts [("Case A")] []).1.headD (""))
      ("@filter") = false :=
  ⟨rfl, rfl⟩

/-- Witness for C4 at the name `"R. Singh"` (no underscore). -/
theorem advocate_identity_key_role_witness :
    ('_' ∉ ("R. Singh").data) ∧
    ((¬ ("R. Singh" : String) = ("R. Singh") ++ "_respondant") ∧
     ((AdvocateRelation.build_query_parts [("R. Singh")] [("R. Singh")]
         []).2.2.2.map Prod.fst =
       [("R. Singh" : String), ("R. Singh") ++ "_respondant"]) ∧
     (AdvocateRelation.build_advocate_nodes
         (AdvocateRelation.build_query_parts [("R. Singh")] [("R. Singh")]
           []).2.2.2 =
       [[("uid", NVal.uid ("adv_" ++ get_hash ("R. Singh"))),
         ("advocate_id", NVal.str ("adv_" ++ get_hash ("R. Singh"))),
         ("name", NVal.str ("R. Singh")),
         ("advocate_type", NVal.str ("petitioner")),
         ("dgraph.type", NVal.str ("Advocate"))],
        [("uid", NVal.uid ("adv_" ++
           get_hash (("R. Singh") ++ "_respondant"))),
         ("advocate_id", NVal.str ("adv_" ++
           get_hash (("R. Singh") ++ "_respondant"))),
         ("name", NVal.str ("R. Singh")),
         ("advocate_type", NVal.str ("respondant")),
         ("dgraph.type", NVal.str ("Advocate"))]])) :=
  ⟨by decide, advocate_identity_key_role ("R. Singh") (by decide)⟩

/-- Counterexample for C4's original form: the petitioner name
`"X_respondant"` and the respondant name `"X"` produce the **same** cache
key, hence a single Advocate node — and that node claims name `"X"` with
role `respondant`, although `"X_respondant"` was inserted as a petitioner
first. -/
theorem advocate_key_collision :
    ((AdvocateRelation.build_query_parts [("X_respondant")] [("X")]
        []).2.2.2 = [(("X_respondant" : String), ("463cd219f31e"))]) ∧
    (AdvocateRelation.build_advocate_nodes
        (AdvocateRelation.build_query_parts [("X_respondant")] [("X")]
          []).2.2.2 =
      [[("uid", NVal.uid ("adv_463cd219f31e")),
        ("advocate_id", NVal.str ("adv_463cd219f31e")),
        ("name", NVal.str ("X")),
        ("advocate_type", NVal.str ("respondant")),
        ("dgraph.type", NVal.str ("Advocate"))]]) :=
  ⟨rfl, rfl⟩

/-- Witness for C8: the same court name with and without a location gives
two distinct keys and two Court nodes, independently of bench values. -/
theorem court_identity_key_witness :
    (¬ ("HC" : String) = "") ∧
    (((CourtRelation.build_query_parts (some ("HC")) none (some ("Division"))
        (CourtRelation.build_query_parts (some ("HC")) (some ("Delhi")) none
          []).2.2).2.2.map Prod.fst =
      if CourtRelation.keyOf ("HC") none =
          CourtRelation.keyOf ("HC") (some ("Delhi")) then
        [CourtRelation.keyOf ("HC") (some ("Delhi"))]
      else [CourtRelation.keyOf ("HC") (some ("Delhi")),
            CourtRelation.keyOf ("HC") none]) ∧
    ((CourtRelation.build_court_nodes
        (CourtRelation.build_query_parts (some ("HC")) none
          (some ("Division"))
          (CourtRelation.build_query_parts (some ("HC")) (some ("Delhi"))
            none []).2.2).2.2).length =
      if CourtRelation.keyOf ("HC") none =
          CourtRelation.keyOf ("HC") (some ("Delhi")) then 1 else 2) ∧
    ((CourtRelation.build_query_parts (some ("HC")) none (some ("Division"))
        (CourtRelation.build_query_parts (some ("HC")) (some ("Delhi")) none
          []).2.2).2.1 =
      some ("court_" ++ get_hash (CourtRelation.keyOf ("HC") none))) ∧
    ((CourtRelation.build_query_parts (some ("HC")) (some ("Delhi")) none
        []).2.1 =
      some ("court_" ++
        get_hash (CourtRelation.keyOf ("HC") (some ("Delhi")))))) :=
  ⟨by decide,
   court_identity_key ("HC") ("HC") (some ("Delhi")) none none
     (some ("Division")) (by decide) (by decide)⟩

/-- Counterexample for C8's original form: the pairs `("A_B", no location)`
and `("A", "B")` are distinct (name, location) identities but encode to
the same key string `"A_B"`, so both documents resolve to one shared Court
node — which carries the first document's name `"A_B"` and no location. -/
theorem court_key_collision :
    (CourtRelation.keyOf ("A_B") none =
      CourtRelation.keyOf ("A") (some ("B"))) ∧
    ((CourtRelation.build_query_parts (some ("A")) (some ("B")) none
        (CourtRelation.build_query_parts (some ("A_B")) none none
          []).2.2).2.2.map Prod.fst = [("A_B" : String)]) ∧
    (CourtRelation.build_court_nodes
        (CourtRelation.build_query_parts (some ("A")) (some ("B")) none
          (CourtRelation.build_query_parts (some ("A_B")) none none
            []).2.2).2.2 =
      [[("uid", NVal.uid ("court_350f8fcc3cd5")),
        ("court_id", NVal.str ("court_350f8fcc3cd5")),
        ("name", NVal.str ("A_B")),
        ("dgraph.type", NVal.str ("Court"))]]) ∧
    ((CourtRelation.build_query_parts (some ("A")) (some ("B")) none
        (CourtRelation.build_query_parts (some ("A_B")) none none
          []).2.2).2.1 = some ("court_350f8fcc3cd5")) :=
  ⟨rfl, rfl, rfl, rfl⟩

/-- Witness for C6 at the second scenario extraction record. -/
theorem judgment_node_key_presence_witness :
    WFState BState.empty ∧
    (nodeHasKey (docNode exEx2 BState.empty) ("cites") =
      !exEx2.cits.isEmpty ∧
    nodeHasKey (docNode exEx2 BState.empty) ("judged_by") =
      !exEx2.judges.isEmpty ∧
    nodeHasKey (docNode exEx2 BState.empty) ("petitioner_represented_by") =
      !exEx2.pets.isEmpty ∧
    nodeHasKey (docNode exEx2 BState.empty) ("respondant_represented_by") =
      !exEx2.resps.isEmpty ∧
    nodeHasKey (docNode exEx2 BState.empty) ("has_outcome") =
      !(optKeys exEx2.outc).isEmpty ∧
    nodeHasKey (docNode exEx2 BState.empty) ("has_case_duration") =
      !(optKeys exEx2.dur).isEmpty ∧
    nodeHasKey (docNode exEx2 BState.empty) ("court_heard_in") =
      !(courtKeyOpt exEx2.court_name exEx2.court_location).isEmpty ∧
    nodeHasKey (docNode exEx2 BState.empty) ("year") =
      (match exEx2.jd.year with | JVal.null => false | _ => true) ∧
    nodeHasKey (docNode exEx2 BState.empty) ("processed_timestamp") =
      exEx2.jd.processed_timestamp.truthy ∧
    nodeHasKey (docNode exEx2 BState.empty) ("title") = true ∧
    nodeHasKey (docNode exEx2 BState.empty) ("doc_id") = true ∧
    nodeHasStrVal (docNode exEx2 BState.empty) ("title")
      exEx2.jd.title = true) :=
  ⟨WFState_empty,
   judgment_node_key_presence exEx2 BState.empty WFState_empty⟩

/-- Counterexample for C6's original form: a document with no title field
still gets a `title` key, valued by the **empty string**, on its Judgment
node (empty values are not omitted for title/doc_id); its node indeed has
no `cites` key. -/
theorem judgment_empty_title_counterexample :
    nodeHasStrVal (setNode (MutationBuilder.build_mutation [⟨("1"), []⟩]) 0)
      ("title") ("") = true ∧
    nodeHasKey (setNode (MutationBuilder.build_mutation [⟨("1"), []⟩]) 0)
      ("cites") = false :=
  ⟨rfl, rfl⟩

/-- Witness for C3 at the second scenario document, whose raw fields are
clean. -/
theorem detector_builder_agreement_witness :
    WFState BState.empty ∧
    detect_entities_in_document exDoc2 =
      .ok [("judgment" : String), ("citations"), ("judges")] ∧
    (((("citations" : String) ∈
        [("judgment" : String), ("citations"), ("judges")]) ↔
      nodeHasKey (docNode exEx2 BState.empty) ("cites") = true) ∧
    ((("judges" : String) ∈
        [("judgment" : String), ("citations"), ("judges")]) ↔
      nodeHasKey (docNode exEx2 BState.empty) ("judged_by") = true) ∧
    ((("advocates" : String) ∈
        [("judgment" : String), ("citations"), ("judges")]) ↔
      (nodeHasKey (docNode exEx2 BState.empty)
        ("petitioner_represented_by") = true ∨
       nodeHasKey (docNode exEx2 BState.empty)
        ("respondant_represented_by") = true)) ∧
    ((("outcome" : String) ∈
        [("judgment" : String), ("citations"), ("judges")]) ↔
      nodeHasKey (docNode exEx2 BState.empty) ("has_outcome") = true) ∧
    ((("case_duration" : String) ∈
        [("judgment" : String), ("citations"), ("judges")]) ↔
      nodeHasKey (docNode exEx2 BState.empty) ("has_case_duration") =
        true) ∧
    ((("court" : String) ∈
        [("judgment" : String), ("citations"), ("judges")]) ↔
      nodeHasKey (docNode exEx2 BState.empty) ("court_heard_in") = true)) :=
  ⟨WFState_empty, rfl,
   detector_builder_agreement exDoc2 exEx2
     [("judgment"), ("citations"), ("judges")] BState.empty false
     WFState_empty rfl rfl rfl rfl rfl rfl rfl rfl rfl⟩

/-- Counterexample for C3's original form: a citations list holding one
whitespace-only string is truthy raw (`len > 0`), so the detector reports
`citations` present, but after §4.1 normalization the list is empty and the
builder emits no `cites` edge. -/
theorem detector_normalization_divergence :
    detectedLabels (detect_entities_in_document
        ⟨("1"), [("title", JVal.s ("T")),
                 ("citations", JVal.l [JVal.s (" ")])]⟩) =
      [("judgment" : String), ("citations")] ∧
    CitationRelation.extract_citations
        [("title", JVal.s ("T")), ("citations", JVal.l [JVal.s (" ")])] =
      .ok [] ∧
    nodeHasKey (setNode (MutationBuilder.build_mutation
        [⟨("1"), [("title", JVal.s ("T")),
                  ("citations", JVal.l [JVal.s (" ")])]⟩]) 0) ("cites") =
      false :=
  ⟨rfl, rfl, rfl⟩

/-- **C7** (code bug): extraction is not total. An explicit `null` court
field reaches `None.strip()` and raises `AttributeError`, and the
exception propagates out of `build_mutation` to the caller; by contrast
`extract_citations` recovers an explicit `null` citations field to the
empty result as the specification describes. -/
theorem extract_court_null_raises :
    CourtRelation.extract_court [("court", JVal.null)] =
      .error PyErr.attributeError ∧
    MutationBuilder.build_mutation [⟨("1"), [("court", JVal.null)]⟩] =
      .error PyErr.attributeError ∧
    CitationRelation.extract_citations [("citations", JVal.null)] =
      .ok [] :=
  ⟨rfl, rfl, rfl⟩

end DgraphCurl
